import Mathlib

/-!
# MoneyTrack: the expense ledger of `ExpenseTracker_Backend`

A shallow embedding of `controllers/expenseController.js` and of the schema in
`models/Expense.js`, and, for the client, of the chart data of
`components/ExpenseChart.jsx` and of the reducer of `context/ExpenseContext.jsx`.

* The collection is a list of stored documents in insertion order. A listing
  is read from the index `{ user: 1, date: -1 }` declared by the schema, in
  which the documents of one user and one date follow the order of their
  records, so a listing keeps the insertion order between equal dates.
* A request body field is a JSON scalar or absent (`JsVal`); nested JSON values
  (arrays, objects) are not part of the input type.
* A JavaScript number is the rational it denotes; `NaN` is `none`; infinite
  values are not part of the model. The result of a JavaScript operation on
  numbers is rounded to an IEEE 754 double (`toDouble`); the sums of the
  aggregation pipeline are computed by the database, in floating point
  (`Runtime.sum`).
* A `Date` is a number of milliseconds since the epoch; `Invalid Date` is `none`.
* What the language runtime and the database decide (string to number
  conversion, number printing, `Date.parse`, `ObjectId` casting, the clock, the
  identifier generated for a new document, the floating-point sums of the
  aggregation pipeline, the order of `$group` results with equal sort keys) is
  a field of `Runtime`, so every statement holds for every such behaviour.
* Each controller is a function from the collection and the request to the
  response and the collection afterwards.
-/

namespace MoneyTrack

/-! ## JavaScript values -/

/-- Identifier of a stored document or of a user (a MongoDB `ObjectId`). -/
abbrev ObjectId := Nat

/-- Value of a field of `req.body`: absent (`undefined`) or a JSON scalar. -/
inductive JsVal where
  | undefined
  | null
  | bool (b : Bool)
  | num (q : ℚ)
  | str (s : String)
  deriving DecidableEq

/-- Behaviour of the language runtime and of the database driver. -/
structure Runtime where
  /-- `Number(s)` for a string; `none` is `NaN`. -/
  stringToNumber : String → Option ℚ
  /-- `String(q)` for a number. -/
  numberToString : ℚ → String
  /-- `Date.parse(s)`; `none` is `NaN`. -/
  dateParse : String → Option Int
  /-- Cast of a request identifier to an `ObjectId`; `none` raises `CastError`. -/
  castObjectId : String → Option ObjectId
  /-- Message of the `CastError` recorded for a schema path. -/
  castMessage : String → String
  /-- Current time, `Date.now()`, read once per request. -/
  now : Int
  /-- Identifier generated for the document built by `new Expense(...)`. -/
  newObjectId : ObjectId
  /-- The accumulator `$sum` of the database over numbers, which are given in
  the order they come in. The numbers are doubles and are added in floating
  point; how the sum is rounded is the database's. -/
  sum : List ℚ → ℚ
  /-- Place the database gives a `$group` result among results with equal
  sort keys: `$sort: { total: -1 }` names no further key. Equal places keep
  the order of first occurrence. -/
  groupRank : String → Int

/-- JavaScript truthiness, as tested by `!v` and `v ? a : b`. -/
def JsVal.truthy : JsVal → Bool
  | .undefined => false
  | .null => false
  | .bool b => b
  | .num q => decide (q ≠ 0)
  | .str s => decide (s ≠ "")

/-- Abstract operation `ToNumber`; `none` is `NaN`. -/
def toNumber (rt : Runtime) : JsVal → Option ℚ
  | .undefined => none
  | .null => some 0
  | .bool b => some (if b then 1 else 0)
  | .num q => some q
  | .str s => rt.stringToNumber s

/-- The comparison `v <= 0`: false when `v` converts to `NaN`. -/
def leZero (rt : Runtime) (v : JsVal) : Bool :=
  match toNumber rt v with
  | some q => decide (q ≤ 0)
  | none => false

/-- Nearest integer of a rational, a tie going to the even integer. -/
def roundEven (q : ℚ) : Int :=
  if q - ⌊q⌋ < 1 / 2 then ⌊q⌋
  else if 1 / 2 < q - ⌊q⌋ then ⌊q⌋ + 1
  else if ⌊q⌋ % 2 = 0 then ⌊q⌋ else ⌊q⌋ + 1

/-- Distance between the doubles next to a rational that is not 0: `2 ^ (e - 52)`
for `2 ^ e ≤ |q| < 2 ^ (e + 1)`, and `2 ^ (-1074)` in the subnormal range. -/
def ulp (q : ℚ) : ℚ :=
  (2 : ℚ) ^ max (Int.log 2 |q| - 52) (-1074)

/-- Rounding of IEEE 754 binary64, to nearest, ties to even: the number a
JavaScript operation returns when its exact result is `q`. Results beyond the
largest double, which are infinite, are not part of the model. -/
def toDouble (q : ℚ) : ℚ :=
  if q = 0 then 0 else (roundEven (q / ulp q) : ℚ) * ulp q

/-- A sum in floating point that adds the values one after another, each sum
rounded to a double. -/
def doubleSum (values : List ℚ) : ℚ :=
  values.foldl (fun acc v => toDouble (acc + v)) 0

/-- `TimeClip` of a number: truncated to an integer, invalid beyond 8.64e15 ms. -/
def timeClip (q : ℚ) : Option Int :=
  let t := Int.tdiv q.num q.den
  if t.natAbs ≤ 8640000000000000 then some t else none

/-- `new Date(v)`; `none` is `Invalid Date`. -/
def newDate (rt : Runtime) : JsVal → Option Int
  | .undefined => none
  | .null => some 0
  | .bool b => some (if b then 1 else 0)
  | .num q => timeClip q
  | .str s => rt.dateParse s

/-- Code points removed by `String.prototype.trim`. -/
def isJsWhitespace (c : Char) : Bool :=
  let n := c.toNat
  n == 0x09 || n == 0x0A || n == 0x0B || n == 0x0C || n == 0x0D || n == 0x20 ||
  n == 0xA0 || n == 0x1680 || (0x2000 ≤ n && n ≤ 0x200A) || n == 0x2028 ||
  n == 0x2029 || n == 0x202F || n == 0x205F || n == 0x3000 || n == 0xFEFF

/-- `String.prototype.trim`. -/
def jsTrim (s : String) : String :=
  String.mk ((s.toList.dropWhile isJsWhitespace).reverse.dropWhile isJsWhitespace).reverse

/-- The `length` of a JavaScript string: its number of UTF-16 code units. -/
def jsLength (s : String) : Nat :=
  (s.toList.map (fun c => if c.toNat < 0x10000 then 1 else 2)).sum

/-! ## The schema of `models/Expense.js` -/

/-- A stored document of the `Expense` collection. -/
structure Expense where
  _id : ObjectId
  title : String
  amount : ℚ
  type : String
  category : String
  date : Int
  user : ObjectId
  createdAt : Int
  updatedAt : Int
  deriving DecidableEq

/-- The collection, in insertion order. -/
abbrev Store := List Expense

/-- Outcome of casting a value to the type of a schema path: a value, `null`
(`ok none`), or a recorded `CastError`. -/
inductive Cast (α : Type) where
  | ok (v : Option α)
  | failed
  deriving DecidableEq

/-- Cast to `String` (`type: String`). -/
def castString (rt : Runtime) : JsVal → Cast String
  | .undefined => .ok none
  | .null => .ok none
  | .bool b => .ok (some (if b then "true" else "false"))
  | .num q => .ok (some (rt.numberToString q))
  | .str s => .ok (some s)

/-- Cast to `String` followed by the `trim: true` setter. -/
def castTrimmed (rt : Runtime) (v : JsVal) : Cast String :=
  match castString rt v with
  | .ok (some s) => .ok (some (jsTrim s))
  | c => c

/-- Cast to `Number` (`type: Number`). -/
def castNumber (rt : Runtime) : JsVal → Cast ℚ
  | .undefined => .ok none
  | .null => .ok none
  | .bool b => .ok (some (if b then 1 else 0))
  | .num q => .ok (some q)
  | .str s =>
    if s = "" then .ok none
    else match rt.stringToNumber s with
      | some q => .ok (some q)
      | none => .failed

/-- Cast of a `Date` object to `Date` (`type: Date`): `Invalid Date` fails. -/
def castDate : Option Int → Cast Int
  | some t => .ok (some t)
  | none => .failed

/-- The schema paths of a document held in memory, each after casting. -/
structure Document where
  title : Cast String
  amount : Cast ℚ
  type : Cast String
  category : Cast String
  date : Cast Int
  deriving DecidableEq

/-- The schema paths of a document that passed validation. -/
structure Fields where
  title : String
  amount : ℚ
  type : String
  category : String
  date : Int
  deriving DecidableEq

/-- Validators of `title`: required, `maxlength` 100. -/
def checkTitle (rt : Runtime) : Cast String → Except String String
  | .failed => .error (rt.castMessage "title")
  | .ok none => .error "Title is required"
  | .ok (some s) =>
    if s = "" then .error "Title is required"
    else if 100 < jsLength s then .error "Title cannot exceed 100 characters"
    else .ok s

/-- Validators of `amount`: required, `min` 0.01. -/
def checkAmount (rt : Runtime) : Cast ℚ → Except String ℚ
  | .failed => .error (rt.castMessage "amount")
  | .ok none => .error "Amount is required"
  | .ok (some q) =>
    if q < 1 / 100 then .error "Amount must be greater than 0" else .ok q

/-- Validators of `type`: required, `enum` of `Income` and `Expense`. -/
def checkType (rt : Runtime) : Cast String → Except String String
  | .failed => .error (rt.castMessage "type")
  | .ok none => .error "Type is required"
  | .ok (some s) =>
    if s = "" then .error "Type is required"
    else if s = "Income" ∨ s = "Expense" then .ok s
    else .error "Type must be either Income or Expense"

/-- Validators of `category`: required, `maxlength` 50. -/
def checkCategory (rt : Runtime) : Cast String → Except String String
  | .failed => .error (rt.castMessage "category")
  | .ok none => .error "Category is required"
  | .ok (some s) =>
    if s = "" then .error "Category is required"
    else if 50 < jsLength s then .error "Category cannot exceed 50 characters"
    else .ok s

/-- Validators of `date`: required. -/
def checkDate (rt : Runtime) : Cast Int → Except String Int
  | .failed => .error (rt.castMessage "date")
  | .ok none => .error "Date is required"
  | .ok (some t) => .ok t

/-- Message of a failed check, if any. -/
def errorOf {α : Type} : Except String α → List String
  | .error m => [m]
  | .ok _ => []

/-- Document validation run by `save()`: the validated paths, or the messages
of the paths that failed, in schema order. -/
def validate (rt : Runtime) (d : Document) : Except (List String) Fields :=
  match checkTitle rt d.title, checkAmount rt d.amount, checkType rt d.type,
      checkCategory rt d.category, checkDate rt d.date with
  | .ok t, .ok a, .ok k, .ok c, .ok dt => .ok ⟨t, a, k, c, dt⟩
  | rt1, ra, rk, rc, rd =>
    .error (errorOf rt1 ++ errorOf ra ++ errorOf rk ++ errorOf rc ++ errorOf rd)

/-! ## The collection -/

/-- `Expense.findOne({ _id: id, user: userId })`. -/
def findOne (store : Store) (id userId : ObjectId) : Option Expense :=
  store.find? (fun e => decide (e._id = id ∧ e.user = userId))

/-- Insertion of a new document; `none` is the duplicate key error of the
unique index on `_id`. -/
def insertOne (store : Store) (e : Expense) : Option Store :=
  if store.any (fun x => decide (x._id = e._id)) then none else some (store ++ [e])

/-- Write of an existing document by `save()`: the first document with its
`_id` is replaced. -/
def updateOne : Store → Expense → Store
  | [], _ => []
  | e :: rest, s => if e._id = s._id then s :: rest else e :: updateOne rest s

/-- `Expense.deleteOne({ _id: id, user: userId })`. -/
def deleteOne (store : Store) (id userId : ObjectId) : Store :=
  store.eraseP (fun e => decide (e._id = id ∧ e.user = userId))

/-- A query built by `getExpenses`. A date bound is a `Date`, possibly invalid. -/
structure Filter where
  user : ObjectId
  type : Option String
  category : Option String
  gte : Option (Option Int)
  lte : Option (Option Int)

/-- Whether a stored document satisfies a query whose date bounds are valid. -/
def Filter.admits (f : Filter) (e : Expense) : Bool :=
  decide (e.user = f.user) &&
  (match f.type with
    | some t => decide (e.type = t)
    | none => true) &&
  (match f.category with
    | some c => decide (e.category = c)
    | none => true) &&
  (match f.gte with
    | some (some t) => decide (t ≤ e.date)
    | _ => true) &&
  (match f.lte with
    | some (some t) => decide (e.date ≤ t)
    | _ => true)

/-- The order of `sort({ date: -1 })`: a document comes before every document
of an earlier date. -/
def dateDescending (a b : Expense) : Prop :=
  b.date ≤ a.date

instance : DecidableRel dateDescending := by
  intro a b; unfold dateDescending; infer_instance

/-- `Expense.find(query).sort({ date: -1 })`; `none` is the `CastError` raised
for an invalid date in the query. Every query names the user, so the listing
is read from the index `{ user: 1, date: -1 }` of the schema: the documents come
by descending date, and documents of one date in the order of their records,
which is the order of insertion (an update keeps the record of a document).
The sort is stable: it puts each document in front of the later inserted
documents of its date. -/
def find (store : Store) (f : Filter) : Option (List Expense) :=
  if f.gte = some none ∨ f.lte = some none then none
  else some ((store.filter f.admits).insertionSort dateDescending)

/-! ## Aggregation -/

/-- The result of the `$group` stage with `_id: null`. -/
structure Totals where
  totalIncome : ℚ
  totalExpense : ℚ
  count : Nat
  deriving DecidableEq

/-- A result of the `$group` stage with `_id: '$category'`. -/
structure CategoryTotal where
  _id : String
  total : ℚ
  count : Nat
  deriving DecidableEq

/-- The `stats` object in the response of `getExpenseStats`. -/
structure Stats where
  totalIncome : ℚ
  totalExpense : ℚ
  count : Nat
  balance : ℚ
  categoryBreakdown : List CategoryTotal
  deriving DecidableEq

/-- The stage `$match: { user: userId }`. -/
def matchUser (store : Store) (userId : ObjectId) : List Expense :=
  store.filter (fun e => decide (e.user = userId))

/-- The accumulator `$sum` over the values of its expression, one per document
and in the order the documents come in. The database adds them in floating
point (`rt.sum`) and the result is a double. A value 0 leaves a floating-point
sum as it is, so it does not enter; over no other value the sum is 0. -/
def sumOf (rt : Runtime) (values : List ℚ) : ℚ :=
  match values.filter (fun v => decide (v ≠ 0)) with
  | [] => 0
  | v :: vs => toDouble (rt.sum (v :: vs))

/-- The stage `$group` with `_id: null`: one result when a document comes in,
none otherwise. Each `$sum` takes the value of its `$cond` per document; the
`$sum` of the constant 1 is a sum of integers. -/
def groupAll (rt : Runtime) : List Expense → List Totals
  | [] => []
  | docs =>
    [{ totalIncome := sumOf rt (docs.map (fun e => if e.type = "Income" then e.amount else 0)),
       totalExpense :=
         sumOf rt (docs.map (fun e => if e.type = "Expense" then e.amount else 0)),
       count := (docs.map (fun _ => 1)).sum }]

/-- What the accumulators of one `$group` result on `$category` were given: the
values of `$amount` of the documents of the category, in the order they came
in. -/
structure CategoryGroup where
  _id : String
  amounts : List ℚ
  deriving DecidableEq

/-- One document entering the stage `$group` on `$category`: its amount goes to
the result of its category, or opens one. -/
def accumulate (e : Expense) : List CategoryGroup → List CategoryGroup
  | [] => [{ _id := e.category, amounts := [e.amount] }]
  | g :: gs =>
    if g._id = e.category then { _id := g._id, amounts := g.amounts ++ [e.amount] } :: gs
    else g :: accumulate e gs

/-- The stage `$group` with `_id: '$category'`, `total: { $sum: '$amount' }` and
`count: { $sum: 1 }`, the latter a sum of integers. -/
def groupByCategory (rt : Runtime) (docs : List Expense) : List CategoryTotal :=
  (docs.foldl (fun gs e => accumulate e gs) []).map
    (fun g => { _id := g._id, total := sumOf rt g.amounts, count := g.amounts.length })

/-- The order of `$sort: { total: -1 }`: larger totals first; between equal
totals the database decides. -/
def totalDescending (rt : Runtime) (a b : CategoryTotal) : Prop :=
  b.total < a.total ∨ (b.total = a.total ∧ rt.groupRank a._id ≤ rt.groupRank b._id)

instance (rt : Runtime) : DecidableRel (totalDescending rt) := by
  intro a b; unfold totalDescending; infer_instance

/-- The `result` object built by `getExpenseStats` from the two aggregations;
`balance` is a JavaScript subtraction. -/
def expenseStats (rt : Runtime) (store : Store) (userId : ObjectId) : Stats :=
  let stats := groupAll rt (matchUser store userId)
  let categoryBreakdown :=
    (groupByCategory rt (matchUser store userId)).insertionSort (totalDescending rt)
  let result : Totals :=
    match stats with
    | first :: _ => first
    | [] => { totalIncome := 0, totalExpense := 0, count := 0 }
  { totalIncome := result.totalIncome, totalExpense := result.totalExpense,
    count := result.count, balance := toDouble (result.totalIncome - result.totalExpense),
    categoryBreakdown := categoryBreakdown }

/-! ## Requests and responses -/

/-- The kinds of failure a response can carry. -/
inductive ErrorKind where
  | validation
  | notFound
  | invalidId
  | server
  deriving DecidableEq

/-- The response of a controller: status and JSON payload. -/
inductive Reply where
  | expenses (count : Nat) (expenses : List Expense)
  | expense (status : Nat) (message : Option String) (expense : Expense)
  | stats (stats : Stats)
  | error (kind : ErrorKind) (status : Nat) (message : String)
  deriving DecidableEq

/-- The fields read from `req.query` by `getExpenses`: absent or a string. -/
structure ListQuery where
  type : Option String
  category : Option String
  startDate : Option String
  endDate : Option String

/-- The fields read from `req.body` by `addExpense` and `updateExpense`. -/
structure Body where
  title : JsVal
  amount : JsVal
  type : JsVal
  category : JsVal
  date : JsVal
  deriving DecidableEq

/-- A parsed JSON body: the keys the controllers read, and the keys `_id`,
`user` and `createdAt`, which they do not read. -/
structure JsonBody where
  title : JsVal
  amount : JsVal
  type : JsVal
  category : JsVal
  date : JsVal
  _id : JsVal
  user : JsVal
  createdAt : JsVal

/-- The destructuring `const { title, amount, type, category, date } = req.body`. -/
def JsonBody.read (b : JsonBody) : Body :=
  { title := b.title, amount := b.amount, type := b.type, category := b.category,
    date := b.date }

/-- Truthiness of a query parameter. -/
def given : Option String → Bool
  | some s => decide (s ≠ "")
  | none => false

/-- The query object built by `getExpenses`. -/
def buildQuery (rt : Runtime) (userId : ObjectId) (q : ListQuery) : Filter :=
  let type :=
    match q.type with
    | some t => if t = "Income" ∨ t = "Expense" then some t else none
    | none => none
  let category := if given q.category then q.category else none
  if given q.startDate || given q.endDate then
    { user := userId, type := type, category := category,
      gte := if given q.startDate then some (rt.dateParse (q.startDate.getD "")) else none,
      lte := if given q.endDate then some (rt.dateParse (q.endDate.getD "")) else none }
  else
    { user := userId, type := type, category := category, gte := none, lte := none }

/-- The controller `getExpenses`. -/
def getExpenses (rt : Runtime) (store : Store) (userId : ObjectId) (q : ListQuery) : Reply :=
  match find store (buildQuery rt userId q) with
  | some expenses => .expenses expenses.length expenses
  | none => .error .server 500 "Server error while fetching expenses"

/-- The controller `getExpenseById`. -/
def getExpenseById (rt : Runtime) (store : Store) (userId : ObjectId) (id : String) : Reply :=
  match rt.castObjectId id with
  | none => .error .invalidId 400 "Invalid expense ID"
  | some oid =>
    match findOne store oid userId with
    | none => .error .notFound 404 "Expense not found"
    | some expense => .expense 200 none expense

/-- The document built by `new Expense(...)` in `addExpense`. -/
def newExpense (rt : Runtime) (body : Body) : Document :=
  { title := castTrimmed rt body.title,
    amount := castNumber rt body.amount,
    type := castString rt body.type,
    category := castTrimmed rt body.category,
    date := castDate (if body.date.truthy then newDate rt body.date else some rt.now) }

/-- The controller `addExpense`. -/
def addExpense (rt : Runtime) (store : Store) (userId : ObjectId) (body : Body) :
    Reply × Store :=
  if !body.title.truthy || !body.amount.truthy || !body.type.truthy || !body.category.truthy then
    (.error .validation 400 "Please provide title, amount, type, and category", store)
  else if body.type ≠ .str "Income" ∧ body.type ≠ .str "Expense" then
    (.error .validation 400 "Type must be either Income or Expense", store)
  else if leZero rt body.amount then
    (.error .validation 400 "Amount must be greater than 0", store)
  else
    match validate rt (newExpense rt body) with
    | .error errors => (.error .validation 400 (", ".intercalate errors), store)
    | .ok f =>
      let expense : Expense :=
        { _id := rt.newObjectId, title := f.title, amount := f.amount, type := f.type,
          category := f.category, date := f.date, user := userId,
          createdAt := rt.now, updatedAt := rt.now }
      match insertOne store expense with
      | none => (.error .server 500 "Server error while adding expense", store)
      | some store1 => (.expense 201 (some "Expense added successfully") expense, store1)

/-- The document loaded by `findOne`, as held in memory. -/
def hydrate (e : Expense) : Document :=
  { title := .ok (some e.title), amount := .ok (some e.amount), type := .ok (some e.type),
    category := .ok (some e.category), date := .ok (some e.date) }

/-- The schema paths of a stored document. -/
def fieldsOf (e : Expense) : Fields :=
  { title := e.title, amount := e.amount, type := e.type, category := e.category,
    date := e.date }

/-- The controller `updateExpense`. The assignments act on the document held
in memory (`d0` to `d5`); the collection is written by `save()` only. -/
def updateExpense (rt : Runtime) (store : Store) (userId : ObjectId) (id : String)
    (body : Body) : Reply × Store :=
  match rt.castObjectId id with
  | none => (.error .invalidId 400 "Invalid expense ID", store)
  | some oid =>
    match findOne store oid userId with
    | none => (.error .notFound 404 "Expense not found", store)
    | some expense =>
      let d0 := hydrate expense
      let d1 := if body.title ≠ .undefined then { d0 with title := castTrimmed rt body.title }
        else d0
      if body.amount ≠ .undefined ∧ leZero rt body.amount = true then
        (.error .validation 400 "Amount must be greater than 0", store)
      else
        let d2 := if body.amount ≠ .undefined then
          { d1 with amount := castNumber rt body.amount } else d1
        if body.type ≠ .undefined ∧ body.type ≠ .str "Income" ∧
            body.type ≠ .str "Expense" then
          (.error .validation 400 "Type must be either Income or Expense", store)
        else
          let d3 := if body.type ≠ .undefined then
            { d2 with type := castString rt body.type } else d2
          let d4 := if body.category ≠ .undefined then
            { d3 with category := castTrimmed rt body.category } else d3
          let d5 := if body.date ≠ .undefined then
            { d4 with date := castDate (newDate rt body.date) } else d4
          match validate rt d5 with
          | .error errors => (.error .validation 400 (", ".intercalate errors), store)
          | .ok f =>
            let saved : Expense :=
              { expense with
                title := f.title, amount := f.amount, type := f.type,
                category := f.category, date := f.date,
                updatedAt := if f = fieldsOf expense then expense.updatedAt else rt.now }
            (.expense 200 (some "Expense updated successfully") saved, updateOne store saved)

/-- The controller `removeExpense`. -/
def removeExpense (rt : Runtime) (store : Store) (userId : ObjectId) (id : String) :
    Reply × Store :=
  match rt.castObjectId id with
  | none => (.error .invalidId 400 "Invalid expense ID", store)
  | some oid =>
    match findOne store oid userId with
    | none => (.error .notFound 404 "Expense not found", store)
    | some expense =>
      (.expense 200 (some "Expense deleted successfully") expense, deleteOne store oid userId)

/-- The controller `getExpenseStats`. -/
def getExpenseStats (rt : Runtime) (store : Store) (userId : ObjectId) : Reply :=
  .stats (expenseStats rt store userId)

/-! ## Reading responses -/

/-- The stored documents carried by a response. -/
def Reply.records : Reply → List Expense
  | .expenses _ es => es
  | .expense _ _ e => [e]
  | .stats _ => []
  | .error _ _ _ => []

/-- The failure kind of a response, if it is a failure. -/
def Reply.failure : Reply → Option ErrorKind
  | .error k _ _ => some k
  | _ => none

/-- No two stored documents share an `_id` (the unique index on `_id`). -/
def UniqueIds (store : Store) : Prop :=
  (store.map (fun e => e._id)).Nodup

instance (store : Store) : Decidable (UniqueIds store) := by
  unfold UniqueIds; infer_instance

/-- The document held in memory by `updateExpense` once every assignment
`if (x !== undefined) expense.x = x` has run. -/
def merged (rt : Runtime) (body : Body) (e : Expense) : Document :=
  { title := if body.title ≠ .undefined then castTrimmed rt body.title else .ok (some e.title),
    amount := if body.amount ≠ .undefined then castNumber rt body.amount
      else .ok (some e.amount),
    type := if body.type ≠ .undefined then castString rt body.type else .ok (some e.type),
    category := if body.category ≠ .undefined then castTrimmed rt body.category
      else .ok (some e.category),
    date := if body.date ≠ .undefined then castDate (newDate rt body.date)
      else .ok (some e.date) }

/-- The document written by a successful `save()` in `updateExpense`. -/
def savedExpense (rt : Runtime) (e : Expense) (f : Fields) : Expense :=
  { e with
    title := f.title, amount := f.amount, type := f.type, category := f.category,
    date := f.date, updatedAt := if f = fieldsOf e then e.updatedAt else rt.now }

/-! ## The words of the specification -/

/-- A required field that is absent or empty. -/
def JsVal.absentOrEmpty : JsVal → Bool
  | .undefined => true
  | .null => true
  | .str s => decide (s = "")
  | _ => false

/-- A kind that is exactly `Income` or `Expense`. -/
def JsVal.isKind (v : JsVal) : Bool :=
  decide (v = .str "Income" ∨ v = .str "Expense")

/-- An amount that converts, by `ToNumber`, to zero, to a negative number or
to no number (`NaN`). A boolean converts to 1 or 0 and a numeric string to its
number. -/
def notPositive (rt : Runtime) (v : JsVal) : Bool :=
  match toNumber rt v with
  | some q => decide (q ≤ 0)
  | none => true

/-- A supplied text that is `null`, empty once trimmed, or longer than `max`. -/
def badText (max : Nat) : JsVal → Bool
  | .null => true
  | .str s => decide (jsTrim s = "") || decide (max < jsLength (jsTrim s))
  | _ => false

/-- A body in which at least one supplied field fails validation. -/
def Body.hasInvalidField (rt : Runtime) (body : Body) : Bool :=
  badText 100 body.title ||
  (decide (body.amount ≠ .undefined) && notPositive rt body.amount) ||
  (decide (body.type ≠ .undefined) && !body.type.isKind) ||
  badText 50 body.category

/-- A text accepted by a path with `trim` and `maxlength`: a string that is
not empty once trimmed and then holds at most `max` UTF-16 code units. -/
def goodText (max : Nat) : JsVal → Bool
  | .str s => decide (jsTrim s ≠ "") && decide (jsLength (jsTrim s) ≤ max)
  | _ => false

/-- An amount accepted by the schema: a number of at least 0.01. -/
def goodAmount : JsVal → Bool
  | .num q => decide (1 / 100 ≤ q)
  | _ => false

/-- A body that passes the checks of `addExpense` and the validators of the
schema: a title and a category that are not empty once trimmed and within
their lengths, an amount that is a number of at least 0.01 (the `min` of the
schema, above the bound 0 of the controller), a type `Income` or `Expense`, and
a date that is left out or can be read. -/
def Body.valid (rt : Runtime) (body : Body) : Bool :=
  goodText 100 body.title && goodAmount body.amount && body.type.isKind &&
  goodText 50 body.category && (!body.date.truthy || (newDate rt body.date).isSome)

/-- The schema paths a valid body asks for: the texts trimmed, the date of
the body or the current time. -/
def Body.fields (rt : Runtime) (body : Body) : Fields :=
  { title := match body.title with
      | .str s => jsTrim s
      | _ => "",
    amount := match body.amount with
      | .num q => q
      | _ => 0,
    type := match body.type with
      | .str s => s
      | _ => "",
    category := match body.category with
      | .str s => jsTrim s
      | _ => "",
    date := if body.date.truthy then (newDate rt body.date).getD rt.now else rt.now }

/-- The document `addExpense` stores for validated paths. -/
def addedExpense (rt : Runtime) (userId : ObjectId) (f : Fields) : Expense :=
  { _id := rt.newObjectId, title := f.title, amount := f.amount, type := f.type,
    category := f.category, date := f.date, user := userId,
    createdAt := rt.now, updatedAt := rt.now }

/-- A stored document that satisfies the validators of the schema. -/
def Expense.conforms (e : Expense) : Bool :=
  decide (e.title ≠ "") && decide (jsLength e.title ≤ 100) && decide (1 / 100 ≤ e.amount) &&
  decide (e.type = "Income" ∨ e.type = "Expense") &&
  decide (e.category ≠ "") && decide (jsLength e.category ≤ 50)

/-- A body accepted by `updateExpense`: every supplied field is valid. -/
def Body.validPatch (rt : Runtime) (body : Body) : Bool :=
  (decide (body.title = .undefined) || goodText 100 body.title) &&
  (decide (body.amount = .undefined) || goodAmount body.amount) &&
  (decide (body.type = .undefined) || body.type.isKind) &&
  (decide (body.category = .undefined) || goodText 50 body.category) &&
  (decide (body.date = .undefined) || (newDate rt body.date).isSome)

/-- The schema paths a valid partial body asks for: the supplied values, the
texts trimmed, and the stored value of every absent field. -/
def patched (rt : Runtime) (body : Body) (e : Expense) : Fields :=
  { title := match body.title with
      | .str s => jsTrim s
      | _ => e.title,
    amount := match body.amount with
      | .num q => q
      | _ => e.amount,
    type := match body.type with
      | .str s => s
      | _ => e.type,
    category := match body.category with
      | .str s => jsTrim s
      | _ => e.category,
    date := if body.date = .undefined then e.date else (newDate rt body.date).getD e.date }

/-- A supplied text that is the empty string or holds only whitespace. -/
def JsVal.blank : JsVal → Bool
  | .str s => decide (jsTrim s = "")
  | _ => false

/-- The date a supplied query parameter stands for. -/
def bound (rt : Runtime) (v : Option String) : Option Int :=
  if given v then rt.dateParse (v.getD "") else none

/-- The documents `listTransactions` is to return: those of the owner that
satisfy every supplied filter. -/
def wanted (rt : Runtime) (userId : ObjectId) (q : ListQuery) (e : Expense) : Bool :=
  decide (e.user = userId) &&
  (if q.type = some "Income" ∨ q.type = some "Expense" then decide (some e.type = q.type)
    else true) &&
  (if given q.category then decide (some e.category = q.category) else true) &&
  (match bound rt q.startDate with
    | some t => decide (t ≤ e.date)
    | none => true) &&
  (match bound rt q.endDate with
    | some t => decide (e.date ≤ t)
    | none => true)

/-- The results `gs` are the breakdown by category of `docs`: one result for
each category occurring in `docs`, holding the sum, as the database computes
it, of the amounts and the number of the documents of that category. -/
def Grouped (rt : Runtime) (docs : List Expense) (gs : List CategoryTotal) : Prop :=
  (gs.map (fun g => g._id)).Nodup ∧
  (∀ c, c ∈ gs.map (fun g => g._id) ↔ ∃ e ∈ docs, e.category = c) ∧
  ∀ g ∈ gs,
    g.total = sumOf rt ((docs.filter (fun e => decide (e.category = g._id))).map
      (fun e => e.amount)) ∧
    g.count = (docs.filter (fun e => decide (e.category = g._id))).length

/-- The groups `gs` hold the amounts of `docs` by category: one group for each
category occurring in `docs`, holding the amounts of the documents of that
category in the order of `docs`. -/
def Collected (docs : List Expense) (gs : List CategoryGroup) : Prop :=
  (gs.map (fun g => g._id)).Nodup ∧
  (∀ c, c ∈ gs.map (fun g => g._id) ↔ ∃ e ∈ docs, e.category = c) ∧
  ∀ g ∈ gs,
    g.amounts = (docs.filter (fun e => decide (e.category = g._id))).map (fun e => e.amount)

/-- The collections reached from the empty one by calls of `addExpense`,
`updateExpense` and `removeExpense`, whatever their arguments and outcomes. -/
inductive Reachable : Store → Prop where
  | empty : Reachable []
  | add (rt : Runtime) (userId : ObjectId) (body : Body) {store : Store} :
      Reachable store → Reachable (addExpense rt store userId body).2
  | update (rt : Runtime) (userId : ObjectId) (id : String) (body : Body) {store : Store} :
      Reachable store → Reachable (updateExpense rt store userId id body).2
  | remove (rt : Runtime) (userId : ObjectId) (id : String) {store : Store} :
      Reachable store → Reachable (removeExpense rt store userId id).2

/-- The invariants of a stored document: a positive amount and a type that is
`Income` or `Expense`. -/
def Expense.sound (e : Expense) : Prop :=
  0 < e.amount ∧ (e.type = "Income" ∨ e.type = "Expense")

/-! ## The client: `ExpenseChart.jsx` and `ExpenseContext.jsx`

The documents the client holds are those of the responses; their amounts are
numbers, on which `parseFloat` is the identity. -/

/-- An entry of the chart data of `ExpenseChart`. -/
structure Slice where
  name : String
  value : ℚ
  deriving DecidableEq

/-- The expression `s || 'Other'` on a string. -/
def orOther (s : String) : String :=
  if s = "" then "Other" else s

/-- `Math.abs`. -/
def mathAbs (q : ℚ) : ℚ :=
  if q < 0 then -q else q

/-- The update of `expenseMap` for a category: its value grows by the amount,
a JavaScript addition, or the category enters the map after the keys already
there. -/
def mapAdd (category : String) (amount : ℚ) : List (String × ℚ) → List (String × ℚ)
  | [] => [(category, amount)]
  | (k, v) :: rest =>
    if k = category then (k, toDouble (v + amount)) :: rest
    else (k, v) :: mapAdd category amount rest

/-- The body of the `forEach` over the documents of type `Expense`. -/
def collect (expenseMap : List (String × ℚ)) (exp : Expense) : List (String × ℚ) :=
  let category := orOther exp.category
  let amount := exp.amount
  if 0 < amount then mapAdd category amount expenseMap else expenseMap

/-- The comparator given to `sort`: by value, larger first, when the values
differ by more than 0.01, by name otherwise. The difference is a JavaScript
subtraction and the literal `0.01` is the double next to 1/100. -/
def compareSlices (localeCompare : String → String → Int) (a b : Slice) : ℚ :=
  if toDouble (1 / 100) < mathAbs (toDouble (b.value - a.value)) then
    toDouble (b.value - a.value)
  else (localeCompare a.name b.name : ℚ)

/-- `Array.prototype.sort` with a comparator, as a stable insertion sort. For
a comparator that is not a consistent order the language leaves the result to
the implementation; on two entries every implementation agrees. -/
def arraySort (cmp : Slice → Slice → ℚ) (l : List Slice) : List Slice :=
  l.insertionSort (fun a b => cmp a b ≤ 0)

/-- The chart data built from the list of documents. -/
def fromExpenses (localeCompare : String → String → Int) (expenses : List Expense) :
    List Slice :=
  let expenseMap :=
    (expenses.filter (fun exp => decide (exp.type = "Expense"))).foldl collect []
  arraySort (compareSlices localeCompare)
    ((expenseMap.map (fun entry => ({ name := orOther entry.1, value := mathAbs entry.2 } : Slice))).filter
      (fun item => decide (0 < item.value)))

/-- The chart data built from `categoryBreakdown`, the fallback. -/
def fromBreakdown (localeCompare : String → String → Int)
    (categoryBreakdown : List CategoryTotal) : List Slice :=
  arraySort (compareSlices localeCompare)
    ((categoryBreakdown.map
      (fun item => ({ name := orOther item._id, value := mathAbs item.total } : Slice))).filter
      (fun item => decide (0 < item.value)))

/-- The value `expenseData` of `ExpenseChart`. -/
def expenseData (localeCompare : String → String → Int)
    (categoryBreakdown : List CategoryTotal) (expenses : List Expense) : List Slice :=
  if 0 < expenses.length then fromExpenses localeCompare expenses
  else if 0 < categoryBreakdown.length then fromBreakdown localeCompare categoryBreakdown
  else []

/-- The state of `ExpenseContext`; the fields `user` and `stats` are left out. -/
structure ClientState where
  expenses : List Expense
  loading : Bool
  error : Option String
  deriving DecidableEq

/-- The actions of `expenseReducer` that do not concern `user` or `stats`. -/
inductive Action where
  | SET_LOADING (payload : Bool)
  | SET_ERROR (payload : String)
  | CLEAR_USER
  | SET_EXPENSES (payload : List Expense)
  | ADD_EXPENSE (payload : Expense)
  | UPDATE_EXPENSE (payload : Expense)
  | REMOVE_EXPENSE (payload : ObjectId)

/-- The reducer `expenseReducer`. -/
def expenseReducer (state : ClientState) : Action → ClientState
  | .SET_LOADING payload => { state with loading := payload }
  | .SET_ERROR payload => { state with error := some payload, loading := false }
  | .CLEAR_USER => { state with expenses := [] }
  | .SET_EXPENSES payload =>
    { state with expenses := payload, loading := false, error := none }
  | .ADD_EXPENSE payload =>
    { state with expenses := payload :: state.expenses, loading := false, error := none }
  | .UPDATE_EXPENSE payload =>
    { state with
      expenses := state.expenses.map (fun exp => if exp._id = payload._id then payload else exp),
      loading := false, error := none }
  | .REMOVE_EXPENSE payload =>
    { state with
      expenses := state.expenses.filter (fun exp => decide (exp._id ≠ payload)),
      loading := false, error := none }

/-- The entries shown under `Recent Transactions` in `Home`. -/
def recentTransactions (state : ClientState) : List Expense :=
  state.expenses.take 5

/-- A list of documents that is newest first. -/
def NewestFirst (expenses : List Expense) : Prop :=
  expenses.Pairwise (fun a b => b.date ≤ a.date)

instance (expenses : List Expense) : Decidable (NewestFirst expenses) := by
  unfold NewestFirst; infer_instance

/-- A list of chart entries in descending order of value. -/
def ValueDescending (data : List Slice) : Prop :=
  data.Chain' (fun a b => b.value ≤ a.value)

/-! ## Sample data -/

/-- Value of a string of decimal digits, given the value read so far. -/
def digitsValue : List Char → Nat → Option Nat
  | [], acc => some acc
  | c :: cs, acc =>
    if 48 ≤ c.toNat ∧ c.toNat ≤ 57 then digitsValue cs (10 * acc + (c.toNat - 48)) else none

/-- Value of a non-empty string of decimal digits. -/
def readNat (s : String) : Option Nat :=
  if s = "" then none else digitsValue s.toList 0

/-- A runtime that reads unsigned decimal integers, accepts every identifier
made of decimal digits, prints every number as its numerator and adds the
values of a `$sum` one after another as doubles. -/
def sampleRuntime : Runtime :=
  { stringToNumber := fun s => (readNat s).map (fun n => (n : ℚ)),
    numberToString := fun q => toString q.num,
    dateParse := fun s => (readNat s).map (fun n => (n : Int)),
    castObjectId := readNat,
    castMessage := fun path => "Cast failed at path " ++ path,
    now := 1000,
    newObjectId := 7,
    sum := doubleSum,
    groupRank := fun _ => 0 }

/-- A paycheck owned by user 1. -/
def paycheck : Expense :=
  { _id := 1, title := "Paycheck", amount := 2000, type := "Income", category := "Salary",
    date := 200, user := 1, createdAt := 200, updatedAt := 200 }

/-- A coffee owned by user 1. -/
def coffee : Expense :=
  { _id := 2, title := "Coffee", amount := 5, type := "Expense", category := "Food",
    date := 100, user := 1, createdAt := 100, updatedAt := 100 }

/-- A rent payment owned by user 2. -/
def rent : Expense :=
  { _id := 3, title := "Rent", amount := 800, type := "Expense", category := "Housing",
    date := 150, user := 2, createdAt := 150, updatedAt := 150 }

/-- The coffee once renamed at time 1000. -/
def latte : Expense :=
  { coffee with title := "Latte", updatedAt := 1000 }

/-- The document stored at time 1000 for a coffee of user 1 dated 100. -/
def newCoffee : Expense :=
  { _id := 7, title := "Coffee", amount := 5, type := "Expense", category := "Food",
    date := 100, user := 1, createdAt := 1000, updatedAt := 1000 }

/-- A wage owned by user 1, of the same amount as the coffee. -/
def wage : Expense :=
  { _id := 5, title := "Wage", amount := 5, type := "Income", category := "Salary",
    date := 50, user := 1, createdAt := 50, updatedAt := 50 }

/-- The runtime of a later request: time 2000, generated identifier 8. -/
def laterRuntime : Runtime :=
  { sampleRuntime with now := 2000, newObjectId := 8 }

/-- The document stored at time 1000 for an income of 100 of user 1. -/
def income100 : Expense :=
  { _id := 7, title := "Paycheck", amount := 100, type := "Income", category := "Salary",
    date := 1000, user := 1, createdAt := 1000, updatedAt := 1000 }

/-- The document stored at time 2000 for an expense of 40 of user 1. -/
def expense40 : Expense :=
  { _id := 8, title := "Groceries", amount := 40, type := "Expense", category := "Food",
    date := 2000, user := 1, createdAt := 2000, updatedAt := 2000 }

/-- A comparison of strings by code points, standing for `localeCompare`. -/
def sampleCompare (a b : String) : Int :=
  if a.toList < b.toList then -1 else if a = b then 0 else 1

/-- A dinner of 10 owned by user 1. -/
def dinner : Expense :=
  { _id := 10, title := "Dinner", amount := 10, type := "Expense", category := "Food",
    date := 300, user := 1, createdAt := 300, updatedAt := 300 }

/-- A parking fee of 10.01 owned by user 1. -/
def parking : Expense :=
  { _id := 11, title := "Parking", amount := 1001 / 100, type := "Expense",
    category := "Parking", date := 310, user := 1, createdAt := 310, updatedAt := 310 }

/-- The coffee with its date moved to 300. -/
def movedCoffee : Expense :=
  { coffee with date := 300 }

/-- The document stored at time 1000 for a bonus of user 1 whose amount was
sent as the boolean `true`. -/
def bonus : Expense :=
  { _id := 7, title := "Bonus", amount := 1, type := "Income", category := "Salary",
    date := 100, user := 1, createdAt := 1000, updatedAt := 1000 }

/-- An income of 10 ^ 16 owned by user 1. -/
def fortune : Expense :=
  { _id := 6, title := "Fortune", amount := 10000000000000000, type := "Income",
    category := "Salary", date := 90, user := 1, createdAt := 90, updatedAt := 90 }

/-- The document stored at time 1000 for an income of 1 of user 1. -/
def coin : Expense :=
  { _id := 7, title := "Coin", amount := 1, type := "Income", category := "Salary",
    date := 100, user := 1, createdAt := 1000, updatedAt := 1000 }

/-- An income of 1 in another category, owned by user 1. -/
def tip : Expense :=
  { _id := 4, title := "Tip", amount := 1, type := "Income", category := "Tips",
    date := 80, user := 1, createdAt := 80, updatedAt := 80 }

/-- A collection holding documents of two users. -/
def sampleStore : Store := [coffee, paycheck, rent]

end MoneyTrack

namespace MoneyTrack

/-! ## Lemmas on the collection -/

theorem buildQuery_user (rt : Runtime) (userId : ObjectId) (q : ListQuery) :
    (buildQuery rt userId q).user = userId := by
  simp only [buildQuery]
  split <;> rfl

theorem admits_user {f : Filter} {e : Expense} (h : f.admits e = true) : e.user = f.user := by
  unfold Filter.admits at h
  simp only [Bool.and_eq_true, decide_eq_true_eq] at h
  exact h.1.1.1.1

theorem mem_find {store : Store} {f : Filter} {es : List Expense}
    (h : find store f = some es)
    {e : Expense} (he : e ∈ es) : e ∈ store ∧ f.admits e = true := by
  unfold find at h
  split at h
  · exact absurd h (by simp)
  · injection h with h
    subst h
    have := (List.perm_insertionSort dateDescending
      (store.filter f.admits)).mem_iff.1 he
    exact List.mem_filter.1 this

theorem findOne_some {store : Store} {id userId : ObjectId} {e : Expense}
    (h : findOne store id userId = some e) : e ∈ store ∧ e._id = id ∧ e.user = userId := by
  unfold findOne at h
  have h1 := List.mem_of_find?_eq_some h
  have h2 := List.find?_some h
  simp only [decide_eq_true_eq] at h2
  exact ⟨h1, h2⟩

theorem findOne_eq_none {store : Store} {id userId : ObjectId} :
    findOne store id userId = none ↔ ¬ ∃ e ∈ store, e._id = id ∧ e.user = userId := by
  unfold findOne
  rw [List.find?_eq_none]
  simp

/-- With unique identifiers, a document owned by another user is not found. -/
theorem findOne_other_owner {store : Store} (hu : UniqueIds store) {t : Expense}
    (ht : t ∈ store) {userId : ObjectId} (hne : userId ≠ t.user) :
    findOne store t._id userId = none := by
  rw [findOne_eq_none]
  rintro ⟨e, he, hid, huser⟩
  have : e = t := by
    unfold UniqueIds at hu
    exact List.inj_on_of_nodup_map hu he ht hid
  subst this
  exact hne huser.symm

/-! ## C1: listing is scoped to the caller -/

/-- C1: whatever the collection, the caller and the filters supplied in the
query string, every document in the response of `getExpenses` is owned by the
caller. -/
theorem getExpenses_only_owner (rt : Runtime) (store : Store) (userId : ObjectId)
    (q : ListQuery) (e : Expense) (he : e ∈ (getExpenses rt store userId q).records) :
    e.user = userId := by
  unfold getExpenses at he
  cases h : find store (buildQuery rt userId q) with
  | none => simp [h, Reply.records] at he
  | some es =>
    simp only [h, Reply.records] at he
    have := admits_user (mem_find h he).2
    rw [this, buildQuery_user]

theorem getExpenses_only_owner_witness :
    paycheck ∈ (getExpenses sampleRuntime sampleStore 1
        ⟨some "Income", some "Salary", some "150", some "300"⟩).records ∧
      paycheck.user = 1 :=
  ⟨by decide, getExpenses_only_owner sampleRuntime sampleStore 1
    ⟨some "Income", some "Salary", some "150", some "300"⟩ paycheck (by decide)⟩

/-! ## C2: reading one document -/

/-- C2: for a well-formed identifier, `getExpenseById` returns a stored
document with that identifier owned by the caller when there is one, and
replies `Expense not found` with status 404 otherwise; that reply is the same
whether the identifier belongs to another user or to no document at all. -/
theorem getExpenseById_found_or_notFound (rt : Runtime) (store : Store) (userId : ObjectId)
    (id : String) (oid : ObjectId) (hid : rt.castObjectId id = some oid) :
    ((∃ e ∈ store, e._id = oid ∧ e.user = userId) →
      ∃ e ∈ store, e._id = oid ∧ e.user = userId ∧
        getExpenseById rt store userId id = .expense 200 none e) ∧
    ((¬ ∃ e ∈ store, e._id = oid ∧ e.user = userId) →
      getExpenseById rt store userId id = .error .notFound 404 "Expense not found") ∧
    (∀ (store2 : Store) (id2 : String) (oid2 : ObjectId),
      rt.castObjectId id2 = some oid2 →
      (∃ e ∈ store, e._id = oid ∧ e.user ≠ userId) →
      (¬ ∃ e ∈ store, e._id = oid ∧ e.user = userId) →
      (¬ ∃ e ∈ store2, e._id = oid2) →
      getExpenseById rt store userId id = getExpenseById rt store2 userId id2) := by
  have hnone : ∀ (st : Store) (i : String) (o : ObjectId), rt.castObjectId i = some o →
      (¬ ∃ e ∈ st, e._id = o ∧ e.user = userId) →
      getExpenseById rt st userId i = .error .notFound 404 "Expense not found" := by
    intro st i o hi hno
    unfold getExpenseById
    rw [hi]
    simp only
    rw [findOne_eq_none.2 hno]
  refine ⟨?_, hnone store id oid hid, ?_⟩
  · intro hex
    unfold getExpenseById
    rw [hid]
    simp only
    cases h : findOne store oid userId with
    | none => exact absurd hex (findOne_eq_none.1 h)
    | some e =>
      obtain ⟨h1, h2, h3⟩ := findOne_some h
      exact ⟨e, h1, h2, h3, rfl⟩
  · intro store2 id2 oid2 hid2 _ hno hno2
    rw [hnone store id oid hid hno, hnone store2 id2 oid2 hid2]
    rintro ⟨e, he, h1, _⟩
    exact hno2 ⟨e, he, h1⟩

theorem getExpenseById_found_or_notFound_witness :
    sampleRuntime.castObjectId "3" = some 3 ∧
    (((∃ e ∈ sampleStore, e._id = 3 ∧ e.user = 2) →
      ∃ e ∈ sampleStore, e._id = 3 ∧ e.user = 2 ∧
        getExpenseById sampleRuntime sampleStore 2 "3" = .expense 200 none e) ∧
    ((¬ ∃ e ∈ sampleStore, e._id = 3 ∧ e.user = 2) →
      getExpenseById sampleRuntime sampleStore 2 "3" =
        .error .notFound 404 "Expense not found") ∧
    (∀ (store2 : Store) (id2 : String) (oid2 : ObjectId),
      sampleRuntime.castObjectId id2 = some oid2 →
      (∃ e ∈ sampleStore, e._id = 3 ∧ e.user ≠ 2) →
      (¬ ∃ e ∈ sampleStore, e._id = 3 ∧ e.user = 2) →
      (¬ ∃ e ∈ store2, e._id = oid2) →
      getExpenseById sampleRuntime sampleStore 2 "3" =
        getExpenseById sampleRuntime store2 2 id2)) :=
  ⟨by decide, getExpenseById_found_or_notFound sampleRuntime sampleStore 2 "3" 3 (by decide)⟩


/-! ## Lemmas on validation and on `updateExpense` -/

theorem validate_error_of_amount (rt : Runtime) (d : Document) (m : String)
    (h : checkAmount rt d.amount = .error m) : ∃ errors, validate rt d = .error errors := by
  unfold validate
  split
  · next _ h1 _ _ _ => rw [h] at h1; cases h1
  · exact ⟨_, rfl⟩

/-- What `validate` returns on success. -/
theorem validate_ok {rt : Runtime} {d : Document} {f : Fields} (h : validate rt d = .ok f) :
    checkTitle rt d.title = .ok f.title ∧ checkAmount rt d.amount = .ok f.amount ∧
    checkType rt d.type = .ok f.type ∧ checkCategory rt d.category = .ok f.category ∧
    checkDate rt d.date = .ok f.date := by
  unfold validate at h
  split at h
  · next h1 h2 h3 h4 h5 =>
    injection h with h
    subst h
    exact ⟨h1, h2, h3, h4, h5⟩
  · cases h

/-- The checks and the final `save()` of `updateExpense`, with the assignments
gathered in `merged`. -/
theorem updateExpense_found {rt : Runtime} {store : Store} {userId : ObjectId} {id : String}
    {oid : ObjectId} {e : Expense} (body : Body) (hid : rt.castObjectId id = some oid)
    (hfind : findOne store oid userId = some e) :
    updateExpense rt store userId id body =
      if body.amount ≠ .undefined ∧ leZero rt body.amount = true then
        (.error .validation 400 "Amount must be greater than 0", store)
      else if body.type ≠ .undefined ∧ body.type ≠ .str "Income" ∧
          body.type ≠ .str "Expense" then
        (.error .validation 400 "Type must be either Income or Expense", store)
      else
        match validate rt (merged rt body e) with
        | .error errors => (.error .validation 400 (", ".intercalate errors), store)
        | .ok f =>
          (.expense 200 (some "Expense updated successfully") (savedExpense rt e f),
            updateOne store (savedExpense rt e f)) := by
  by_cases h1 : body.title = .undefined <;> by_cases h2 : body.amount = .undefined <;>
    by_cases h3 : body.type = .undefined <;> by_cases h4 : body.category = .undefined <;>
    by_cases h5 : body.date = .undefined <;>
    simp [updateExpense, hid, hfind, merged, hydrate, savedExpense, h1, h2, h3, h4, h5]


/-- A found document is either rejected with a validation failure and nothing
written, or validated and saved. -/
theorem updateExpense_cases {rt : Runtime} {store : Store} {userId : ObjectId} {id : String}
    {oid : ObjectId} {e : Expense} (body : Body) (hid : rt.castObjectId id = some oid)
    (hfind : findOne store oid userId = some e) :
    ((updateExpense rt store userId id body).1.failure = some .validation ∧
      (updateExpense rt store userId id body).2 = store) ∨
    (∃ f, validate rt (merged rt body e) = .ok f ∧
      ¬ (body.amount ≠ .undefined ∧ leZero rt body.amount = true) ∧
      ¬ (body.type ≠ .undefined ∧ body.type ≠ .str "Income" ∧ body.type ≠ .str "Expense") ∧
      updateExpense rt store userId id body =
        (.expense 200 (some "Expense updated successfully") (savedExpense rt e f),
          updateOne store (savedExpense rt e f))) := by
  rw [updateExpense_found body hid hfind]
  by_cases ha : body.amount ≠ .undefined ∧ leZero rt body.amount = true
  · left; rw [if_pos ha]; exact ⟨rfl, rfl⟩
  · rw [if_neg ha]
    by_cases hk : body.type ≠ .undefined ∧ body.type ≠ .str "Income" ∧
        body.type ≠ .str "Expense"
    · left; rw [if_pos hk]; exact ⟨rfl, rfl⟩
    · rw [if_neg hk]
      cases hv : validate rt (merged rt body e) with
      | error errors => left; exact ⟨rfl, rfl⟩
      | ok f => right; exact ⟨f, rfl, ha, hk, rfl⟩

theorem truthy_of_absentOrEmpty {v : JsVal} (h : v.absentOrEmpty = true) :
    v.truthy = false := by
  cases v <;> simp_all [JsVal.absentOrEmpty, JsVal.truthy]

/-- An amount that is not positive and passes the comparison `amount <= 0`
fails the cast or the validators of the schema. -/
theorem checkAmount_error_of_notPositive {rt : Runtime} {v : JsVal}
    (hn : notPositive rt v = true) (hl : leZero rt v = false) :
    v = .undefined ∨ ∃ m, checkAmount rt (castNumber rt v) = .error m := by
  unfold notPositive at hn
  unfold leZero at hl
  cases h : toNumber rt v with
  | some q =>
    rw [h] at hn hl
    simp only at hn hl
    rw [hn] at hl
    cases hl
  | none =>
    cases v with
    | undefined => exact Or.inl rfl
    | null => simp [toNumber] at h
    | bool b => simp [toNumber] at h
    | num q => simp [toNumber] at h
    | str s =>
      right
      simp only [toNumber] at h
      simp only [castNumber]
      by_cases hs : s = ""
      · rw [if_pos hs]; exact ⟨_, rfl⟩
      · rw [if_neg hs, h]; exact ⟨_, rfl⟩

/-- A supplied text that is blank or too long fails the validators. -/
theorem check_error_of_badText (rt : Runtime) {max : Nat} {v : JsVal}
    (h : badText max v = true) :
    v ≠ .undefined ∧ ∃ s, castTrimmed rt v = .ok s ∧
      (s = none ∨ ∃ t, s = some t ∧ (t = "" ∨ max < jsLength t)) := by
  cases v with
  | undefined => simp [badText] at h
  | null => exact ⟨by simp, none, rfl, Or.inl rfl⟩
  | bool b => simp [badText] at h
  | num q => simp [badText] at h
  | str s =>
    simp only [badText, Bool.or_eq_true, decide_eq_true_eq] at h
    exact ⟨by simp, some (jsTrim s), rfl, Or.inr ⟨_, rfl, h⟩⟩

/-! ## C3: another owner's identifier -/

/-- C3: when the identifier of a document owned by `b` is used by another
user `a`, `updateExpense` and `removeExpense` both reply `Expense not found`
with status 404 and the collection afterwards is the collection before, for
every body. Identifiers are unique in the collection. -/
theorem foreign_update_remove_not_found (rt : Runtime) (store : Store) (a b : ObjectId)
    (t : Expense) (id : String) (body : Body) (hab : a ≠ b) (ht : t ∈ store)
    (hb : t.user = b) (hu : UniqueIds store) (hid : rt.castObjectId id = some t._id) :
    updateExpense rt store a id body = (.error .notFound 404 "Expense not found", store) ∧
    removeExpense rt store a id = (.error .notFound 404 "Expense not found", store) := by
  have hnone : findOne store t._id a = none :=
    findOne_other_owner hu ht (by rw [hb]; exact hab)
  constructor
  · simp only [updateExpense, hid, hnone]
  · simp only [removeExpense, hid, hnone]

theorem foreign_update_remove_not_found_witness :
    ((1 : ObjectId) ≠ 2 ∧ rent ∈ sampleStore ∧ rent.user = 2 ∧ UniqueIds sampleStore ∧
      sampleRuntime.castObjectId "3" = some rent._id) ∧
    (updateExpense sampleRuntime sampleStore 1 "3"
        ⟨.str "Mine", .num 1, .str "Income", .str "Gift", .undefined⟩ =
      (.error .notFound 404 "Expense not found", sampleStore) ∧
    removeExpense sampleRuntime sampleStore 1 "3" =
      (.error .notFound 404 "Expense not found", sampleStore)) :=
  ⟨by decide, foreign_update_remove_not_found sampleRuntime sampleStore 1 2 rent "3"
    ⟨.str "Mine", .num 1, .str "Income", .str "Gift", .undefined⟩
    (by decide) (by decide) (by decide) (by decide) (by decide)⟩

/-! ## C4: required fields of `addExpense` -/

/-- C4: when at least one of title, amount, type and category is absent or
empty, `addExpense` replies with a validation failure of status 400 and the
collection is unchanged. -/
theorem addExpense_missing_field (rt : Runtime) (store : Store) (userId : ObjectId)
    (body : Body)
    (h : body.title.absentOrEmpty = true ∨ body.amount.absentOrEmpty = true ∨
      body.type.absentOrEmpty = true ∨ body.category.absentOrEmpty = true) :
    addExpense rt store userId body =
      (.error .validation 400 "Please provide title, amount, type, and category", store) := by
  unfold addExpense
  rw [if_pos]
  rcases h with h | h | h | h <;> simp [truthy_of_absentOrEmpty h]

theorem addExpense_missing_field_witness :
    ((JsVal.str "Coffee").absentOrEmpty = true ∨ (JsVal.num 5).absentOrEmpty = true ∨
      (JsVal.str "Expense").absentOrEmpty = true ∨ (JsVal.str "").absentOrEmpty = true) ∧
    addExpense sampleRuntime sampleStore 1
        ⟨.str "Coffee", .num 5, .str "Expense", .str "", .undefined⟩ =
      (.error .validation 400 "Please provide title, amount, type, and category",
        sampleStore) :=
  ⟨by decide, addExpense_missing_field sampleRuntime sampleStore 1
    ⟨.str "Coffee", .num 5, .str "Expense", .str "", .undefined⟩ (by decide)⟩

/-! ## C5: the kind -/

/-- C5: a type other than exactly `Income` or `Expense` is rejected with a
validation failure and nothing is written, by `addExpense` whatever the other
fields are, and by `updateExpense` on a document of the caller when the type
is supplied. -/
theorem kind_outside_rejected (rt : Runtime) (store : Store) (userId : ObjectId)
    (body : Body) (hk : body.type.isKind = false) :
    ((addExpense rt store userId body).1.failure = some .validation ∧
      (addExpense rt store userId body).2 = store) ∧
    (∀ (id : String) (oid : ObjectId) (e : Expense), rt.castObjectId id = some oid →
      findOne store oid userId = some e → body.type ≠ .undefined →
      (updateExpense rt store userId id body).1.failure = some .validation ∧
        (updateExpense rt store userId id body).2 = store) := by
  have hk2 : body.type ≠ .str "Income" ∧ body.type ≠ .str "Expense" := by
    simpa [JsVal.isKind, not_or] using hk
  constructor
  · unfold addExpense
    by_cases h1 : (!body.title.truthy || !body.amount.truthy || !body.type.truthy ||
        !body.category.truthy) = true
    · rw [if_pos h1]; exact ⟨rfl, rfl⟩
    · rw [if_neg h1, if_pos hk2]; exact ⟨rfl, rfl⟩
  · intro id oid e hid hfind hsup
    rcases updateExpense_cases body hid hfind with h | ⟨f, _, _, hno, _⟩
    · exact h
    · exact absurd ⟨hsup, hk2⟩ hno

theorem kind_outside_rejected_witness :
    (JsVal.str "income").isKind = false ∧
    (((addExpense sampleRuntime sampleStore 1
          ⟨.str "Bonus", .num 50, .str "income", .str "Salary", .undefined⟩).1.failure =
        some .validation ∧
      (addExpense sampleRuntime sampleStore 1
          ⟨.str "Bonus", .num 50, .str "income", .str "Salary", .undefined⟩).2 =
        sampleStore) ∧
    (∀ (id : String) (oid : ObjectId) (e : Expense), sampleRuntime.castObjectId id = some oid →
      findOne sampleStore oid 1 = some e → JsVal.str "income" ≠ .undefined →
      (updateExpense sampleRuntime sampleStore 1 id
          ⟨.str "Bonus", .num 50, .str "income", .str "Salary", .undefined⟩).1.failure =
        some .validation ∧
      (updateExpense sampleRuntime sampleStore 1 id
          ⟨.str "Bonus", .num 50, .str "income", .str "Salary", .undefined⟩).2 =
        sampleStore)) :=
  ⟨by decide, kind_outside_rejected sampleRuntime sampleStore 1
    ⟨.str "Bonus", .num 50, .str "income", .str "Salary", .undefined⟩ (by decide)⟩


/-! ## C6: the amount -/

theorem validate_of_checks {rt : Runtime} {d : Document} {f : Fields}
    (h1 : checkTitle rt d.title = .ok f.title) (h2 : checkAmount rt d.amount = .ok f.amount)
    (h3 : checkType rt d.type = .ok f.type) (h4 : checkCategory rt d.category = .ok f.category)
    (h5 : checkDate rt d.date = .ok f.date) : validate rt d = .ok f := by
  simp only [validate, h1, h2, h3, h4, h5]

/-- C6, as stated, fails on an amount that is not a number and converts to a
positive one: the boolean `true` passes `!amount` and `amount <= 0`, the schema
casts it to 1, and `addExpense` stores the document with amount 1. -/
theorem addExpense_boolean_amount_counterexample :
    addExpense sampleRuntime [] 1
        ⟨.str "Bonus", .bool true, .str "Income", .str "Salary", .str "100"⟩ =
      (.expense 201 (some "Expense added successfully") bonus, [bonus]) ∧
    bonus.amount = 1 := by
  refine ⟨?_, rfl⟩
  have ha : checkAmount sampleRuntime (castNumber sampleRuntime (.bool true)) = .ok 1 := by
    simp only [castNumber, checkAmount, if_true]
    rw [if_neg (by norm_num)]
  have hval : validate sampleRuntime (newExpense sampleRuntime
      ⟨.str "Bonus", .bool true, .str "Income", .str "Salary", .str "100"⟩) =
      .ok ⟨"Bonus", 1, "Income", "Salary", 100⟩ :=
    validate_of_checks (by rfl) ha (by rfl) (by rfl) (by rfl)
  unfold addExpense
  rw [if_neg (by simp [JsVal.truthy]), if_neg (by simp),
    if_neg (by simp [leZero, toNumber]), hval]
  rfl

/-- C6, amended: an amount that converts to zero, to a negative number or to
no number (`NaN`, as a string that is not numeric does) is rejected with a
validation failure and nothing is written, by `addExpense` whatever the other
fields are, and by `updateExpense` on a document of the caller when the
amount is supplied. -/
theorem amount_not_positive_rejected (rt : Runtime) (store : Store) (userId : ObjectId)
    (body : Body) (hn : notPositive rt body.amount = true) :
    ((addExpense rt store userId body).1.failure = some .validation ∧
      (addExpense rt store userId body).2 = store) ∧
    (∀ (id : String) (oid : ObjectId) (e : Expense), rt.castObjectId id = some oid →
      findOne store oid userId = some e → body.amount ≠ .undefined →
      (updateExpense rt store userId id body).1.failure = some .validation ∧
        (updateExpense rt store userId id body).2 = store) := by
  constructor
  · unfold addExpense
    by_cases h1 : (!body.title.truthy || !body.amount.truthy || !body.type.truthy ||
        !body.category.truthy) = true
    · rw [if_pos h1]; exact ⟨rfl, rfl⟩
    rw [if_neg h1]
    by_cases h2 : body.type ≠ .str "Income" ∧ body.type ≠ .str "Expense"
    · rw [if_pos h2]; exact ⟨rfl, rfl⟩
    rw [if_neg h2]
    by_cases h3 : leZero rt body.amount = true
    · rw [if_pos h3]; exact ⟨rfl, rfl⟩
    rw [if_neg h3]
    have hl : leZero rt body.amount = false := by simpa using h3
    rcases checkAmount_error_of_notPositive hn hl with hu | ⟨m, hm⟩
    · rw [hu] at h1
      simp [JsVal.truthy] at h1
    · obtain ⟨errors, he⟩ :=
        validate_error_of_amount rt (newExpense rt body) m (by simpa [newExpense] using hm)
      rw [he]
      exact ⟨rfl, rfl⟩
  · intro id oid e hid hfind hsup
    rcases updateExpense_cases body hid hfind with h | ⟨f, hv, hno, _, _⟩
    · exact h
    · have hl : leZero rt body.amount = false := by
        cases hc : leZero rt body.amount with
        | false => rfl
        | true => exact absurd ⟨hsup, hc⟩ hno
      rcases checkAmount_error_of_notPositive hn hl with hu | ⟨m, hm⟩
      · exact absurd hu hsup
      · obtain ⟨errors, he⟩ :=
          validate_error_of_amount rt (merged rt body e) m
            (by simpa [merged, hsup] using hm)
        rw [he] at hv
        cases hv

theorem amount_not_positive_rejected_witness :
    notPositive sampleRuntime (JsVal.str "abc") = true ∧
    (((addExpense sampleRuntime sampleStore 1
          ⟨.str "Bonus", .str "abc", .str "Income", .str "Salary", .undefined⟩).1.failure =
        some .validation ∧
      (addExpense sampleRuntime sampleStore 1
          ⟨.str "Bonus", .str "abc", .str "Income", .str "Salary", .undefined⟩).2 =
        sampleStore) ∧
    (∀ (id : String) (oid : ObjectId) (e : Expense), sampleRuntime.castObjectId id = some oid →
      findOne sampleStore oid 1 = some e → JsVal.str "abc" ≠ .undefined →
      (updateExpense sampleRuntime sampleStore 1 id
          ⟨.str "Bonus", .str "abc", .str "Income", .str "Salary", .undefined⟩).1.failure =
        some .validation ∧
      (updateExpense sampleRuntime sampleStore 1 id
          ⟨.str "Bonus", .str "abc", .str "Income", .str "Salary", .undefined⟩).2 =
        sampleStore)) :=
  ⟨by decide, amount_not_positive_rejected sampleRuntime sampleStore 1
    ⟨.str "Bonus", .str "abc", .str "Income", .str "Salary", .undefined⟩ (by decide)⟩

/-! ## C7: no partial write -/

/-- C7: when at least one supplied field of the body fails validation,
`updateExpense` on a document of the caller replies with a validation failure
and the collection afterwards is the collection before, so no field supplied
in the same request is written; more generally, every failing call of
`updateExpense` leaves the collection as it was. -/
theorem updateExpense_no_partial_write (rt : Runtime) (store : Store) (userId : ObjectId)
    (id : String) (oid : ObjectId) (e : Expense) (body : Body)
    (hid : rt.castObjectId id = some oid) (hfind : findOne store oid userId = some e)
    (hbad : body.hasInvalidField rt = true) :
    ((updateExpense rt store userId id body).1.failure = some .validation ∧
      (updateExpense rt store userId id body).2 = store) ∧
    (∀ (user2 : ObjectId) (id2 : String) (body2 : Body),
      (updateExpense rt store user2 id2 body2).1.failure ≠ none →
      (updateExpense rt store user2 id2 body2).2 = store) := by
  constructor
  · rcases updateExpense_cases body hid hfind with h | ⟨f, hv, hna, hnk, _⟩
    · exact h
    · exfalso
      obtain ⟨ht, ha, hk, hc, _⟩ := validate_ok hv
      simp only [Body.hasInvalidField, Bool.or_eq_true, Bool.and_eq_true, decide_eq_true_eq,
        Bool.not_eq_true'] at hbad
      rcases hbad with ((hb | ⟨hsup, hn⟩) | ⟨hsup, hkind⟩) | hb
      · obtain ⟨hsup, c, hcast, hc2⟩ := check_error_of_badText rt hb
        simp only [merged, if_pos hsup, hcast] at ht
        rcases hc2 with rfl | ⟨t, rfl, h0 | hlen⟩
        · simp [checkTitle] at ht
        · simp [checkTitle, h0] at ht
        · by_cases h0 : t = ""
          · simp [checkTitle, h0] at ht
          · simp [checkTitle, h0, hlen] at ht
      · have hl : leZero rt body.amount = false := by
          cases hc : leZero rt body.amount with
          | false => rfl
          | true => exact absurd ⟨hsup, hc⟩ hna
        rcases checkAmount_error_of_notPositive hn hl with hu | ⟨m, hm⟩
        · exact hsup hu
        · simp only [merged, if_pos hsup, hm] at ha
          cases ha
      · apply hnk
        refine ⟨hsup, ?_⟩
        simpa [JsVal.isKind, not_or] using hkind
      · obtain ⟨hsup, c, hcast, hc2⟩ := check_error_of_badText rt hb
        simp only [merged, if_pos hsup, hcast] at hc
        rcases hc2 with rfl | ⟨t, rfl, h0 | hlen⟩
        · simp [checkCategory] at hc
        · simp [checkCategory, h0] at hc
        · by_cases h0 : t = ""
          · simp [checkCategory, h0] at hc
          · simp [checkCategory, h0, hlen] at hc
  · intro user2 id2 body2 hfail
    cases hid2 : rt.castObjectId id2 with
    | none => simp only [updateExpense, hid2]
    | some oid2 =>
      cases hfind2 : findOne store oid2 user2 with
      | none => simp only [updateExpense, hid2, hfind2]
      | some e2 =>
        rcases updateExpense_cases body2 hid2 hfind2 with h | ⟨f, _, _, _, h⟩
        · exact h.2
        · rw [h] at hfail
          exact absurd rfl hfail

theorem updateExpense_no_partial_write_witness :
    (sampleRuntime.castObjectId "2" = some 2 ∧ findOne sampleStore 2 1 = some coffee ∧
      Body.hasInvalidField sampleRuntime
        ⟨.str "Latte", .num 6, .str "Refund", .undefined, .undefined⟩ = true) ∧
    (((updateExpense sampleRuntime sampleStore 1 "2"
          ⟨.str "Latte", .num 6, .str "Refund", .undefined, .undefined⟩).1.failure =
        some .validation ∧
      (updateExpense sampleRuntime sampleStore 1 "2"
          ⟨.str "Latte", .num 6, .str "Refund", .undefined, .undefined⟩).2 = sampleStore) ∧
    (∀ (user2 : ObjectId) (id2 : String) (body2 : Body),
      (updateExpense sampleRuntime sampleStore user2 id2 body2).1.failure ≠ none →
      (updateExpense sampleRuntime sampleStore user2 id2 body2).2 = sampleStore)) :=
  ⟨by decide, updateExpense_no_partial_write sampleRuntime sampleStore 1 "2" 2 coffee
    ⟨.str "Latte", .num 6, .str "Refund", .undefined, .undefined⟩
    (by decide) (by decide) (by decide)⟩


/-! ## Lemmas on accepted bodies -/

theorem checkTitle_good (rt : Runtime) {s : String} (h1 : s ≠ "") (h2 : jsLength s ≤ 100) :
    checkTitle rt (.ok (some s)) = .ok s := by
  simp [checkTitle, h1, Nat.not_lt.2 h2]

theorem checkCategory_good (rt : Runtime) {s : String} (h1 : s ≠ "") (h2 : jsLength s ≤ 50) :
    checkCategory rt (.ok (some s)) = .ok s := by
  simp [checkCategory, h1, Nat.not_lt.2 h2]

theorem checkAmount_good (rt : Runtime) {q : ℚ} (h : 1 / 100 ≤ q) :
    checkAmount rt (.ok (some q)) = .ok q := by
  simp only [checkAmount]
  rw [if_neg (not_lt.2 h)]

theorem checkType_good (rt : Runtime) {s : String} (h : s = "Income" ∨ s = "Expense") :
    checkType rt (.ok (some s)) = .ok s := by
  have h0 : s ≠ "" := by rcases h with rfl | rfl <;> decide
  simp [checkType, h0, h]

theorem goodText_str {max : Nat} {v : JsVal} (h : goodText max v = true) :
    ∃ s, v = .str s ∧ jsTrim s ≠ "" ∧ jsLength (jsTrim s) ≤ max ∧ s ≠ "" := by
  cases v with
  | str s =>
    simp only [goodText, Bool.and_eq_true, decide_eq_true_eq] at h
    refine ⟨s, rfl, h.1, h.2, ?_⟩
    rintro rfl
    exact h.1 (by decide)
  | _ => simp [goodText] at h

theorem goodAmount_num {v : JsVal} (h : goodAmount v = true) :
    ∃ q, v = .num q ∧ (1 : ℚ) / 100 ≤ q := by
  cases v with
  | num q => exact ⟨q, rfl, by simpa [goodAmount] using h⟩
  | _ => simp [goodAmount] at h

theorem isKind_str {v : JsVal} (h : v.isKind = true) :
    ∃ s, v = .str s ∧ (s = "Income" ∨ s = "Expense") := by
  simp only [JsVal.isKind, decide_eq_true_eq] at h
  rcases h with rfl | rfl
  · exact ⟨_, rfl, Or.inl rfl⟩
  · exact ⟨_, rfl, Or.inr rfl⟩

theorem leZero_num_false {rt : Runtime} {q : ℚ} (h : (1 : ℚ) / 100 ≤ q) :
    leZero rt (.num q) = false := by
  have : ¬ q ≤ 0 := by
    intro h0
    have : (1 : ℚ) / 100 ≤ 0 := le_trans h h0
    norm_num at this
  simp [leZero, toNumber, this]

theorem insertOne_fresh (store : Store) (e : Expense) (h : ∀ x ∈ store, x._id ≠ e._id) :
    insertOne store e = some (store ++ [e]) := by
  unfold insertOne
  rw [if_neg]
  simp only [List.any_eq_true, decide_eq_true_eq, not_exists, not_and]
  exact h

theorem insertOne_some {store store1 : Store} {e : Expense}
    (h : insertOne store e = some store1) :
    (∀ x ∈ store, x._id ≠ e._id) ∧ store1 = store ++ [e] := by
  unfold insertOne at h
  split at h
  · cases h
  · next hno =>
    injection h with h
    refine ⟨?_, h.symm⟩
    simpa only [List.any_eq_true, decide_eq_true_eq, not_exists, not_and] using hno

/-- A valid body passes the checks of `addExpense` and the validators. -/
theorem addExpense_of_valid {rt : Runtime} {store : Store} {userId : ObjectId} {body : Body}
    (hv : body.valid rt = true) (hfresh : ∀ x ∈ store, x._id ≠ rt.newObjectId) :
    addExpense rt store userId body =
      (.expense 201 (some "Expense added successfully")
          (addedExpense rt userId (body.fields rt)),
        store ++ [addedExpense rt userId (body.fields rt)]) := by
  obtain ⟨title, amount, type, category, date⟩ := body
  simp only [Body.valid, Bool.and_eq_true, Bool.or_eq_true, Bool.not_eq_true'] at hv
  obtain ⟨⟨⟨⟨h1, h2⟩, h3⟩, h4⟩, h5⟩ := hv
  obtain ⟨t, rfl, ht1, ht2, ht0⟩ := goodText_str h1
  obtain ⟨q, rfl, hq⟩ := goodAmount_num h2
  obtain ⟨k, rfl, hk⟩ := isKind_str h3
  obtain ⟨c, rfl, hc1, hc2, hc0⟩ := goodText_str h4
  have hq0 : q ≠ 0 := by
    rintro rfl
    norm_num at hq
  have hk0 : k ≠ "" := by rcases hk with rfl | rfl <;> decide
  have hval : validate rt (newExpense rt ⟨.str t, .num q, .str k, .str c, date⟩) =
      .ok (Body.fields rt ⟨.str t, .num q, .str k, .str c, date⟩) := by
    apply validate_of_checks
    · exact checkTitle_good rt ht1 ht2
    · exact checkAmount_good rt hq
    · exact checkType_good rt hk
    · exact checkCategory_good rt hc1 hc2
    · simp only [newExpense, Body.fields]
      rcases h5 with h5 | h5
      · simp [h5, castDate, checkDate]
      · obtain ⟨d, hd⟩ := Option.isSome_iff_exists.1 h5
        by_cases htr : date.truthy = true
        · simp [htr, hd, castDate, checkDate]
        · simp [htr, castDate, checkDate]
  have hkind : ¬ (JsVal.str k ≠ .str "Income" ∧ JsVal.str k ≠ .str "Expense") := by
    rcases hk with rfl | rfl <;> simp
  unfold addExpense
  rw [if_neg (by simp [JsVal.truthy, ht0, hq0, hk0, hc0]), if_neg hkind,
    if_neg (by simp [leZero_num_false hq]), hval]
  simp only
  have hins := insertOne_fresh store
    (addedExpense rt userId (Body.fields rt ⟨.str t, .num q, .str k, .str c, date⟩)) hfresh
  unfold addedExpense at hins ⊢
  rw [hins]

/-- Every successful `addExpense` appends one document, owned by the caller,
under an identifier that was not in the collection. -/
theorem addExpense_success {rt : Runtime} {store store1 : Store} {userId : ObjectId}
    {body : Body} {status : Nat} {message : Option String} {e : Expense}
    (h : addExpense rt store userId body = (.expense status message e, store1)) :
    e.user = userId ∧ (∀ x ∈ store, x._id ≠ e._id) ∧ store1 = store ++ [e] := by
  unfold addExpense at h
  split at h
  · cases h
  split at h
  · cases h
  split at h
  · cases h
  split at h
  · cases h
  · simp only at h
    split at h
    · cases h
    · next hins =>
      obtain ⟨h1, h2⟩ := insertOne_some hins
      injection h with hr hs
      injection hr with _ _ he
      subst he hs
      exact ⟨rfl, h1, h2⟩


theorem findOne_append_fresh (store : Store) (e : Expense)
    (h : ∀ x ∈ store, x._id ≠ e._id) : findOne (store ++ [e]) e._id e.user = some e := by
  unfold findOne
  rw [List.find?_append]
  have : List.find? (fun x : Expense => decide (x._id = e._id ∧ x.user = e.user)) store =
      none := by
    rw [List.find?_eq_none]
    intro x hx
    simp [h x hx]
  rw [this]
  simp

/-- The reply to an amount between 0 and 0.01 in an otherwise valid body. -/
theorem addExpense_tiny (rt : Runtime) (store : Store) (userId : ObjectId) (body : Body)
    (q : ℚ) (hv : Body.valid rt { body with amount := .num 1 } = true)
    (hq : body.amount = .num q) (hpos : 0 < q) (hlt : q < 1 / 100) :
    addExpense rt store userId body =
      (.error .validation 400 "Amount must be greater than 0", store) := by
  obtain ⟨title, amount, type, category, date⟩ := body
  simp only at hq
  subst hq
  simp only [Body.valid, Bool.and_eq_true, Bool.or_eq_true, Bool.not_eq_true'] at hv
  obtain ⟨⟨⟨⟨h1, _⟩, h3⟩, h4⟩, h5⟩ := hv
  obtain ⟨t, rfl, ht1, ht2, ht0⟩ := goodText_str h1
  obtain ⟨k, rfl, hk⟩ := isKind_str h3
  obtain ⟨c, rfl, hc1, hc2, hc0⟩ := goodText_str h4
  have hq0 : q ≠ 0 := ne_of_gt hpos
  have hk0 : k ≠ "" := by rcases hk with rfl | rfl <;> decide
  have hkind : ¬ (JsVal.str k ≠ .str "Income" ∧ JsVal.str k ≠ .str "Expense") := by
    rcases hk with rfl | rfl <;> simp
  have hle : leZero rt (.num q) = false := by
    simp [leZero, toNumber, not_le.2 hpos]
  have hdate : ∃ d, checkDate rt (newExpense rt ⟨.str t, .num q, .str k, .str c, date⟩).date =
      .ok d := by
    simp only [newExpense]
    rcases h5 with h5 | h5
    · exact ⟨rt.now, by simp [h5, castDate, checkDate]⟩
    · obtain ⟨d, hd⟩ := Option.isSome_iff_exists.1 h5
      by_cases htr : date.truthy = true
      · exact ⟨d, by simp [htr, hd, castDate, checkDate]⟩
      · exact ⟨rt.now, by simp [htr, castDate, checkDate]⟩
  obtain ⟨d, hd⟩ := hdate
  have hval : validate rt (newExpense rt ⟨.str t, .num q, .str k, .str c, date⟩) =
      .error ["Amount must be greater than 0"] := by
    have e1 : checkTitle rt (newExpense rt ⟨.str t, .num q, .str k, .str c, date⟩).title =
        .ok (jsTrim t) := checkTitle_good rt ht1 ht2
    have e2 : checkAmount rt (newExpense rt ⟨.str t, .num q, .str k, .str c, date⟩).amount =
        .error "Amount must be greater than 0" := by
      simp only [newExpense, castNumber, checkAmount]
      rw [if_pos hlt]
    have e3 : checkType rt (newExpense rt ⟨.str t, .num q, .str k, .str c, date⟩).type =
        .ok k := checkType_good rt hk
    have e4 : checkCategory rt
        (newExpense rt ⟨.str t, .num q, .str k, .str c, date⟩).category = .ok (jsTrim c) :=
      checkCategory_good rt hc1 hc2
    simp only [validate, e1, e2, e3, e4, hd, errorOf, List.append_nil, List.nil_append]
  unfold addExpense
  rw [if_neg (by simp [JsVal.truthy, ht0, hq0, hk0, hc0]), if_neg hkind,
    if_neg (by simp [hle]), hval]
  rfl

/-! ## C8: one durable write -/

/-- C8, as stated, fails on an input the specification calls valid: a tea of
amount 0.005, which is greater than 0, with a title, a type, a category and a
date that are accepted. `addExpense` replies with status 400 and no document,
and the collection is left as it was: the schema sets `min` 0.01 on `amount`. -/
theorem addExpense_valid_input_counterexample :
    (0 : ℚ) < 1 / 200 ∧
    addExpense sampleRuntime sampleStore 1
        ⟨.str "Tea", .num (1 / 200), .str "Expense", .str "Food", .str "100"⟩ =
      (.error .validation 400 "Amount must be greater than 0", sampleStore) := by
  refine ⟨by norm_num, ?_⟩
  have hv : Body.valid sampleRuntime
      { (⟨.str "Tea", .num (1 / 200), .str "Expense", .str "Food", .str "100"⟩ : Body) with
        amount := .num 1 } = true := by
    simp only [Body.valid, goodAmount, Bool.and_eq_true, decide_eq_true_eq]
    exact ⟨⟨⟨⟨by decide, by norm_num⟩, by decide⟩, by decide⟩, by decide⟩
  exact addExpense_tiny sampleRuntime sampleStore 1 _ (1 / 200) hv rfl (by norm_num)
    (by norm_num)

/-- C8, amended: for a body that passes the checks of `addExpense` and the
validators of the schema (a title and a category that are not empty once
trimmed and then hold at most 100 and 50 UTF-16 code units, an amount that is
a number of at least 0.01, a type `Income` or `Expense`, a date that is left
out or can be read), `addExpense` replies with status 201 and a document
owned by the caller whose identifier was not in the collection, and the
collection afterwards is the collection before followed by that document;
every successful call has this effect. The identifier generated for the new
document is not yet in the collection. -/
theorem addExpense_adds_one_record (rt : Runtime) (store : Store) (userId : ObjectId)
    (body : Body) (hv : body.valid rt = true)
    (hfresh : ∀ x ∈ store, x._id ≠ rt.newObjectId) :
    (∃ e, addExpense rt store userId body =
        (.expense 201 (some "Expense added successfully") e, store ++ [e]) ∧
      e.user = userId ∧ ∀ x ∈ store, x._id ≠ e._id) ∧
    (∀ (body2 : Body) (status : Nat) (message : Option String) (e : Expense) (store1 : Store),
      addExpense rt store userId body2 = (.expense status message e, store1) →
      e.user = userId ∧ (∀ x ∈ store, x._id ≠ e._id) ∧ store1 = store ++ [e]) :=
  ⟨⟨addedExpense rt userId (body.fields rt), addExpense_of_valid hv hfresh, rfl, hfresh⟩,
    fun _ _ _ _ _ h => addExpense_success h⟩

theorem addExpense_adds_one_record_witness :
    (Body.valid sampleRuntime
        ⟨.str "Coffee", .num 5, .str "Expense", .str "Food", .str "100"⟩ = true ∧
      ∀ x ∈ sampleStore, x._id ≠ sampleRuntime.newObjectId) ∧
    ((∃ e, addExpense sampleRuntime sampleStore 1
          ⟨.str "Coffee", .num 5, .str "Expense", .str "Food", .str "100"⟩ =
        (.expense 201 (some "Expense added successfully") e, sampleStore ++ [e]) ∧
      e.user = 1 ∧ ∀ x ∈ sampleStore, x._id ≠ e._id) ∧
    (∀ (body2 : Body) (status : Nat) (message : Option String) (e : Expense) (store1 : Store),
      addExpense sampleRuntime sampleStore 1 body2 = (.expense status message e, store1) →
      e.user = 1 ∧ (∀ x ∈ sampleStore, x._id ≠ e._id) ∧ store1 = sampleStore ++ [e])) :=
  have hv : Body.valid sampleRuntime
      ⟨.str "Coffee", .num 5, .str "Expense", .str "Food", .str "100"⟩ = true := by
    simp only [Body.valid, goodAmount, Bool.and_eq_true, decide_eq_true_eq]
    exact ⟨⟨⟨⟨by decide, by norm_num⟩, by decide⟩, by decide⟩, by decide⟩
  ⟨⟨hv, by decide⟩, addExpense_adds_one_record sampleRuntime sampleStore 1
    ⟨.str "Coffee", .num 5, .str "Expense", .str "Food", .str "100"⟩ hv (by decide)⟩

/-! ## C9: add, then get -/

/-- C9, as stated, fails on two inputs it calls valid: a title with a leading
blank is stored trimmed, so the document read back differs from the input; an
amount of 0.005 is greater than 0 and `addExpense` rejects it. -/
theorem addExpense_then_get_counterexample :
    (" Coffee" ≠ "" ∧ " Coffee".length ≤ 100 ∧
      addExpense sampleRuntime [] 1
          ⟨.str " Coffee", .num 5, .str "Expense", .str "Food", .str "100"⟩ =
        (.expense 201 (some "Expense added successfully") newCoffee, [newCoffee]) ∧
      getExpenseById sampleRuntime [newCoffee] 1 "7" = .expense 200 none newCoffee ∧
      newCoffee.title ≠ " Coffee") ∧
    ((0 : ℚ) < 1 / 200 ∧
      addExpense sampleRuntime [] 1
          ⟨.str "Coffee", .num (1 / 200), .str "Expense", .str "Food", .str "100"⟩ =
        (.error .validation 400 "Amount must be greater than 0", [])) := by
  refine ⟨⟨by decide, by decide, ?_, by decide, by decide⟩, by norm_num, ?_⟩
  · have hv : Body.valid sampleRuntime
        ⟨.str " Coffee", .num 5, .str "Expense", .str "Food", .str "100"⟩ = true := by
      simp only [Body.valid, goodAmount, Bool.and_eq_true, decide_eq_true_eq]
      exact ⟨⟨⟨⟨by decide, by norm_num⟩, by decide⟩, by decide⟩, by decide⟩
    rw [addExpense_of_valid hv (by decide)]
    decide
  · have h1 : ¬ ((1 : ℚ) / 200 = 0) := by norm_num
    have h2 : ¬ ((1 : ℚ) / 200 ≤ 0) := by norm_num
    have h3 : (1 : ℚ) / 200 < 1 / 100 := by norm_num
    have ha : checkAmount sampleRuntime (.ok (some (1 / 200))) =
        .error "Amount must be greater than 0" := by
      simp only [checkAmount]
      rw [if_pos h3]
    have hval : validate sampleRuntime (newExpense sampleRuntime
        ⟨.str "Coffee", .num (1 / 200), .str "Expense", .str "Food", .str "100"⟩) =
        .error ["Amount must be greater than 0"] := by
      have ht : checkTitle sampleRuntime (castTrimmed sampleRuntime (.str "Coffee")) =
          .ok "Coffee" := by rfl
      have hk : checkType sampleRuntime (castString sampleRuntime (.str "Expense")) =
          .ok "Expense" := by rfl
      have hc : checkCategory sampleRuntime (castTrimmed sampleRuntime (.str "Food")) =
          .ok "Food" := by rfl
      have hd : checkDate sampleRuntime (castDate (if (JsVal.str "100").truthy then
          newDate sampleRuntime (.str "100") else some sampleRuntime.now)) = .ok 100 := by
        rfl
      simp only [validate, newExpense, castNumber, ha, ht, hk, hc, hd, errorOf,
        List.append_nil, List.nil_append]
    unfold addExpense
    rw [if_neg (by simp [JsVal.truthy, h1]), if_neg (by simp),
      if_neg (by simp [leZero, toNumber, h2]), hval]
    rfl

/-- C9, amended: for a title and a category that are not empty once trimmed
and then hold at most 100 and 50 UTF-16 code units, an amount of at least
0.01, a type `Income` or `Expense` and a date string that parses, `addExpense`
succeeds when the generated identifier is new, and `getExpenseById` with the
same user and the returned identifier yields the stored document, whose title
and category are the trimmed inputs and whose amount, type and date are the
inputs. -/
theorem addExpense_then_getExpenseById (rt : Runtime) (store : Store) (userId : ObjectId)
    (title : String) (amount : ℚ) (type category date : String) (t : Int) (id : String)
    (htitle : jsTrim title ≠ "") (htlen : jsLength (jsTrim title) ≤ 100)
    (hamount : 1 / 100 ≤ amount) (hkind : type = "Income" ∨ type = "Expense")
    (hcat : jsTrim category ≠ "") (hclen : jsLength (jsTrim category) ≤ 50)
    (hdate0 : date ≠ "") (hdate : rt.dateParse date = some t)
    (hfresh : ∀ x ∈ store, x._id ≠ rt.newObjectId)
    (hid : rt.castObjectId id = some rt.newObjectId) :
    ∃ e, addExpense rt store userId
          ⟨.str title, .num amount, .str type, .str category, .str date⟩ =
        (.expense 201 (some "Expense added successfully") e, store ++ [e]) ∧
      e._id = rt.newObjectId ∧
      getExpenseById rt (store ++ [e]) userId id = .expense 200 none e ∧
      e.title = jsTrim title ∧ e.amount = amount ∧ e.type = type ∧
      e.category = jsTrim category ∧ e.date = t := by
  have hv : Body.valid rt ⟨.str title, .num amount, .str type, .str category, .str date⟩ =
      true := by
    simp only [Body.valid, goodText, goodAmount, JsVal.isKind, newDate, hdate,
      Bool.and_eq_true, Bool.or_eq_true, decide_eq_true_eq]
    refine ⟨⟨⟨⟨⟨htitle, htlen⟩, hamount⟩, ?_⟩, hcat, hclen⟩, Or.inr rfl⟩
    rcases hkind with rfl | rfl <;> simp
  refine ⟨addedExpense rt userId
    (Body.fields rt ⟨.str title, .num amount, .str type, .str category, .str date⟩),
    addExpense_of_valid hv hfresh, rfl, ?_, rfl, rfl, rfl, rfl, ?_⟩
  · unfold getExpenseById
    rw [hid]
    simp only
    have := findOne_append_fresh store (addedExpense rt userId
      (Body.fields rt ⟨.str title, .num amount, .str type, .str category, .str date⟩)) hfresh
    simp only [addedExpense] at this ⊢
    rw [this]
  · simp [addedExpense, Body.fields, JsVal.truthy, hdate0, newDate, hdate]

theorem addExpense_then_getExpenseById_witness :
    (jsTrim " Coffee" ≠ "" ∧ jsLength (jsTrim " Coffee") ≤ 100 ∧ (1 : ℚ) / 100 ≤ 5 ∧
      ("Expense" = "Income" ∨ "Expense" = "Expense") ∧ jsTrim "Food" ≠ "" ∧
      jsLength (jsTrim "Food") ≤ 50 ∧ "100" ≠ "" ∧ sampleRuntime.dateParse "100" = some 100 ∧
      (∀ x ∈ sampleStore, x._id ≠ sampleRuntime.newObjectId) ∧
      sampleRuntime.castObjectId "7" = some sampleRuntime.newObjectId) ∧
    ∃ e, addExpense sampleRuntime sampleStore 1
          ⟨.str " Coffee", .num 5, .str "Expense", .str "Food", .str "100"⟩ =
        (.expense 201 (some "Expense added successfully") e, sampleStore ++ [e]) ∧
      e._id = sampleRuntime.newObjectId ∧
      getExpenseById sampleRuntime (sampleStore ++ [e]) 1 "7" = .expense 200 none e ∧
      e.title = jsTrim " Coffee" ∧ e.amount = 5 ∧ e.type = "Expense" ∧
      e.category = jsTrim "Food" ∧ e.date = 100 :=
  ⟨⟨by decide, by decide, by norm_num, by decide, by decide, by decide, by decide, by decide,
      by decide, by decide⟩,
    addExpense_then_getExpenseById sampleRuntime sampleStore 1 " Coffee" 5 "Expense" "Food"
      "100" 100 "7" (by decide) (by decide) (by norm_num) (by decide) (by decide) (by decide)
      (by decide) (by decide) (by decide) (by decide)⟩


/-! ## Lemmas on accepted partial bodies -/

theorem findOne_updateOne {store : Store} {oid userId : ObjectId} {e s : Expense}
    (hfind : findOne store oid userId = some e) (hid : s._id = oid) (hu : s.user = userId) :
    findOne (updateOne store s) oid userId = some s := by
  induction store with
  | nil => simp [findOne] at hfind
  | cons x rest ih =>
    by_cases hx : x._id = s._id
    · simp [updateOne, hx, findOne, List.find?_cons, hid, hu]
    · have hx2 : ¬ (x._id = oid ∧ x.user = userId) := fun h => hx (by rw [h.1, hid])
      have hrest : findOne rest oid userId = some e := by
        simpa [findOne, List.find?_cons, hx2] using hfind
      have := ih hrest
      simp only [findOne] at this
      simp only [updateOne, if_neg hx, findOne, List.find?_cons, decide_eq_false hx2]
      exact this

theorem conforms_iff {e : Expense} (h : e.conforms = true) :
    e.title ≠ "" ∧ jsLength e.title ≤ 100 ∧ (1 : ℚ) / 100 ≤ e.amount ∧
    (e.type = "Income" ∨ e.type = "Expense") ∧ e.category ≠ "" ∧ jsLength e.category ≤ 50 := by
  simp only [Expense.conforms, Bool.and_eq_true, decide_eq_true_eq] at h
  obtain ⟨⟨⟨⟨⟨h1, h2⟩, h3⟩, h4⟩, h5⟩, h6⟩ := h
  exact ⟨h1, h2, h3, h4, h5, h6⟩

/-- The validators accept the merge of a valid partial body into a stored
document that satisfies the schema. -/
theorem validate_merged (rt : Runtime) {body : Body} {e : Expense}
    (hok : e.conforms = true) (hv : body.validPatch rt = true) :
    validate rt (merged rt body e) = .ok (patched rt body e) := by
  obtain ⟨e1, e2, e3, e4, e5, e6⟩ := conforms_iff hok
  obtain ⟨title, amount, type, category, date⟩ := body
  simp only [Body.validPatch, Bool.and_eq_true, Bool.or_eq_true, decide_eq_true_eq] at hv
  obtain ⟨⟨⟨⟨h1, h2⟩, h3⟩, h4⟩, h5⟩ := hv
  apply validate_of_checks
  · rcases h1 with rfl | h1
    · simpa [merged, patched] using checkTitle_good rt e1 e2
    · obtain ⟨t, rfl, ht1, ht2, _⟩ := goodText_str h1
      simpa [merged, patched, castTrimmed, castString] using checkTitle_good rt ht1 ht2
  · rcases h2 with rfl | h2
    · simpa [merged, patched] using checkAmount_good rt e3
    · obtain ⟨q, rfl, hq⟩ := goodAmount_num h2
      simpa [merged, patched, castNumber] using checkAmount_good rt hq
  · rcases h3 with rfl | h3
    · simpa [merged, patched] using checkType_good rt e4
    · obtain ⟨k, rfl, hk⟩ := isKind_str h3
      simpa [merged, patched, castString] using checkType_good rt hk
  · rcases h4 with rfl | h4
    · simpa [merged, patched] using checkCategory_good rt e5 e6
    · obtain ⟨c, rfl, hc1, hc2, _⟩ := goodText_str h4
      simpa [merged, patched, castTrimmed, castString] using
        checkCategory_good rt hc1 hc2
  · rcases h5 with rfl | h5
    · simp [merged, patched, checkDate]
    · obtain ⟨d, hd⟩ := Option.isSome_iff_exists.1 h5
      by_cases hu : date = .undefined
      · subst hu
        simp [newDate] at hd
      · simp [merged, patched, hu, hd, castDate, checkDate]

/-- A valid partial body on a stored document that satisfies the schema is
saved as `patched` describes. -/
theorem updateExpense_of_validPatch (rt : Runtime) (store : Store) (userId : ObjectId)
    (id : String) (oid : ObjectId) (e : Expense) (body : Body)
    (hid : rt.castObjectId id = some oid) (hfind : findOne store oid userId = some e)
    (hok : e.conforms = true) (hv : body.validPatch rt = true) :
    updateExpense rt store userId id body =
      (.expense 200 (some "Expense updated successfully")
          (savedExpense rt e (patched rt body e)),
        updateOne store (savedExpense rt e (patched rt body e))) := by
  have hval := validate_merged rt hok hv
  have hv2 := hv
  simp only [Body.validPatch, Bool.and_eq_true, Bool.or_eq_true, decide_eq_true_eq] at hv2
  obtain ⟨⟨⟨⟨_, h2⟩, h3⟩, _⟩, _⟩ := hv2
  have ha : ¬ (body.amount ≠ .undefined ∧ leZero rt body.amount = true) := by
    rintro ⟨hsup, hle⟩
    rcases h2 with h2 | h2
    · exact hsup h2
    · obtain ⟨q, hq, hq2⟩ := goodAmount_num h2
      rw [hq, leZero_num_false hq2] at hle
      cases hle
  have hk : ¬ (body.type ≠ .undefined ∧ body.type ≠ .str "Income" ∧
      body.type ≠ .str "Expense") := by
    rintro ⟨hsup, hn1, hn2⟩
    rcases h3 with h3 | h3
    · exact hsup h3
    · simp only [JsVal.isKind, decide_eq_true_eq] at h3
      rcases h3 with h3 | h3
      · exact hn1 h3
      · exact hn2 h3
  rw [updateExpense_found body hid hfind, if_neg ha, if_neg hk, hval]

/-! ## C10: sparse update -/

/-- C10, as stated, fails: a supplied title with surrounding blanks is valid,
and the document stored and returned holds the trimmed title, not the
supplied value. -/
theorem updateExpense_supplied_counterexample :
    (" Latte " ≠ "" ∧ " Latte ".length ≤ 100) ∧
    updateExpense sampleRuntime sampleStore 1 "2"
        ⟨.str " Latte ", .undefined, .undefined, .undefined, .undefined⟩ =
      (.expense 200 (some "Expense updated successfully") latte, [latte, paycheck, rent]) ∧
    latte.title ≠ " Latte " := by
  refine ⟨by decide, ?_, by decide⟩
  have hok : coffee.conforms = true := by
    simp only [Expense.conforms, Bool.and_eq_true, decide_eq_true_eq]
    exact ⟨⟨⟨⟨⟨by decide, by decide⟩, by norm_num [coffee]⟩, by decide⟩, by decide⟩, by decide⟩
  rw [updateExpense_of_validPatch sampleRuntime sampleStore 1 "2" 2 coffee _ (by decide) (by decide) hok
    (by decide)]
  decide

/-- C10, amended: for a document of the caller that satisfies the schema and
a body in which every supplied field is valid, `updateExpense` stores and
returns the document in which a supplied title or category is the supplied
text trimmed, a supplied amount, type or date is the supplied value, and
every absent field keeps its value; a following `getExpenseById` reads that
document; with no field supplied the document is returned unchanged. -/
theorem updateExpense_applies_supplied (rt : Runtime) (store : Store) (userId : ObjectId)
    (id : String) (oid : ObjectId) (e : Expense) (body : Body)
    (hid : rt.castObjectId id = some oid) (hfind : findOne store oid userId = some e)
    (hok : e.conforms = true) (hv : body.validPatch rt = true) :
    updateExpense rt store userId id body =
      (.expense 200 (some "Expense updated successfully")
          (savedExpense rt e (patched rt body e)),
        updateOne store (savedExpense rt e (patched rt body e))) ∧
    getExpenseById rt (updateOne store (savedExpense rt e (patched rt body e))) userId id =
      .expense 200 none (savedExpense rt e (patched rt body e)) ∧
    fieldsOf (savedExpense rt e (patched rt body e)) = patched rt body e ∧
    (body = ⟨.undefined, .undefined, .undefined, .undefined, .undefined⟩ →
      savedExpense rt e (patched rt body e) = e) := by
  obtain ⟨_, h1, h2⟩ := findOne_some hfind
  refine ⟨updateExpense_of_validPatch rt store userId id oid e body hid hfind hok hv, ?_, rfl, ?_⟩
  · unfold getExpenseById
    rw [hid]
    simp only
    rw [findOne_updateOne hfind (by simpa [savedExpense] using h1)
      (by simpa [savedExpense] using h2)]
  · rintro rfl
    have : patched rt ⟨.undefined, .undefined, .undefined, .undefined, .undefined⟩ e =
        fieldsOf e := by
      simp [patched, fieldsOf]
    rw [this]
    simp [savedExpense, fieldsOf]

theorem updateExpense_applies_supplied_witness :
    (sampleRuntime.castObjectId "2" = some 2 ∧ findOne sampleStore 2 1 = some coffee ∧
      coffee.conforms = true ∧
      Body.validPatch sampleRuntime
        ⟨.str " Latte ", .undefined, .undefined, .undefined, .undefined⟩ = true) ∧
    (updateExpense sampleRuntime sampleStore 1 "2"
        ⟨.str " Latte ", .undefined, .undefined, .undefined, .undefined⟩ =
      (.expense 200 (some "Expense updated successfully")
          (savedExpense sampleRuntime coffee (patched sampleRuntime
            ⟨.str " Latte ", .undefined, .undefined, .undefined, .undefined⟩ coffee)),
        updateOne sampleStore (savedExpense sampleRuntime coffee (patched sampleRuntime
          ⟨.str " Latte ", .undefined, .undefined, .undefined, .undefined⟩ coffee))) ∧
    getExpenseById sampleRuntime
        (updateOne sampleStore (savedExpense sampleRuntime coffee (patched sampleRuntime
          ⟨.str " Latte ", .undefined, .undefined, .undefined, .undefined⟩ coffee))) 1 "2" =
      .expense 200 none (savedExpense sampleRuntime coffee (patched sampleRuntime
        ⟨.str " Latte ", .undefined, .undefined, .undefined, .undefined⟩ coffee)) ∧
    fieldsOf (savedExpense sampleRuntime coffee (patched sampleRuntime
        ⟨.str " Latte ", .undefined, .undefined, .undefined, .undefined⟩ coffee)) =
      patched sampleRuntime
        ⟨.str " Latte ", .undefined, .undefined, .undefined, .undefined⟩ coffee ∧
    ((⟨.str " Latte ", .undefined, .undefined, .undefined, .undefined⟩ : Body) =
        ⟨.undefined, .undefined, .undefined, .undefined, .undefined⟩ →
      savedExpense sampleRuntime coffee (patched sampleRuntime
        ⟨.str " Latte ", .undefined, .undefined, .undefined, .undefined⟩ coffee) = coffee)) :=
  have hok : coffee.conforms = true := by
    simp only [Expense.conforms, Bool.and_eq_true, decide_eq_true_eq]
    exact ⟨⟨⟨⟨⟨by decide, by decide⟩, by norm_num [coffee]⟩, by decide⟩, by decide⟩, by decide⟩
  ⟨⟨by decide, by decide, hok, by decide⟩,
    updateExpense_applies_supplied sampleRuntime sampleStore 1 "2" 2 coffee
      ⟨.str " Latte ", .undefined, .undefined, .undefined, .undefined⟩
      (by decide) (by decide) hok (by decide)⟩


/-! ## Lemmas on unique identifiers -/

theorem eq_of_id_eq {store : Store} (hu : UniqueIds store) {x y : Expense} (hx : x ∈ store)
    (hy : y ∈ store) (h : x._id = y._id) : x = y :=
  List.inj_on_of_nodup_map hu hx hy h

theorem uniqueIds_tail {x : Expense} {rest : Store} (hu : UniqueIds (x :: rest)) :
    UniqueIds rest := by
  unfold UniqueIds at hu ⊢
  exact (List.nodup_cons.1 (by simpa using hu)).2

theorem nodup_of_uniqueIds {store : Store} (hu : UniqueIds store) : store.Nodup :=
  List.Nodup.of_map _ hu

theorem findOne_of_mem {store : Store} (hu : UniqueIds store) {t : Expense} (ht : t ∈ store) :
    findOne store t._id t.user = some t := by
  cases h : findOne store t._id t.user with
  | none => exact absurd ⟨t, ht, rfl, rfl⟩ (findOne_eq_none.1 h)
  | some x =>
    obtain ⟨hx, hid, _⟩ := findOne_some h
    rw [eq_of_id_eq hu hx ht hid]

/-- With unique identifiers, `save()` touches one position of the collection. -/
theorem updateOne_frame {store : Store} (hu : UniqueIds store) {e s : Expense}
    (he : e ∈ store) (hid : s._id = e._id) (R : Expense → Expense → Prop)
    (hrefl : ∀ x, R x x) (hes : R e s) : List.Forall₂ R store (updateOne store s) := by
  induction store with
  | nil => exact List.Forall₂.nil
  | cons x rest ih =>
    by_cases hx : x._id = s._id
    · have hxe : x = e := eq_of_id_eq hu (List.mem_cons_self _ _) he (hx.trans hid)
      simp only [updateOne, if_pos hx]
      subst hxe
      exact List.Forall₂.cons hes (List.forall₂_same.2 (fun y _ => hrefl y))
    · simp only [updateOne, if_neg hx]
      have hne : e ≠ x := by
        rintro rfl
        exact hx hid.symm
      have he2 : e ∈ rest := by
        rcases List.mem_cons.1 he with h | h
        · exact absurd h hne
        · exact h
      exact List.Forall₂.cons (hrefl x) (ih (uniqueIds_tail hu) he2)

theorem deleteOne_eq_erase {store : Store} (hu : UniqueIds store) {t : Expense}
    (ht : t ∈ store) : deleteOne store t._id t.user = store.erase t := by
  induction store with
  | nil => simp at ht
  | cons x rest ih =>
    by_cases hx : x = t
    · subst hx
      simp [deleteOne, List.eraseP_cons]
    · have ht2 : t ∈ rest := by
        rcases List.mem_cons.1 ht with h | h
        · exact absurd h.symm hx
        · exact h
      have hp : ¬ (x._id = t._id ∧ x.user = t.user) := fun h =>
        hx (eq_of_id_eq hu (List.mem_cons_self _ _) ht h.1)
      have := ih (uniqueIds_tail hu) ht2
      simp only [deleteOne] at this ⊢
      rw [List.eraseP_cons, List.erase_cons]
      simp only [decide_eq_false hp, Bool.false_eq_true, if_false, this]
      have hb : (x == t) = false := by simpa using hx
      simp [hb]

/-! ## C11: what an update keeps -/

/-- C11: whatever keys the body carries, `_id`, `user` and `createdAt`
included, `updateExpense` leaves every stored document with its `_id`, `user`
and `createdAt`, at its place in the collection, and leaves every document
other than the one addressed equal to what it was; the returned document has
the `_id`, `user` and `createdAt` of the one found. Identifiers are unique in
the collection. -/
theorem updateExpense_keeps_identity (rt : Runtime) (store : Store) (userId : ObjectId)
    (id : String) (raw : JsonBody) (hu : UniqueIds store) :
    List.Forall₂
      (fun x y => y._id = x._id ∧ y.user = x.user ∧ y.createdAt = x.createdAt ∧
        ((rt.castObjectId id ≠ some x._id ∨ x.user ≠ userId) → y = x))
      store (updateExpense rt store userId id raw.read).2 ∧
    (∀ (oid : ObjectId) (e : Expense), rt.castObjectId id = some oid →
      findOne store oid userId = some e →
      ∀ r ∈ (updateExpense rt store userId id raw.read).1.records,
        r._id = e._id ∧ r.user = e.user ∧ r.createdAt = e.createdAt) := by
  have hsame : List.Forall₂
      (fun x y : Expense => y._id = x._id ∧ y.user = x.user ∧ y.createdAt = x.createdAt ∧
        ((rt.castObjectId id ≠ some x._id ∨ x.user ≠ userId) → y = x)) store store :=
    List.forall₂_same.2 (fun x _ => ⟨rfl, rfl, rfl, fun _ => rfl⟩)
  constructor
  · cases hid : rt.castObjectId id with
    | none =>
      simp only [updateExpense, hid]
      rw [hid] at hsame
      exact hsame
    | some oid =>
      cases hfind : findOne store oid userId with
      | none =>
        simp only [updateExpense, hid, hfind]
        rw [hid] at hsame
        exact hsame
      | some e =>
        obtain ⟨he, h1, h2⟩ := findOne_some hfind
        rcases updateExpense_cases raw.read hid hfind with h | ⟨f, _, _, _, h⟩
        · rw [h.2]
          rw [hid] at hsame
          exact hsame
        · rw [h]
          show List.Forall₂ _ store (updateOne store (savedExpense rt e f))
          refine updateOne_frame (s := savedExpense rt e f) hu he rfl _ ?_ ?_
          · exact fun x => ⟨rfl, rfl, rfl, fun _ => rfl⟩
          · refine ⟨rfl, rfl, rfl, ?_⟩
            rintro (hne | hne)
            · exact absurd (by rw [h1]) hne
            · exact absurd h2 hne
  · intro oid e hid hfind r hr
    rcases updateExpense_cases raw.read hid hfind with h | ⟨f, _, _, _, h⟩
    · cases hrep : (updateExpense rt store userId id raw.read).1 with
      | error k st m => rw [hrep] at hr; simp [Reply.records] at hr
      | expenses n es => rw [hrep] at h; simp [Reply.failure] at h
      | expense st m x => rw [hrep] at h; simp [Reply.failure] at h
      | stats x => rw [hrep] at h; simp [Reply.failure] at h
    · rw [h] at hr
      simp only [Reply.records, List.mem_singleton] at hr
      subst hr
      exact ⟨rfl, rfl, rfl⟩

theorem updateExpense_keeps_identity_witness :
    UniqueIds sampleStore ∧
    (List.Forall₂
      (fun x y => y._id = x._id ∧ y.user = x.user ∧ y.createdAt = x.createdAt ∧
        ((sampleRuntime.castObjectId "2" ≠ some x._id ∨ x.user ≠ 1) → y = x))
      sampleStore
      (updateExpense sampleRuntime sampleStore 1 "2"
        (JsonBody.read ⟨.str "Latte", .undefined, .undefined, .undefined, .undefined,
          .str "3", .str "2", .num 0⟩)).2 ∧
    (∀ (oid : ObjectId) (e : Expense), sampleRuntime.castObjectId "2" = some oid →
      findOne sampleStore oid 1 = some e →
      ∀ r ∈ (updateExpense sampleRuntime sampleStore 1 "2"
        (JsonBody.read ⟨.str "Latte", .undefined, .undefined, .undefined, .undefined,
          .str "3", .str "2", .num 0⟩)).1.records,
        r._id = e._id ∧ r.user = e.user ∧ r.createdAt = e.createdAt)) :=
  ⟨by decide, updateExpense_keeps_identity sampleRuntime sampleStore 1 "2"
    ⟨.str "Latte", .undefined, .undefined, .undefined, .undefined, .str "3", .str "2", .num 0⟩
    (by decide)⟩


/-! ## C12: blank texts -/

theorem validate_error_of_title (rt : Runtime) (d : Document) (m : String)
    (h : checkTitle rt d.title = .error m) : ∃ errors, validate rt d = .error errors := by
  unfold validate
  split
  · next h1 _ _ _ _ => rw [h] at h1; cases h1
  · exact ⟨_, rfl⟩

theorem validate_error_of_category (rt : Runtime) (d : Document) (m : String)
    (h : checkCategory rt d.category = .error m) : ∃ errors, validate rt d = .error errors := by
  unfold validate
  split
  · next _ _ _ h1 _ => rw [h] at h1; cases h1
  · exact ⟨_, rfl⟩

theorem blank_str {v : JsVal} (h : v.blank = true) : ∃ s, v = .str s ∧ jsTrim s = "" := by
  cases v with
  | str s => exact ⟨s, rfl, by simpa [JsVal.blank] using h⟩
  | _ => simp [JsVal.blank] at h

/-- A document whose title or category is blank once trimmed fails validation. -/
theorem validate_error_of_blank (rt : Runtime) (d : Document)
    (h : d.title = .ok (some "") ∨ d.category = .ok (some "")) :
    ∃ errors, validate rt d = .error errors := by
  rcases h with h | h
  · exact validate_error_of_title rt d "Title is required" (by rw [h]; rfl)
  · exact validate_error_of_category rt d "Category is required" (by rw [h]; rfl)

/-- C12: a title or a category that is the empty string, or holds only
whitespace, is rejected with a validation failure and nothing is written, by
`updateExpense` on a document of the caller and by `addExpense` alike,
whatever the other fields are. -/
theorem blank_text_rejected (rt : Runtime) (store : Store) (userId : ObjectId) (body : Body)
    (hb : body.title.blank = true ∨ body.category.blank = true) :
    (∀ (id : String) (oid : ObjectId) (e : Expense), rt.castObjectId id = some oid →
      findOne store oid userId = some e →
      (updateExpense rt store userId id body).1.failure = some .validation ∧
        (updateExpense rt store userId id body).2 = store) ∧
    ((addExpense rt store userId body).1.failure = some .validation ∧
      (addExpense rt store userId body).2 = store) := by
  constructor
  · intro id oid e hid hfind
    rcases updateExpense_cases body hid hfind with h | ⟨f, hv, _, _, _⟩
    · exact h
    · exfalso
      have hdoc : (merged rt body e).title = .ok (some "") ∨
          (merged rt body e).category = .ok (some "") := by
        rcases hb with hb | hb
        · obtain ⟨t, ht, h0⟩ := blank_str hb
          left
          simp [merged, ht, castTrimmed, castString, h0]
        · obtain ⟨t, ht, h0⟩ := blank_str hb
          right
          simp [merged, ht, castTrimmed, castString, h0]
      obtain ⟨errors, he⟩ := validate_error_of_blank rt _ hdoc
      rw [he] at hv
      cases hv
  · unfold addExpense
    by_cases h1 : (!body.title.truthy || !body.amount.truthy || !body.type.truthy ||
        !body.category.truthy) = true
    · rw [if_pos h1]; exact ⟨rfl, rfl⟩
    rw [if_neg h1]
    by_cases h2 : body.type ≠ .str "Income" ∧ body.type ≠ .str "Expense"
    · rw [if_pos h2]; exact ⟨rfl, rfl⟩
    rw [if_neg h2]
    by_cases h3 : leZero rt body.amount = true
    · rw [if_pos h3]; exact ⟨rfl, rfl⟩
    rw [if_neg h3]
    have hdoc : (newExpense rt body).title = .ok (some "") ∨
        (newExpense rt body).category = .ok (some "") := by
      rcases hb with hb | hb
      · obtain ⟨t, ht, h0⟩ := blank_str hb
        left
        simp [newExpense, ht, castTrimmed, castString, h0]
      · obtain ⟨t, ht, h0⟩ := blank_str hb
        right
        simp [newExpense, ht, castTrimmed, castString, h0]
    obtain ⟨errors, he⟩ := validate_error_of_blank rt _ hdoc
    rw [he]
    exact ⟨rfl, rfl⟩

theorem blank_text_rejected_witness :
    ((JsVal.str "  ").blank = true ∨ JsVal.undefined.blank = true) ∧
    ((∀ (id : String) (oid : ObjectId) (e : Expense), sampleRuntime.castObjectId id = some oid →
      findOne sampleStore oid 1 = some e →
      (updateExpense sampleRuntime sampleStore 1 id
          ⟨.str "  ", .num 6, .str "Expense", .undefined, .undefined⟩).1.failure =
        some .validation ∧
      (updateExpense sampleRuntime sampleStore 1 id
          ⟨.str "  ", .num 6, .str "Expense", .undefined, .undefined⟩).2 = sampleStore) ∧
    ((addExpense sampleRuntime sampleStore 1
          ⟨.str "  ", .num 6, .str "Expense", .undefined, .undefined⟩).1.failure =
        some .validation ∧
      (addExpense sampleRuntime sampleStore 1
          ⟨.str "  ", .num 6, .str "Expense", .undefined, .undefined⟩).2 = sampleStore)) :=
  ⟨by decide, blank_text_rejected sampleRuntime sampleStore 1
    ⟨.str "  ", .num 6, .str "Expense", .undefined, .undefined⟩ (by decide)⟩

/-! ## C13: hard delete -/

/-- C13: for a stored document `t` owned by the caller, `removeExpense`
replies with `t` as it was, the collection afterwards is the collection
before with `t` erased and nothing else changed, and a following
`getExpenseById` with the same identifier replies `Expense not found`.
Identifiers are unique in the collection. -/
theorem removeExpense_erases (rt : Runtime) (store : Store) (userId : ObjectId) (id : String)
    (t : Expense) (hu : UniqueIds store) (ht : t ∈ store) (howner : t.user = userId)
    (hid : rt.castObjectId id = some t._id) :
    removeExpense rt store userId id =
      (.expense 200 (some "Expense deleted successfully") t, store.erase t) ∧
    t ∉ store.erase t ∧
    (∀ x ∈ store, x ≠ t → x ∈ store.erase t) ∧
    getExpenseById rt (store.erase t) userId id =
      .error .notFound 404 "Expense not found" := by
  subst howner
  have hnd := nodup_of_uniqueIds hu
  refine ⟨?_, hnd.not_mem_erase, ?_, ?_⟩
  · simp only [removeExpense, hid, findOne_of_mem hu ht, deleteOne_eq_erase hu ht]
  · intro x hx hne
    exact (hnd.mem_erase_iff).2 ⟨hne, hx⟩
  · have hnone : findOne (store.erase t) t._id t.user = none := by
      rw [findOne_eq_none]
      rintro ⟨x, hx, h1, _⟩
      obtain ⟨hne, hx2⟩ := (hnd.mem_erase_iff).1 hx
      exact hne (eq_of_id_eq hu hx2 ht h1)
    simp only [getExpenseById, hid, hnone]

theorem removeExpense_erases_witness :
    (UniqueIds sampleStore ∧ coffee ∈ sampleStore ∧ coffee.user = 1 ∧
      sampleRuntime.castObjectId "2" = some coffee._id) ∧
    (removeExpense sampleRuntime sampleStore 1 "2" =
      (.expense 200 (some "Expense deleted successfully") coffee, sampleStore.erase coffee) ∧
    coffee ∉ sampleStore.erase coffee ∧
    (∀ x ∈ sampleStore, x ≠ coffee → x ∈ sampleStore.erase coffee) ∧
    getExpenseById sampleRuntime (sampleStore.erase coffee) 1 "2" =
      .error .notFound 404 "Expense not found") :=
  ⟨by decide, removeExpense_erases sampleRuntime sampleStore 1 "2" coffee
    (by decide) (by decide) (by decide) (by decide)⟩


/-! ## C14: what a listing holds -/

/-- The query built by `getExpenses` admits the documents the filters ask for. -/
theorem admits_buildQuery (rt : Runtime) (userId : ObjectId) (q : ListQuery) (e : Expense) :
    (buildQuery rt userId q).admits e = wanted rt userId q e := by
  obtain ⟨ty, cat, sd, ed⟩ := q
  have htype : (match (match ty with
        | some t => if t = "Income" ∨ t = "Expense" then some t else none
        | none => none) with
      | some t => decide (e.type = t)
      | none => true) =
      (if ty = some "Income" ∨ ty = some "Expense" then decide (some e.type = ty)
        else true) := by
    cases ty with
    | none => simp
    | some t =>
      by_cases ht : t = "Income" ∨ t = "Expense"
      · simp [ht, eq_comm]
      · simp [ht]
  have hcat : (match (if given cat = true then cat else none) with
      | some c => decide (e.category = c)
      | none => true) =
      (if given cat = true then decide (some e.category = cat) else true) := by
    cases cat with
    | none => simp [given]
    | some c =>
      by_cases hc : given (some c) = true
      · simp [hc, eq_comm]
      · simp [hc]
  simp only [wanted, bound]
  rw [← htype, ← hcat]
  by_cases h1 : given sd = true <;> by_cases h2 : given ed = true
  · simp only [buildQuery, Filter.admits, h1, h2, Bool.or_self, if_true]
    cases rt.dateParse (sd.getD "") <;> cases rt.dateParse (ed.getD "") <;> rfl
  · simp only [buildQuery, Filter.admits, h1, h2, Bool.or_false, if_true,
      Bool.false_eq_true, if_false]
    cases rt.dateParse (sd.getD "") <;> rfl
  · simp only [buildQuery, Filter.admits, h1, h2, Bool.or_true, if_true,
      Bool.false_eq_true, if_false]
    cases rt.dateParse (ed.getD "") <;> rfl
  · simp only [buildQuery, Filter.admits, h1, h2, Bool.or_self, Bool.false_eq_true, if_false]

/-- The response of `getExpenses` when every supplied date can be read. -/
theorem find_buildQuery (rt : Runtime) (store : Store) (userId : ObjectId) (q : ListQuery)
    (hfrom : given q.startDate = true → (rt.dateParse (q.startDate.getD "")).isSome = true)
    (hto : given q.endDate = true → (rt.dateParse (q.endDate.getD "")).isSome = true) :
    find store (buildQuery rt userId q) =
      some ((store.filter (wanted rt userId q)).insertionSort dateDescending) := by
  have hfun : (buildQuery rt userId q).admits = wanted rt userId q :=
    funext (admits_buildQuery rt userId q)
  have hvalid : ¬ ((buildQuery rt userId q).gte = some none ∨
      (buildQuery rt userId q).lte = some none) := by
    simp only [buildQuery]
    by_cases h1 : given q.startDate = true <;> by_cases h2 : given q.endDate = true
    · obtain ⟨a, ha⟩ := Option.isSome_iff_exists.1 (hfrom h1)
      obtain ⟨b, hb⟩ := Option.isSome_iff_exists.1 (hto h2)
      simp [h1, h2, ha, hb]
    · obtain ⟨a, ha⟩ := Option.isSome_iff_exists.1 (hfrom h1)
      simp [h1, h2, ha]
    · obtain ⟨b, hb⟩ := Option.isSome_iff_exists.1 (hto h2)
      simp [h1, h2, hb]
    · simp [h1, h2]
  unfold find
  rw [if_neg hvalid, hfun]

/-- C14: when every supplied date can be read, `getExpenses` returns exactly
the documents of the caller that satisfy every supplied filter: a type equal
to the filter when that is `Income` or `Expense`, a category equal to the
filter, a date not before `startDate` and not after `endDate`; any other type
constrains nothing, and with no filter supplied the caller's whole ledger is
returned. A filter is supplied when its parameter is a non-empty string. -/
theorem getExpenses_exactly_wanted (rt : Runtime) (store : Store) (userId : ObjectId)
    (q : ListQuery)
    (hfrom : given q.startDate = true → (rt.dateParse (q.startDate.getD "")).isSome = true)
    (hto : given q.endDate = true → (rt.dateParse (q.endDate.getD "")).isSome = true) :
    ∃ es, getExpenses rt store userId q = .expenses es.length es ∧
      es.Perm (store.filter (wanted rt userId q)) ∧
      (∀ e, e ∈ es ↔ e ∈ store ∧ wanted rt userId q e = true) ∧
      (¬ (q.type = some "Income" ∨ q.type = some "Expense") → given q.category = false →
        given q.startDate = false → given q.endDate = false →
        es.Perm (matchUser store userId)) := by
  have hperm := List.perm_insertionSort dateDescending (store.filter (wanted rt userId q))
  refine ⟨_, ?_, hperm, ?_, ?_⟩
  · simp only [getExpenses, find_buildQuery rt store userId q hfrom hto]
  · intro e
    rw [hperm.mem_iff, List.mem_filter]
  · intro h1 h2 h3 h4
    have hfun : wanted rt userId q = fun e => decide (e.user = userId) := by
      funext e
      simp [wanted, bound, h1, h2, h3, h4]
    unfold matchUser
    rw [hfun] at hperm ⊢
    exact hperm

theorem getExpenses_exactly_wanted_witness :
    ((given (some "150") = true → (sampleRuntime.dateParse ((some "150").getD "")).isSome = true) ∧
      (given (none : Option String) = true →
        (sampleRuntime.dateParse ((none : Option String).getD "")).isSome = true)) ∧
    ∃ es, getExpenses sampleRuntime sampleStore 1 ⟨some "income", some "Salary", some "150", none⟩ =
        .expenses es.length es ∧
      es.Perm (sampleStore.filter
        (wanted sampleRuntime 1 ⟨some "income", some "Salary", some "150", none⟩)) ∧
      (∀ e, e ∈ es ↔ e ∈ sampleStore ∧
        wanted sampleRuntime 1 ⟨some "income", some "Salary", some "150", none⟩ e = true) ∧
      (¬ ((some "income" : Option String) = some "Income" ∨
          (some "income" : Option String) = some "Expense") →
        given (some "Salary") = false → given (some "150") = false →
        given (none : Option String) = false →
        es.Perm (matchUser sampleStore 1)) :=
  ⟨⟨by decide, by decide⟩,
    getExpenses_exactly_wanted sampleRuntime sampleStore 1
      ⟨some "income", some "Salary", some "150", none⟩ (by decide) (by decide)⟩


/-! ## C15: the order of a listing -/

theorem dateDescending_total (a b : Expense) :
    dateDescending a b ∨ dateDescending b a := by
  unfold dateDescending
  exact le_total b.date a.date

theorem dateDescending_trans (a b c : Expense)
    (h1 : dateDescending a b) (h2 : dateDescending b c) : dateDescending a c := by
  unfold dateDescending at *
  exact le_trans h2 h1

/-- The documents found come latest date first. -/
theorem find_sorted {store : Store} {f : Filter} {es : List Expense}
    (h : find store f = some es) : es.Pairwise (fun a b => b.date ≤ a.date) := by
  unfold find at h
  split at h
  · cases h
  · injection h with h
    subst h
    haveI : IsTotal Expense dateDescending := ⟨dateDescending_total⟩
    haveI : IsTrans Expense dateDescending := ⟨dateDescending_trans⟩
    exact List.sorted_insertionSort dateDescending (store.filter f.admits)

/-- Inserting a document into a listing puts it in front of the documents of
its date and leaves the documents of every other date as they are. -/
theorem filter_orderedInsert (d : Int) (a : Expense) (l : List Expense) :
    (l.orderedInsert dateDescending a).filter (fun e => decide (e.date = d)) =
      (a :: l).filter (fun e => decide (e.date = d)) := by
  induction l with
  | nil => rfl
  | cons b rest ih =>
    rw [List.orderedInsert]
    by_cases hab : dateDescending a b
    · rw [if_pos hab]
    · rw [if_neg hab, List.filter_cons, ih]
      unfold dateDescending at hab
      by_cases ha : a.date = d
      · have hb : ¬ b.date = d := by omega
        simp [List.filter_cons, ha, hb]
      · by_cases hb : b.date = d
        · simp [List.filter_cons, ha, hb]
        · simp [List.filter_cons, ha, hb]

/-- The sort keeps the documents of one date in the order they had. -/
theorem filter_insertionSort (d : Int) (l : List Expense) :
    (l.insertionSort dateDescending).filter (fun e => decide (e.date = d)) =
      l.filter (fun e => decide (e.date = d)) := by
  induction l with
  | nil => rfl
  | cons a rest ih =>
    rw [List.insertionSort, filter_orderedInsert, List.filter_cons, List.filter_cons, ih]

/-- The documents found of one date are those of the collection that satisfy
the query, in the order of the collection. -/
theorem find_stable {store : Store} {f : Filter} {es : List Expense}
    (h : find store f = some es) (d : Int) :
    es.filter (fun e => decide (e.date = d)) =
      (store.filter f.admits).filter (fun e => decide (e.date = d)) := by
  unfold find at h
  split at h
  · cases h
  · injection h with h
    subst h
    exact filter_insertionSort d _

/-- C15: the sequence returned by `getExpenses` is in non-increasing order of
date, most recent first, and the returned documents of one date appear in the
order in which they were inserted: they form a sublist of the collection, which
holds the documents in insertion order. -/
theorem getExpenses_sorted_by_date (rt : Runtime) (store : Store) (userId : ObjectId)
    (q : ListQuery) :
    (getExpenses rt store userId q).records.Pairwise (fun a b => b.date ≤ a.date) ∧
    ∀ d : Int,
      ((getExpenses rt store userId q).records.filter
        (fun e => decide (e.date = d))).Sublist store := by
  unfold getExpenses
  cases h : find store (buildQuery rt userId q) with
  | none => simp [Reply.records]
  | some es =>
    refine ⟨find_sorted h, fun d => ?_⟩
    show (es.filter (fun e => decide (e.date = d))).Sublist store
    rw [find_stable h d]
    exact (List.filter_sublist _).trans (List.filter_sublist _)


/-! ## Lemmas on floating point -/

theorem roundEven_intCast (z : ℤ) : roundEven (z : ℚ) = z := by
  simp [roundEven]

theorem roundEven_nonneg {q : ℚ} (h : 0 ≤ q) : 0 ≤ roundEven q := by
  have hf : 0 ≤ ⌊q⌋ := Int.floor_nonneg.2 h
  unfold roundEven
  split
  · exact hf
  · split
    · omega
    · split
      · exact hf
      · omega

theorem roundEven_le_neg_one {q : ℚ} (h : q ≤ -1) : roundEven q ≤ -1 := by
  have hfl : ⌊(-1 : ℚ)⌋ = -1 := by
    have := Int.floor_intCast (α := ℚ) (-1)
    simpa using this
  have hf : ⌊q⌋ ≤ -1 := by
    have := Int.floor_mono h
    rw [hfl] at this
    exact this
  by_cases hz : ⌊q⌋ = -1
  · have h0 : (-1 : ℚ) ≤ q := by
      have := Int.floor_le q
      rw [hz] at this
      simpa using this
    have hq : q = -1 := le_antisymm h h0
    subst hq
    unfold roundEven
    rw [hfl]
    norm_num
  · unfold roundEven
    split
    · exact hf
    · split
      · omega
      · split
        · exact hf
        · omega

theorem ulp_pos (q : ℚ) : 0 < ulp q := by
  unfold ulp
  exact zpow_pos (by norm_num) _

/-- Every double is a whole multiple of the smallest positive one. -/
theorem toDouble_grid (q : ℚ) : ∃ k : ℤ, toDouble q = k * (2 : ℚ) ^ (-1074 : ℤ) := by
  unfold toDouble
  split
  · exact ⟨0, by simp⟩
  · obtain ⟨n, hn⟩ := Int.eq_ofNat_of_zero_le
      (a := max (Int.log 2 |q| - 52) (-1074) + 1074)
      (by have := le_max_right (Int.log 2 |q| - 52) (-1074); omega)
    refine ⟨roundEven (q / ulp q) * 2 ^ n, ?_⟩
    have hu : ulp q = (2 : ℚ) ^ n * (2 : ℚ) ^ (-1074 : ℤ) := by
      unfold ulp
      rw [← zpow_natCast, ← zpow_add₀ (by norm_num), ← hn]
      congr 1
      omega
    rw [hu]
    push_cast
    ring

theorem ulp_le_abs {q : ℚ} (h : (2 : ℚ) ^ (-1074 : ℤ) ≤ |q|) : ulp q ≤ |q| := by
  have hpos : 0 < |q| := lt_of_lt_of_le (zpow_pos (by norm_num) _) h
  unfold ulp
  rcases le_total (Int.log 2 |q| - 52) (-1074) with hc | hc
  · rw [max_eq_right hc]; exact h
  · rw [max_eq_left hc]
    have h1 : ((2 : ℕ) : ℚ) ^ Int.log 2 |q| ≤ |q| := Int.zpow_log_le_self (by norm_num) hpos
    have h2 : (2 : ℚ) ^ (Int.log 2 |q| - 52) ≤ (2 : ℚ) ^ Int.log 2 |q| :=
      zpow_le_zpow_right₀ (by norm_num) (by omega)
    exact le_trans h2 (by simpa using h1)

/-- A negative number that is no nearer to 0 than the smallest positive double
is rounded to a negative double. -/
theorem toDouble_neg {q : ℚ} (h : q ≤ -(2 : ℚ) ^ (-1074 : ℤ)) : toDouble q < 0 := by
  have hg : (0 : ℚ) < (2 : ℚ) ^ (-1074 : ℤ) := zpow_pos (by norm_num) _
  have hq : q < 0 := by linarith
  have habs : |q| = -q := abs_of_neg hq
  have hu : ulp q ≤ -q := by
    rw [← habs]
    apply ulp_le_abs
    rw [habs]
    linarith
  have hdiv : q / ulp q ≤ -1 := by
    rw [div_le_iff₀ (ulp_pos q)]
    linarith
  have hr : ((roundEven (q / ulp q) : ℤ) : ℚ) ≤ -1 := by
    exact_mod_cast roundEven_le_neg_one hdiv
  unfold toDouble
  rw [if_neg (ne_of_lt hq)]
  have := ulp_pos q
  nlinarith

/-- The difference of two doubles, the first the smaller one, is rounded to a
negative double. -/
theorem toDouble_sub_neg {a b : ℚ} (h : toDouble a < toDouble b) :
    toDouble (toDouble a - toDouble b) < 0 := by
  obtain ⟨ka, ha⟩ := toDouble_grid a
  obtain ⟨kb, hb⟩ := toDouble_grid b
  have hg : (0 : ℚ) < (2 : ℚ) ^ (-1074 : ℤ) := zpow_pos (by norm_num) _
  rw [ha, hb] at h ⊢
  have hk : ka < kb := by
    have := lt_of_mul_lt_mul_right h (le_of_lt hg)
    exact_mod_cast this
  have hk1 : ((ka - kb : ℤ) : ℚ) ≤ -1 := by
    exact_mod_cast (show ka - kb ≤ -1 by omega)
  apply toDouble_neg
  have : (ka : ℚ) * 2 ^ (-1074 : ℤ) - kb * 2 ^ (-1074 : ℤ) =
      ((ka - kb : ℤ) : ℚ) * 2 ^ (-1074 : ℤ) := by
    push_cast; ring
  rw [this]
  nlinarith

theorem toDouble_zero : toDouble 0 = 0 := by
  simp [toDouble]

theorem toDouble_nonneg {q : ℚ} (h : 0 ≤ q) : 0 ≤ toDouble q := by
  unfold toDouble
  split
  · exact le_refl 0
  · have h1 : 0 ≤ q / ulp q := div_nonneg h (le_of_lt (ulp_pos q))
    have h2 : (0 : ℚ) ≤ ((roundEven (q / ulp q) : ℤ) : ℚ) := by
      exact_mod_cast roundEven_nonneg h1
    exact mul_nonneg h2 (le_of_lt (ulp_pos q))

/-- A number that is a whole multiple of the distance between the doubles
around it is a double. -/
theorem toDouble_of_int {q : ℚ} (z : ℤ) (h : q / ulp q = z) : toDouble q = q := by
  unfold toDouble
  split
  · next h0 => exact h0.symm
  · rw [h, roundEven_intCast, ← h, div_mul_cancel₀ _ (ne_of_gt (ulp_pos q))]

theorem log_two_eq {q : ℚ} {e : ℤ} (h1 : (2 : ℚ) ^ e ≤ |q|) (h2 : |q| < (2 : ℚ) ^ (e + 1)) :
    Int.log 2 |q| = e := by
  have hpos : 0 < |q| := lt_of_lt_of_le (zpow_pos (by norm_num) e) h1
  have a := (Int.zpow_le_iff_le_log (b := 2) (by norm_num) hpos (x := e)).1 (by simpa using h1)
  have b := (Int.lt_zpow_iff_log_lt (b := 2) (by norm_num) hpos (x := e + 1)).1
    (by simpa using h2)
  omega

/-- Rounding of a positive number in the normal range, from the power of 2
below it and the integer part of its significand. -/
theorem toDouble_eq {q : ℚ} (e f r : ℤ) (hq : 0 < q) (h1 : (2 : ℚ) ^ e ≤ q)
    (h2 : q < (2 : ℚ) ^ (e + 1)) (he : -1022 ≤ e)
    (hf : ⌊q / (2 : ℚ) ^ (e - 52)⌋ = f)
    (hr : (if q / (2 : ℚ) ^ (e - 52) - f < 1 / 2 then f
      else if 1 / 2 < q / (2 : ℚ) ^ (e - 52) - f then f + 1
      else if f % 2 = 0 then f else f + 1) = r) :
    toDouble q = r * (2 : ℚ) ^ (e - 52) := by
  have habs : |q| = q := abs_of_pos hq
  have hu : ulp q = (2 : ℚ) ^ (e - 52) := by
    unfold ulp
    rw [log_two_eq (e := e) (by rw [habs]; exact h1) (by rw [habs]; exact h2),
      max_eq_left (by omega)]
  unfold toDouble
  rw [if_neg (ne_of_gt hq), hu]
  unfold roundEven
  rw [hf, hr]

/-- The doubles written `0.1`, `0.2` and `0.3`, and the sum `0.1 + 0.2`, which
is the double above `0.3`, written `0.30000000000000004`. -/
theorem toDouble_tenths :
    toDouble (1 / 10) = 3602879701896397 / 36028797018963968 ∧
    toDouble (1 / 5) = 3602879701896397 / 18014398509481984 ∧
    toDouble (3 / 10) = 5404319552844595 / 18014398509481984 ∧
    toDouble (toDouble (1 / 10) + toDouble (1 / 5)) = 5404319552844596 / 18014398509481984 := by
  have h1 : toDouble (1 / 10) = 3602879701896397 / 36028797018963968 := by
    rw [toDouble_eq (-4) 7205759403792793 7205759403792794 (by norm_num) (by norm_num)
      (by norm_num) (by norm_num)
      (by rw [Int.floor_eq_iff]; constructor <;> norm_num)
      (by norm_num)]
    norm_num
  have h2 : toDouble (1 / 5) = 3602879701896397 / 18014398509481984 := by
    rw [toDouble_eq (-3) 7205759403792793 7205759403792794 (by norm_num) (by norm_num)
      (by norm_num) (by norm_num)
      (by rw [Int.floor_eq_iff]; constructor <;> norm_num)
      (by norm_num)]
    norm_num
  refine ⟨h1, h2, ?_, ?_⟩
  · rw [toDouble_eq (-2) 5404319552844595 5404319552844595 (by norm_num) (by norm_num)
      (by norm_num) (by norm_num)
      (by rw [Int.floor_eq_iff]; constructor <;> norm_num)
      (by norm_num)]
    norm_num
  · rw [h1, h2, toDouble_eq (-2) 5404319552844595 5404319552844596 (by norm_num) (by norm_num)
      (by norm_num) (by norm_num)
      (by rw [Int.floor_eq_iff]; constructor <;> norm_num)
      (by norm_num)]
    norm_num

/-- Every natural number below `2 ^ 53` is a double. -/
theorem toDouble_natCast (n : ℕ) (h : n < 2 ^ 53) : toDouble (n : ℚ) = n := by
  by_cases h0 : n = 0
  · subst h0; simp [toDouble]
  have habs : |(n : ℚ)| = n := abs_of_nonneg (by positivity)
  have hpos : (0 : ℚ) < |(n : ℚ)| := by
    rw [habs]
    exact_mod_cast Nat.pos_of_ne_zero h0
  have hlo : (0 : ℤ) ≤ Int.log 2 |(n : ℚ)| := by
    apply (Int.zpow_le_iff_le_log (b := 2) (by norm_num) hpos (x := 0)).1
    rw [habs]
    simp
    exact_mod_cast Nat.pos_of_ne_zero h0
  have hhi : Int.log 2 |(n : ℚ)| < 53 := by
    apply (Int.lt_zpow_iff_log_lt (b := 2) (by norm_num) hpos (x := 53)).1
    rw [habs]
    have h2 : n < 9007199254740992 := by norm_num at h; exact h
    norm_num
    exact h2
  obtain ⟨k, hk⟩ := Int.exists_eq_neg_ofNat (a := Int.log 2 |(n : ℚ)| - 52) (by omega)
  have hu : ulp (n : ℚ) = ((2 : ℚ) ^ k)⁻¹ := by
    unfold ulp
    rw [max_eq_left (by omega), hk, zpow_neg, zpow_natCast]
  apply toDouble_of_int ((n : ℤ) * 2 ^ k)
  rw [hu, div_inv_eq_mul]
  push_cast
  rfl

/-- Between `2 ^ 53` and `2 ^ 54` the doubles are the even integers. -/
theorem ulp_two {q : ℚ} (h1 : (2 : ℚ) ^ (53 : ℤ) ≤ |q|) (h2 : |q| < (2 : ℚ) ^ ((53 : ℤ) + 1)) :
    ulp q = 2 := by
  unfold ulp
  rw [log_two_eq h1 h2]
  norm_num

theorem toDouble_fortune : toDouble 10000000000000000 = 10000000000000000 := by
  have hu : ulp (10000000000000000 : ℚ) = 2 := by
    apply ulp_two
    · rw [abs_of_nonneg (by norm_num)]; norm_num
    · rw [abs_of_nonneg (by norm_num)]; norm_num
  apply toDouble_of_int 5000000000000000
  rw [hu]
  norm_num

theorem toDouble_fortune_two : toDouble 10000000000000002 = 10000000000000002 := by
  have hu : ulp (10000000000000002 : ℚ) = 2 := by
    apply ulp_two
    · rw [abs_of_nonneg (by norm_num)]; norm_num
    · rw [abs_of_nonneg (by norm_num)]; norm_num
  apply toDouble_of_int 5000000000000001
  rw [hu]
  norm_num

/-- The sum `10 ^ 16 + 1` lies half way between two doubles and is rounded to
the one with the even significand, `10 ^ 16`. -/
theorem toDouble_fortune_one : toDouble 10000000000000001 = 10000000000000000 := by
  have hu : ulp (10000000000000001 : ℚ) = 2 := by
    apply ulp_two
    · rw [abs_of_nonneg (by norm_num)]; norm_num
    · rw [abs_of_nonneg (by norm_num)]; norm_num
  have hf : ⌊((10000000000000001 : ℚ) / 2)⌋ = 5000000000000000 := by
    rw [Int.floor_eq_iff]
    constructor <;> norm_num
  unfold toDouble
  rw [if_neg (by norm_num), hu]
  unfold roundEven
  rw [hf]
  norm_num

theorem foldl_double_natCast (l : List ℕ) (a : ℕ) (h : a + l.sum < 2 ^ 53) :
    (l.map (fun (n : ℕ) => (n : ℚ))).foldl (fun acc v => toDouble (acc + v)) (a : ℚ) =
      ((a + l.sum : ℕ) : ℚ) := by
  induction l generalizing a with
  | nil => simp
  | cons n rest ih =>
    simp only [List.map_cons, List.foldl_cons, List.sum_cons] at h ⊢
    have hstep : toDouble ((a : ℚ) + n) = ((a + n : ℕ) : ℚ) := by
      rw [← Nat.cast_add]
      exact toDouble_natCast _ (by omega)
    rw [hstep, ih (a + n) (by omega)]
    congr 1
    omega

/-- Natural numbers that add up to less than `2 ^ 53` are added without
rounding. -/
theorem doubleSum_natCast (l : List ℕ) (h : l.sum < 2 ^ 53) :
    doubleSum (l.map (fun (n : ℕ) => (n : ℚ))) = (l.sum : ℚ) := by
  have := foldl_double_natCast l 0 (by simpa using h)
  simpa [doubleSum] using this

theorem doubleSum_one (a : ℚ) : doubleSum [a] = toDouble a := by
  simp only [doubleSum, List.foldl_cons, List.foldl_nil, zero_add]

theorem doubleSum_two (a b : ℚ) : doubleSum [a, b] = toDouble (toDouble a + b) := by
  simp only [doubleSum, List.foldl_cons, List.foldl_nil, zero_add]

theorem doubleSum_three (a b c : ℚ) :
    doubleSum [a, b, c] = toDouble (toDouble (toDouble a + b) + c) := by
  simp only [doubleSum, List.foldl_cons, List.foldl_nil, zero_add]

theorem toDouble_one : toDouble 1 = 1 := by
  have := toDouble_natCast 1 (by norm_num)
  simpa using this

theorem toDouble_two : toDouble 2 = 2 := by
  have := toDouble_natCast 2 (by norm_num)
  simpa using this

theorem doubleSum_fortune_coin :
    doubleSum [10000000000000000, 1] = 10000000000000000 := by
  have h : (10000000000000000 : ℚ) + 1 = 10000000000000001 := by norm_num
  rw [doubleSum_two, toDouble_fortune, h, toDouble_fortune_one]

theorem doubleSum_coin_fortune :
    doubleSum [1, 10000000000000000] = 10000000000000000 := by
  have h : (1 : ℚ) + 10000000000000000 = 10000000000000001 := by norm_num
  rw [doubleSum_two, toDouble_one, h, toDouble_fortune_one]

theorem doubleSum_tip_coin_fortune :
    doubleSum [1, 1, 10000000000000000] = 10000000000000002 := by
  have h1 : (1 : ℚ) + 1 = 2 := by norm_num
  have h2 : (2 : ℚ) + 10000000000000000 = 10000000000000002 := by norm_num
  rw [doubleSum_three, toDouble_one, h1, toDouble_two, h2, toDouble_fortune_two]

/-! ## Lemmas on the aggregations -/

theorem filter_map_ite (p : Expense → Prop) [DecidablePred p] (l : List Expense) :
    (l.map (fun e => if p e then e.amount else 0)).filter (fun v => decide (v ≠ 0)) =
      ((l.filter (fun e => decide (p e))).map (fun e => e.amount)).filter
        (fun v => decide (v ≠ 0)) := by
  induction l with
  | nil => rfl
  | cons x rest ih =>
    by_cases hx : p x
    · simp only [List.map_cons, if_pos hx, List.filter_cons, decide_eq_true hx, if_true, ih]
    · simp only [List.map_cons, if_neg hx, List.filter_cons, decide_eq_false hx, ne_eq,
        not_true_eq_false, decide_False, Bool.false_eq_true, if_false, ih]

/-- A `$sum` over a `$cond` is the sum over the documents that satisfy it. -/
theorem sumOf_map_ite (rt : Runtime) (p : Expense → Prop) [DecidablePred p]
    (l : List Expense) :
    sumOf rt (l.map (fun e => if p e then e.amount else 0)) =
      sumOf rt ((l.filter (fun e => decide (p e))).map (fun e => e.amount)) := by
  unfold sumOf
  rw [filter_map_ite]

/-- Every sum of the database is a double. -/
theorem sumOf_double (rt : Runtime) (l : List ℚ) : ∃ x, sumOf rt l = toDouble x := by
  unfold sumOf
  split
  · exact ⟨0, toDouble_zero.symm⟩
  · exact ⟨_, rfl⟩

theorem sumOf_append_zero (rt : Runtime) (l : List ℚ) : sumOf rt (l ++ [0]) = sumOf rt l := by
  unfold sumOf
  rw [List.filter_append]
  simp

/-- The sums of the sample runtime on natural numbers that add up to less
than `2 ^ 53`. -/
theorem sumOf_sample_natCast (l : List ℕ) (h : l.sum < 2 ^ 53) :
    sumOf sampleRuntime (l.map (fun (n : ℕ) => (n : ℚ))) = (l.sum : ℚ) := by
  have hf : (l.map (fun (n : ℕ) => (n : ℚ))).filter (fun v => decide (v ≠ 0)) =
      (l.filter (fun n => decide (n ≠ 0))).map (fun (n : ℕ) => (n : ℚ)) := by
    clear h
    induction l with
    | nil => rfl
    | cons n rest ih =>
      by_cases hn : n = 0
      · simpa [List.filter_cons, hn] using ih
      · have hq : ¬ ((n : ℚ) = 0) := by exact_mod_cast hn
        simpa [List.filter_cons, hn, hq] using ih
  have hs : (l.filter (fun n => decide (n ≠ 0))).sum = l.sum := by
    clear hf h
    induction l with
    | nil => rfl
    | cons n rest ih =>
      by_cases hn : n = 0
      · simpa [List.filter_cons, hn] using ih
      · simpa [List.filter_cons, hn] using ih
  unfold sumOf
  rw [hf]
  cases hl : l.filter (fun n => decide (n ≠ 0)) with
  | nil =>
    rw [hl] at hs
    simp only [List.map_nil]
    rw [← hs]
    simp
  | cons n rest =>
    have hd := doubleSum_natCast (n :: rest) (by rw [← hl, hs]; exact h)
    rw [← hl, hs] at hd
    have ht : toDouble (doubleSum ((l.filter (fun n => decide (n ≠ 0))).map
        (fun (n : ℕ) => (n : ℚ)))) = (l.sum : ℚ) := by
      rw [hd]
      exact toDouble_natCast _ h
    rw [← ht, hl]
    rfl

theorem sum_map_one (l : List Expense) : (l.map (fun _ => 1)).sum = l.length := by
  induction l with
  | nil => rfl
  | cons x rest ih => simp [ih, Nat.add_comm]

/-- The totals of `getExpenseStats`, read off the documents of the caller. -/
theorem expenseStats_totals (rt : Runtime) (store : Store) (userId : ObjectId) :
    (expenseStats rt store userId).totalIncome =
      sumOf rt ((matchUser store userId).map
        (fun e => if e.type = "Income" then e.amount else 0)) ∧
    (expenseStats rt store userId).totalExpense =
      sumOf rt ((matchUser store userId).map
        (fun e => if e.type = "Expense" then e.amount else 0)) ∧
    (expenseStats rt store userId).count = (matchUser store userId).length ∧
    (expenseStats rt store userId).balance =
      toDouble ((expenseStats rt store userId).totalIncome -
        (expenseStats rt store userId).totalExpense) := by
  unfold expenseStats
  cases h : matchUser store userId with
  | nil => simp [groupAll, sumOf]
  | cons x rest =>
    have hc := sum_map_one (x :: rest)
    simp only [groupAll]
    exact ⟨trivial, trivial, hc, trivial⟩

theorem matchUser_idem (store : Store) (userId : ObjectId) :
    matchUser (matchUser store userId) userId = matchUser store userId := by
  unfold matchUser
  rw [List.filter_filter]
  simp

theorem matchUser_append (store : Store) (e : Expense) (userId : ObjectId) :
    matchUser (store ++ [e]) userId =
      matchUser store userId ++ (if e.user = userId then [e] else []) := by
  unfold matchUser
  rw [List.filter_append]
  by_cases h : e.user = userId <;> simp [List.filter_cons, h]

theorem filter_user_kind (store : Store) (userId : ObjectId) (k : String) :
    (matchUser store userId).filter (fun e => decide (e.type = k)) =
      store.filter (fun e => decide (e.user = userId ∧ e.type = k)) := by
  unfold matchUser
  rw [List.filter_filter]
  apply List.filter_congr
  intro e _
  rw [Bool.decide_and, Bool.and_comm]

/-- The totals of `getExpenseStats` as sums over the documents of one type. -/
theorem expenseStats_sums (rt : Runtime) (store : Store) (userId : ObjectId) :
    (expenseStats rt store userId).totalIncome =
      sumOf rt ((store.filter (fun e => decide (e.user = userId ∧ e.type = "Income"))).map
        (fun e => e.amount)) ∧
    (expenseStats rt store userId).totalExpense =
      sumOf rt ((store.filter (fun e => decide (e.user = userId ∧ e.type = "Expense"))).map
        (fun e => e.amount)) := by
  obtain ⟨h1, h2, _, _⟩ := expenseStats_totals rt store userId
  constructor
  · rw [h1, sumOf_map_ite rt (fun e => e.type = "Income"), filter_user_kind]
  · rw [h2, sumOf_map_ite rt (fun e => e.type = "Expense"), filter_user_kind]

/-- The statistics of the sample runtime for an income of `10 ^ 16` followed by
an income of 1: the sum `10 ^ 16 + 1` is no double and is rounded. -/
theorem expenseStats_fortune_coin :
    expenseStats sampleRuntime [fortune, coin] 1 =
      { totalIncome := 10000000000000000, totalExpense := 0, count := 2,
        balance := 10000000000000000,
        categoryBreakdown := [{ _id := "Salary", total := 10000000000000000, count := 2 }] } := by
  have hm : matchUser [fortune, coin] 1 = [fortune, coin] := by decide
  have hi : sumOf sampleRuntime [10000000000000000, 1] = 10000000000000000 := by
    have : sumOf sampleRuntime [10000000000000000, 1] =
        toDouble (doubleSum [10000000000000000, 1]) := by
      simp [sumOf, sampleRuntime]
    rw [this, doubleSum_fortune_coin, toDouble_fortune]
  have hz : sumOf sampleRuntime [0, 0] = 0 := by simp [sumOf]
  unfold expenseStats
  rw [hm]
  simp [groupAll, groupByCategory, accumulate, fortune, coin, hi, hz, toDouble_fortune]

/-! ## C16: the totals -/

/-- C16, as stated, fails where the sum is no double: for an income of
`10 ^ 16` followed by an income of 1, `getExpenseStats` returns `totalIncome`
`10 ^ 16`, and the sum of the two amounts is `10 ^ 16 + 1`. -/
theorem getExpenseStats_totals_counterexample :
    getExpenseStats sampleRuntime [fortune, coin] 1 =
      .stats { totalIncome := 10000000000000000, totalExpense := 0, count := 2,
               balance := 10000000000000000,
               categoryBreakdown :=
                 [{ _id := "Salary", total := 10000000000000000, count := 2 }] } ∧
    (([fortune, coin].filter (fun e => decide (e.user = 1 ∧ e.type = "Income"))).map
      (fun e => e.amount)).sum = 10000000000000001 := by
  constructor
  · unfold getExpenseStats
    rw [expenseStats_fortune_coin]
  · simp [fortune, coin]
    norm_num

/-- C16, amended: `getExpenseStats` returns as `totalIncome` the sum, as the
database computes it in floating point, of the amounts of the caller's `Income`
documents, as `totalExpense` that of the amounts of the caller's `Expense`
documents, as `count` the number of the caller's documents and as `balance`
the difference of the two totals rounded to a double, negative when the
expenses exceed the income; documents of other users count for nothing. -/
theorem getExpenseStats_totals (rt : Runtime) (store : Store) (userId : ObjectId) :
    getExpenseStats rt store userId = .stats (expenseStats rt store userId) ∧
    (expenseStats rt store userId).totalIncome =
      sumOf rt ((store.filter (fun e => decide (e.user = userId ∧ e.type = "Income"))).map
        (fun e => e.amount)) ∧
    (expenseStats rt store userId).totalExpense =
      sumOf rt ((store.filter (fun e => decide (e.user = userId ∧ e.type = "Expense"))).map
        (fun e => e.amount)) ∧
    (expenseStats rt store userId).count =
      (store.filter (fun e => decide (e.user = userId))).length ∧
    (expenseStats rt store userId).balance =
      toDouble ((expenseStats rt store userId).totalIncome -
        (expenseStats rt store userId).totalExpense) ∧
    ((expenseStats rt store userId).totalIncome < (expenseStats rt store userId).totalExpense →
      (expenseStats rt store userId).balance < 0) ∧
    expenseStats rt store userId =
      expenseStats rt (store.filter (fun e => decide (e.user = userId))) userId := by
  obtain ⟨_, _, h3, h4⟩ := expenseStats_totals rt store userId
  obtain ⟨s1, s2⟩ := expenseStats_sums rt store userId
  refine ⟨rfl, s1, s2, h3, h4, ?_, ?_⟩
  · intro hlt
    obtain ⟨x, hx⟩ := sumOf_double rt ((store.filter
      (fun e => decide (e.user = userId ∧ e.type = "Income"))).map (fun e => e.amount))
    obtain ⟨y, hy⟩ := sumOf_double rt ((store.filter
      (fun e => decide (e.user = userId ∧ e.type = "Expense"))).map (fun e => e.amount))
    rw [h4]
    rw [s1, s2, hx, hy] at hlt ⊢
    exact toDouble_sub_neg hlt
  · have := matchUser_idem store userId
    unfold expenseStats
    simp only [matchUser] at this ⊢
    rw [this]

/-! ## C17: an empty ledger -/

/-- C17: when the caller owns no document, whether the collection is empty or
holds documents of other users only, `getExpenseStats` replies with totals,
balance and count all zero and an empty breakdown. -/
theorem getExpenseStats_empty (rt : Runtime) (store : Store) (userId : ObjectId)
    (h : ∀ e ∈ store, e.user ≠ userId) :
    getExpenseStats rt store userId =
      .stats { totalIncome := 0, totalExpense := 0, count := 0, balance := 0,
               categoryBreakdown := [] } := by
  have hnil : matchUser store userId = [] := by
    unfold matchUser
    rw [List.filter_eq_nil_iff]
    intro e he
    simpa using h e he
  simp [getExpenseStats, expenseStats, hnil, groupAll, groupByCategory, toDouble_zero]

theorem getExpenseStats_empty_witness :
    (∀ e ∈ sampleStore, e.user ≠ 9) ∧
    getExpenseStats sampleRuntime sampleStore 9 =
      .stats { totalIncome := 0, totalExpense := 0, count := 0, balance := 0,
               categoryBreakdown := [] } :=
  ⟨by decide, getExpenseStats_empty sampleRuntime sampleStore 9 (by decide)⟩


/-! ## Lemmas on the breakdown by category -/

/-- The categories held after a document entered the stage. -/
theorem accumulate_ids (e : Expense) (gs : List CategoryGroup) :
    (accumulate e gs).map (fun g => g._id) =
      if e.category ∈ gs.map (fun g => g._id) then gs.map (fun g => g._id)
      else gs.map (fun g => g._id) ++ [e.category] := by
  induction gs with
  | nil => simp [accumulate]
  | cons g rest ih =>
    by_cases hg : g._id = e.category
    · simp [accumulate, hg]
    · have hne : ¬ e.category = g._id := fun h => hg h.symm
      by_cases hin : e.category ∈ rest.map (fun g => g._id)
      · rw [if_pos hin] at ih
        simp only [accumulate, if_neg hg, List.map_cons, ih, List.mem_cons, hin, or_true,
          if_true]
      · rw [if_neg hin] at ih
        simp only [accumulate, if_neg hg, List.map_cons, ih, List.mem_cons, hin, hne,
          or_self, if_false, List.cons_append]

/-- Where a group comes from after a document entered the stage. -/
theorem mem_accumulate {e : Expense} {gs : List CategoryGroup}
    (hnd : (gs.map (fun g => g._id)).Nodup) {x : CategoryGroup} (hx : x ∈ accumulate e gs) :
    (x ∈ gs ∧ x._id ≠ e.category) ∨
    (∃ g ∈ gs, g._id = e.category ∧
      x = { _id := g._id, amounts := g.amounts ++ [e.amount] }) ∨
    (e.category ∉ gs.map (fun g => g._id) ∧
      x = { _id := e.category, amounts := [e.amount] }) := by
  induction gs with
  | nil =>
    simp only [accumulate, List.mem_singleton] at hx
    exact Or.inr (Or.inr ⟨by simp, hx⟩)
  | cons g rest ih =>
    have hnd2 : g._id ∉ rest.map (fun g => g._id) ∧ (rest.map (fun g => g._id)).Nodup := by
      rw [List.map_cons] at hnd
      exact List.nodup_cons.1 hnd
    by_cases hg : g._id = e.category
    · simp only [accumulate, if_pos hg, List.mem_cons] at hx
      rcases hx with hx | hx
      · exact Or.inr (Or.inl ⟨g, List.mem_cons_self _ _, hg, hx⟩)
      · left
        refine ⟨List.mem_cons_of_mem _ hx, ?_⟩
        intro hxe
        apply hnd2.1
        rw [hg, ← hxe]
        exact List.mem_map.2 ⟨x, hx, rfl⟩
    · simp only [accumulate, if_neg hg, List.mem_cons] at hx
      rcases hx with hx | hx
      · left
        subst hx
        exact ⟨List.mem_cons_self _ _, hg⟩
      · rcases ih hnd2.2 hx with ⟨h1, h2⟩ | ⟨g2, hg2, h3, h4⟩ | ⟨h5, h6⟩
        · exact Or.inl ⟨List.mem_cons_of_mem _ h1, h2⟩
        · exact Or.inr (Or.inl ⟨g2, List.mem_cons_of_mem _ hg2, h3, h4⟩)
        · right; right
          refine ⟨?_, h6⟩
          simp only [List.map_cons, List.mem_cons, not_or]
          exact ⟨fun h => hg h.symm, h5⟩

/-- One more document keeps the groups those of the documents. -/
theorem collected_accumulate {docs : List Expense} {gs : List CategoryGroup}
    (h : Collected docs gs) (e : Expense) : Collected (docs ++ [e]) (accumulate e gs) := by
  obtain ⟨hnd, hmem, hsum⟩ := h
  refine ⟨?_, ?_, ?_⟩
  · rw [accumulate_ids]
    by_cases hin : e.category ∈ gs.map (fun g => g._id)
    · rw [if_pos hin]; exact hnd
    · rw [if_neg hin]
      exact List.Nodup.append hnd (List.nodup_singleton _) (by simpa using hin)
  · intro c
    rw [accumulate_ids]
    by_cases hin : e.category ∈ gs.map (fun g => g._id)
    · rw [if_pos hin, hmem]
      constructor
      · rintro ⟨x, hx, hc⟩
        exact ⟨x, List.mem_append_left _ hx, hc⟩
      · rintro ⟨x, hx, hc⟩
        rcases List.mem_append.1 hx with hx | hx
        · exact ⟨x, hx, hc⟩
        · rw [List.mem_singleton] at hx
          subst hx
          rw [← hc]
          exact (hmem _).1 hin
    · rw [if_neg hin, List.mem_append, hmem, List.mem_singleton]
      constructor
      · rintro (⟨x, hx, hc⟩ | hc)
        · exact ⟨x, List.mem_append_left _ hx, hc⟩
        · exact ⟨e, by simp, hc.symm⟩
      · rintro ⟨x, hx, hc⟩
        rcases List.mem_append.1 hx with hx | hx
        · exact Or.inl ⟨x, hx, hc⟩
        · rw [List.mem_singleton] at hx
          subst hx
          exact Or.inr hc.symm
  · intro x hx
    rcases mem_accumulate hnd hx with ⟨h1, h2⟩ | ⟨g, hg, h3, h4⟩ | ⟨h5, h6⟩
    · have t1 := hsum x h1
      have hne : ¬ e.category = x._id := fun h => h2 h.symm
      simp [List.filter_append, List.filter_cons, hne, ← t1]
    · have t1 := hsum g hg
      subst h4
      rw [h3] at t1
      simp [List.filter_append, List.filter_cons, h3, t1]
    · subst h6
      have hnone : docs.filter (fun d => decide (d.category = e.category)) = [] := by
        rw [List.filter_eq_nil_iff]
        intro d hd
        simp only [decide_eq_true_eq]
        intro hc
        exact h5 ((hmem _).2 ⟨d, hd, hc⟩)
      simp [List.filter_append, List.filter_cons, hnone]

theorem collected_foldl (docs done : List Expense) (gs : List CategoryGroup)
    (h : Collected done gs) :
    Collected (done ++ docs) (docs.foldl (fun gs e => accumulate e gs) gs) := by
  induction docs generalizing done gs with
  | nil => simpa using h
  | cons e rest ih =>
    have := ih (done ++ [e]) (accumulate e gs) (collected_accumulate h e)
    simpa using this

/-- The groups of the stage `$group` on `$category` are those of its input. -/
theorem collected_groups (docs : List Expense) :
    Collected docs (docs.foldl (fun gs e => accumulate e gs) []) := by
  have h0 : Collected [] [] := ⟨List.nodup_nil, by simp, by simp⟩
  simpa using collected_foldl docs [] [] h0

/-- The stage `$group` on `$category` yields the breakdown of its input. -/
theorem grouped_groupByCategory (rt : Runtime) (docs : List Expense) :
    Grouped rt docs (groupByCategory rt docs) := by
  obtain ⟨hnd, hmem, hsum⟩ := collected_groups docs
  have hids : (groupByCategory rt docs).map (fun g => g._id) =
      (docs.foldl (fun gs e => accumulate e gs) []).map (fun g => g._id) := by
    unfold groupByCategory
    rw [List.map_map]
    rfl
  refine ⟨by rw [hids]; exact hnd, fun c => by rw [hids]; exact hmem c, ?_⟩
  intro g hg
  obtain ⟨g0, hg0, rfl⟩ := List.mem_map.1 hg
  have := hsum g0 hg0
  simp only
  rw [this]
  exact ⟨rfl, by simp⟩

theorem grouped_perm {rt : Runtime} {docs : List Expense} {gs gs2 : List CategoryTotal}
    (h : Grouped rt docs gs) (hp : gs2.Perm gs) : Grouped rt docs gs2 := by
  obtain ⟨hnd, hmem, hsum⟩ := h
  have hpm := hp.map (fun g : CategoryTotal => g._id)
  refine ⟨hpm.nodup_iff.2 hnd, ?_, ?_⟩
  · intro c
    rw [hpm.mem_iff]
    exact hmem c
  · intro g hg
    exact hsum g (hp.mem_iff.1 hg)

/-- The breakdown returned by `getExpenseStats` is the breakdown of the
caller's documents. -/
theorem grouped_expenseStats (rt : Runtime) (store : Store) (userId : ObjectId) :
    Grouped rt (matchUser store userId) (expenseStats rt store userId).categoryBreakdown := by
  unfold expenseStats
  exact grouped_perm (grouped_groupByCategory rt _) (List.perm_insertionSort _ _)

/-- The sum of the sample runtime over one natural number below `2 ^ 53`. -/
theorem sumOf_sample_one (n : ℕ) (h : n < 2 ^ 53) : sumOf sampleRuntime [(n : ℚ)] = n := by
  have := sumOf_sample_natCast [n] (by simpa using h)
  simpa using this

/-! ## C18: the breakdown by category -/

theorem filter_matchUser (store : Store) (userId : ObjectId) (c : String) :
    (matchUser store userId).filter (fun e => decide (e.category = c)) =
      store.filter (fun e => decide (e.user = userId ∧ e.category = c)) := by
  unfold matchUser
  rw [List.filter_filter]
  apply List.filter_congr
  intro e _
  rw [Bool.decide_and, Bool.and_comm]

/-- C18, as stated, fails where the sum is no double: for an income of
`10 ^ 16` followed by an income of 1, both in the category `Salary`, the entry
of `Salary` has `total` `10 ^ 16`, and the sum of the two amounts is
`10 ^ 16 + 1`. -/
theorem categoryBreakdown_total_counterexample :
    (expenseStats sampleRuntime [fortune, coin] 1).categoryBreakdown =
      [{ _id := "Salary", total := 10000000000000000, count := 2 }] ∧
    (([fortune, coin].filter (fun e => decide (e.user = 1 ∧ e.category = "Salary"))).map
      (fun e => e.amount)).sum = 10000000000000001 := by
  constructor
  · rw [expenseStats_fortune_coin]
  · simp [fortune, coin]
    norm_num

/-- C18, amended: the `categoryBreakdown` of `getExpenseStats` holds exactly
one entry for each category string occurring among the caller's documents,
whatever their types, categories being compared as exact strings; the `total`
of an entry is the sum, as the database computes it in floating point, of the
amounts of the caller's documents with that category, and its `count` is the
number of these documents. -/
theorem categoryBreakdown_per_category (rt : Runtime) (store : Store) (userId : ObjectId) :
    ((expenseStats rt store userId).categoryBreakdown.map (fun g => g._id)).Nodup ∧
    (∀ c, c ∈ (expenseStats rt store userId).categoryBreakdown.map (fun g => g._id) ↔
      ∃ e ∈ store, e.user = userId ∧ e.category = c) ∧
    (∀ g ∈ (expenseStats rt store userId).categoryBreakdown,
      g.total =
        sumOf rt ((store.filter (fun e => decide (e.user = userId ∧ e.category = g._id))).map
          (fun e => e.amount)) ∧
      g.count = (store.filter (fun e => decide (e.user = userId ∧ e.category = g._id))).length) := by
  obtain ⟨hnd, hmem, hsum⟩ := grouped_expenseStats rt store userId
  refine ⟨hnd, ?_, ?_⟩
  · intro c
    rw [hmem]
    constructor
    · rintro ⟨e, he, hc⟩
      have := List.mem_filter.1 he
      exact ⟨e, this.1, by simpa using this.2, hc⟩
    · rintro ⟨e, he, hu, hc⟩
      exact ⟨e, List.mem_filter.2 ⟨he, by simpa using hu⟩, hc⟩
  · intro g hg
    have := hsum g hg
    rw [filter_matchUser] at this
    exact this

/-! ## C19: the order of the breakdown -/

theorem totalDescending_total (rt : Runtime) (a b : CategoryTotal) :
    totalDescending rt a b ∨ totalDescending rt b a := by
  unfold totalDescending
  rcases lt_trichotomy a.total b.total with h | h | h
  · exact Or.inr (Or.inl h)
  · rcases le_total (rt.groupRank a._id) (rt.groupRank b._id) with h2 | h2
    · exact Or.inl (Or.inr ⟨h.symm, h2⟩)
    · exact Or.inr (Or.inr ⟨h, h2⟩)
  · exact Or.inl (Or.inl h)

theorem totalDescending_trans (rt : Runtime) (a b c : CategoryTotal)
    (h1 : totalDescending rt a b) (h2 : totalDescending rt b c) : totalDescending rt a c := by
  unfold totalDescending at *
  rcases h1 with h1 | ⟨h1, r1⟩ <;> rcases h2 with h2 | ⟨h2, r2⟩
  · exact Or.inl (lt_trans h2 h1)
  · exact Or.inl (by rw [h2]; exact h1)
  · exact Or.inl (by rw [← h1]; exact h2)
  · exact Or.inr ⟨by rw [h2, h1], le_trans r1 r2⟩

/-- The breakdown of the sample runtime for two documents of amount 5 in two
categories. -/
theorem groupByCategory_wage_coffee :
    groupByCategory sampleRuntime [wage, coffee] =
      [{ _id := "Salary", total := 5, count := 1 }, { _id := "Food", total := 5, count := 1 }] ∧
    groupByCategory sampleRuntime [coffee, wage] =
      [{ _id := "Food", total := 5, count := 1 }, { _id := "Salary", total := 5, count := 1 }] := by
  have h5 : sumOf sampleRuntime [5] = 5 := by
    have := sumOf_sample_one 5 (by norm_num)
    simpa using this
  constructor
  · simp [groupByCategory, accumulate, wage, coffee, h5]
  · simp [groupByCategory, accumulate, wage, coffee, h5]

/-- C19, as stated, fails: of two categories with equal totals, `Salary`
comes before `Food` when its first document was inserted first, though `Food`
sorts before `Salary`; with the same two documents inserted the other way
round the entries come the other way round, so the order is not determined
by the set of documents. The pipeline sorts on `total` alone. -/
theorem categoryBreakdown_ties_counterexample :
    (expenseStats sampleRuntime [wage, coffee] 1).categoryBreakdown =
      [{ _id := "Salary", total := 5, count := 1 }, { _id := "Food", total := 5, count := 1 }] ∧
    "Food" < "Salary" ∧
    (expenseStats sampleRuntime [coffee, wage] 1).categoryBreakdown =
      [{ _id := "Food", total := 5, count := 1 }, { _id := "Salary", total := 5, count := 1 }] := by
  have h1 : matchUser [wage, coffee] 1 = [wage, coffee] := by decide
  have h2 : matchUser [coffee, wage] 1 = [coffee, wage] := by decide
  refine ⟨?_, String.lt_iff_toList_lt.2 (by decide), ?_⟩
  · show (groupByCategory sampleRuntime (matchUser [wage, coffee] 1)).insertionSort
      (totalDescending sampleRuntime) = _
    rw [h1, groupByCategory_wage_coffee.1]
    decide
  · show (groupByCategory sampleRuntime (matchUser [coffee, wage] 1)).insertionSort
      (totalDescending sampleRuntime) = _
    rw [h2, groupByCategory_wage_coffee.2]
    decide

/-- C19, amended: the entries of `categoryBreakdown` are in non-increasing
order of `total`; the order of two entries with equal totals is left to the
database, the pipeline sorting on `total` alone. -/
theorem categoryBreakdown_sorted_by_total (rt : Runtime) (store : Store) (userId : ObjectId) :
    (expenseStats rt store userId).categoryBreakdown.Pairwise
      (fun a b => b.total ≤ a.total) := by
  unfold expenseStats
  haveI : IsTotal CategoryTotal (totalDescending rt) := ⟨totalDescending_total rt⟩
  haveI : IsTrans CategoryTotal (totalDescending rt) := ⟨totalDescending_trans rt⟩
  have hs := List.sorted_insertionSort (totalDescending rt)
    (groupByCategory rt (matchUser store userId))
  refine List.Pairwise.imp ?_ hs
  intro a b hab
  rcases hab with h | ⟨h, _⟩
  · exact le_of_lt h
  · exact le_of_eq h


/-! ## C20: statistics after an addition -/

/-- What a successful `addExpense` stored: the validated paths of the body. -/
theorem addExpense_success_fields {rt : Runtime} {store store1 : Store} {userId : ObjectId}
    {body : Body} {status : Nat} {message : Option String} {e : Expense}
    (h : addExpense rt store userId body = (.expense status message e, store1)) :
    ∃ f, validate rt (newExpense rt body) = .ok f ∧ e = addedExpense rt userId f ∧
      (body.type = .str "Income" ∨ body.type = .str "Expense") := by
  unfold addExpense at h
  split at h
  · cases h
  split at h
  · cases h
  · next hk =>
    split at h
    · cases h
    split at h
    · cases h
    · next f hv =>
      simp only at h
      split at h
      · cases h
      · injection h with hr hs
        injection hr with _ _ he
        refine ⟨f, hv, he.symm, ?_⟩
        by_cases h1 : body.type = .str "Income"
        · exact Or.inl h1
        · by_cases h2 : body.type = .str "Expense"
          · exact Or.inr h2
          · exact absurd ⟨h1, h2⟩ hk

theorem checkAmount_ok {rt : Runtime} {c : Cast ℚ} {q : ℚ} (h : checkAmount rt c = .ok q) :
    c = .ok (some q) := by
  cases c with
  | failed => simp [checkAmount] at h
  | ok v =>
    cases v with
    | none => simp [checkAmount] at h
    | some x =>
      simp only [checkAmount] at h
      split at h
      · cases h
      · injection h with h
        rw [h]

theorem checkType_ok {rt : Runtime} {s k : String} (h : checkType rt (.ok (some s)) = .ok k) :
    k = s ∧ (s = "Income" ∨ s = "Expense") := by
  simp only [checkType] at h
  split at h
  · cases h
  split at h
  · next hs =>
    injection h with h
    exact ⟨h.symm, hs⟩
  · cases h

/-- The amounts of one type after one more document of the caller: its amount
comes after the amounts that were there when it has the type. -/
theorem amounts_append (store : Store) (e : Expense) (k : String) :
    ((store ++ [e]).filter (fun x => decide (x.user = e.user ∧ x.type = k))).map
        (fun x => x.amount) =
      (store.filter (fun x => decide (x.user = e.user ∧ x.type = k))).map (fun x => x.amount) ++
        (if e.type = k then [e.amount] else []) := by
  rw [List.filter_append, List.map_append]
  by_cases hk : e.type = k
  · simp [List.filter_cons, hk]
  · simp [List.filter_cons, hk]

theorem expenseStats_count_append (rs : Runtime) (store : Store) (e : Expense) :
    (expenseStats rs (store ++ [e]) e.user).count = (expenseStats rs store e.user).count + 1 := by
  obtain ⟨_, _, a3, _⟩ := expenseStats_totals rs (store ++ [e]) e.user
  obtain ⟨_, _, b3, _⟩ := expenseStats_totals rs store e.user
  rw [a3, b3, matchUser_append, if_pos rfl]
  simp

/-- The statistics of the sample runtime for an income of 100 and an expense
of 40. -/
theorem expenseStats_income_expense :
    expenseStats sampleRuntime [income100, expense40] 1 =
      { totalIncome := 100, totalExpense := 40, count := 2, balance := 60,
        categoryBreakdown := [{ _id := "Salary", total := 100, count := 1 },
          { _id := "Food", total := 40, count := 1 }] } := by
  have hm : matchUser [income100, expense40] 1 = [income100, expense40] := by decide
  have h100 : sumOf sampleRuntime [100] = 100 := by
    have := sumOf_sample_one 100 (by norm_num)
    simpa using this
  have h40 : sumOf sampleRuntime [40] = 40 := by
    have := sumOf_sample_one 40 (by norm_num)
    simpa using this
  have hi : sumOf sampleRuntime [100, 0] = 100 := by
    have := sumOf_append_zero sampleRuntime [100]
    rw [h100] at this
    exact this
  have he : sumOf sampleRuntime [0, 40] = 40 := by
    have := sumOf_sample_natCast [0, 40] (by norm_num)
    simpa using this
  have h60 : toDouble 60 = 60 := by
    have := toDouble_natCast 60 (by norm_num)
    simpa using this
  have hg : groupByCategory sampleRuntime [income100, expense40] =
      [{ _id := "Salary", total := 100, count := 1 },
        { _id := "Food", total := 40, count := 1 }] := by
    simp [groupByCategory, accumulate, income100, expense40, h100, h40]
  have hd : (100 : ℚ) - 40 = 60 := by norm_num
  have hs : ([{ _id := "Salary", total := 100, count := 1 },
      { _id := "Food", total := 40, count := 1 }] : List CategoryTotal).insertionSort
        (totalDescending sampleRuntime) =
      [{ _id := "Salary", total := 100, count := 1 },
        { _id := "Food", total := 40, count := 1 }] := by decide
  unfold expenseStats
  rw [hm, hg, hs]
  simp [groupAll, income100, expense40, hi, he, hd, h60]

/-- C20, as stated, fails where the sum is no double: after an income of 1 is
added to a ledger holding an income of `10 ^ 16`, `totalIncome` and `balance`
are `10 ^ 16` as before, not larger by 1. -/
theorem stats_after_addExpense_counterexample :
    addExpense sampleRuntime [fortune] 1
        ⟨.str "Coin", .num 1, .str "Income", .str "Salary", .str "100"⟩ =
      (.expense 201 (some "Expense added successfully") coin, [fortune, coin]) ∧
    (expenseStats sampleRuntime [fortune] 1).totalIncome = 10000000000000000 ∧
    (expenseStats sampleRuntime [fortune] 1).balance = 10000000000000000 ∧
    (expenseStats sampleRuntime [fortune, coin] 1).totalIncome = 10000000000000000 ∧
    (expenseStats sampleRuntime [fortune, coin] 1).balance = 10000000000000000 := by
  have hv : Body.valid sampleRuntime
      ⟨.str "Coin", .num 1, .str "Income", .str "Salary", .str "100"⟩ = true := by
    simp only [Body.valid, goodAmount, Bool.and_eq_true, decide_eq_true_eq]
    exact ⟨⟨⟨⟨by decide, by norm_num⟩, by decide⟩, by decide⟩, by decide⟩
  have hm : matchUser [fortune] 1 = [fortune] := by decide
  have hf : sumOf sampleRuntime [10000000000000000] = 10000000000000000 := by
    have : sumOf sampleRuntime [10000000000000000] =
        toDouble (doubleSum [10000000000000000]) := by
      simp [sumOf, sampleRuntime]
    rw [this, doubleSum_one, toDouble_fortune, toDouble_fortune]
  have hz : sumOf sampleRuntime [0] = 0 := by simp [sumOf]
  obtain ⟨t1, t2, _, t4⟩ := expenseStats_totals sampleRuntime [fortune] 1
  rw [hm] at t1 t2
  have e1 : (expenseStats sampleRuntime [fortune] 1).totalIncome = 10000000000000000 := by
    rw [t1]
    simp [fortune, hf]
  have e2 : (expenseStats sampleRuntime [fortune] 1).totalExpense = 0 := by
    rw [t2]
    simp [fortune, hz]
  refine ⟨?_, e1, ?_, ?_, ?_⟩
  · rw [addExpense_of_valid hv (by decide)]
    decide
  · rw [t4, e1, e2, sub_zero, toDouble_fortune]
  · rw [expenseStats_fortune_coin]
  · rw [expenseStats_fortune_coin]

/-- C20, amended: after a successful `addExpense`, which stores the amount and
the type of the body, the statistics of the caller are those of the collection
with the new document at its end. For an `Income`, `totalIncome`, which was
the sum of the amounts of the caller's `Income` documents as the database
computes it in floating point, is that sum over the same amounts followed by
the new one, and `totalExpense` is the same; for an `Expense` it is the other
way round; `balance` is the difference of the two new totals rounded to a
double, and `count` is larger by 1. From an empty ledger, an income of 100 and
then an expense of 40 give `totalIncome` 100, `totalExpense` 40, `balance` 60
and `count` 2. -/
theorem stats_after_addExpense (rt rs : Runtime) (store store1 : Store) (userId : ObjectId)
    (body : Body) (status : Nat) (message : Option String) (e : Expense)
    (h : addExpense rt store userId body = (.expense status message e, store1)) :
    (castNumber rt body.amount = .ok (some e.amount) ∧ body.type = .str e.type ∧
      (e.type = "Income" ∨ e.type = "Expense")) ∧
    (e.type = "Income" →
      (expenseStats rs store userId).totalIncome =
        sumOf rs ((store.filter (fun x => decide (x.user = userId ∧ x.type = "Income"))).map
          (fun x => x.amount)) ∧
      (expenseStats rs store1 userId).totalIncome =
        sumOf rs ((store.filter (fun x => decide (x.user = userId ∧ x.type = "Income"))).map
          (fun x => x.amount) ++ [e.amount]) ∧
      (expenseStats rs store1 userId).totalExpense =
        (expenseStats rs store userId).totalExpense) ∧
    (e.type = "Expense" →
      (expenseStats rs store userId).totalExpense =
        sumOf rs ((store.filter (fun x => decide (x.user = userId ∧ x.type = "Expense"))).map
          (fun x => x.amount)) ∧
      (expenseStats rs store1 userId).totalExpense =
        sumOf rs ((store.filter (fun x => decide (x.user = userId ∧ x.type = "Expense"))).map
          (fun x => x.amount) ++ [e.amount]) ∧
      (expenseStats rs store1 userId).totalIncome =
        (expenseStats rs store userId).totalIncome) ∧
    (expenseStats rs store1 userId).balance =
      toDouble ((expenseStats rs store1 userId).totalIncome -
        (expenseStats rs store1 userId).totalExpense) ∧
    (expenseStats rs store1 userId).count = (expenseStats rs store userId).count + 1 ∧
    (addExpense sampleRuntime [] 1
        ⟨.str "Paycheck", .num 100, .str "Income", .str "Salary", .undefined⟩ =
      (.expense 201 (some "Expense added successfully") income100, [income100]) ∧
    addExpense laterRuntime [income100] 1
        ⟨.str "Groceries", .num 40, .str "Expense", .str "Food", .undefined⟩ =
      (.expense 201 (some "Expense added successfully") expense40, [income100, expense40]) ∧
    (expenseStats sampleRuntime [income100, expense40] 1).totalIncome = 100 ∧
    (expenseStats sampleRuntime [income100, expense40] 1).totalExpense = 40 ∧
    (expenseStats sampleRuntime [income100, expense40] 1).balance = 60 ∧
    (expenseStats sampleRuntime [income100, expense40] 1).count = 2) := by
  obtain ⟨f, hv, he, hk⟩ := addExpense_success_fields h
  obtain ⟨hu, _, hst⟩ := addExpense_success h
  obtain ⟨_, ha, ht, _, _⟩ := validate_ok hv
  have hamount : castNumber rt body.amount = .ok (some e.amount) := by
    have := checkAmount_ok ha
    rw [he]
    simpa [newExpense, addedExpense] using this
  have htype : body.type = .str e.type ∧ (e.type = "Income" ∨ e.type = "Expense") := by
    rw [he]
    have ht2 : checkType rt (castString rt body.type) = .ok f.type := ht
    rcases hk with hk | hk
    · rw [hk] at ht2 ⊢
      obtain ⟨h1, h2⟩ := checkType_ok (by simpa [castString] using ht2)
      simp only [addedExpense]
      rw [h1]
      exact ⟨rfl, h2⟩
    · rw [hk] at ht2 ⊢
      obtain ⟨h1, h2⟩ := checkType_ok (by simpa [castString] using ht2)
      simp only [addedExpense]
      rw [h1]
      exact ⟨rfl, h2⟩
  subst hst
  subst hu
  obtain ⟨a1, a2⟩ := expenseStats_sums rs (store ++ [e]) e.user
  obtain ⟨b1, b2⟩ := expenseStats_sums rs store e.user
  obtain ⟨_, _, _, c4⟩ := expenseStats_totals rs (store ++ [e]) e.user
  rw [amounts_append store e "Income"] at a1
  rw [amounts_append store e "Expense"] at a2
  refine ⟨⟨hamount, htype.1, htype.2⟩, ?_, ?_, c4, expenseStats_count_append rs store e, ?_⟩
  · intro hi
    have hne : ¬ e.type = "Expense" := by rw [hi]; decide
    rw [if_pos hi] at a1
    rw [if_neg hne, List.append_nil] at a2
    exact ⟨b1, a1, by rw [a2, b2]⟩
  · intro hx
    have hne : ¬ e.type = "Income" := by rw [hx]; decide
    rw [if_neg hne, List.append_nil] at a1
    rw [if_pos hx] at a2
    exact ⟨b2, a2, by rw [a1, b1]⟩
  · have hv1 : Body.valid sampleRuntime
        ⟨.str "Paycheck", .num 100, .str "Income", .str "Salary", .undefined⟩ = true := by
      simp only [Body.valid, goodAmount, Bool.and_eq_true, decide_eq_true_eq]
      exact ⟨⟨⟨⟨by decide, by norm_num⟩, by decide⟩, by decide⟩, by decide⟩
    have hv2 : Body.valid laterRuntime
        ⟨.str "Groceries", .num 40, .str "Expense", .str "Food", .undefined⟩ = true := by
      simp only [Body.valid, goodAmount, Bool.and_eq_true, decide_eq_true_eq]
      exact ⟨⟨⟨⟨by decide, by norm_num⟩, by decide⟩, by decide⟩, by decide⟩
    refine ⟨?_, ?_, ?_, ?_, ?_, ?_⟩
    · rw [addExpense_of_valid hv1 (by decide)]
      decide
    · rw [addExpense_of_valid hv2 (by decide)]
      decide
    · rw [expenseStats_income_expense]
    · rw [expenseStats_income_expense]
    · rw [expenseStats_income_expense]
    · rw [expenseStats_income_expense]

theorem stats_after_addExpense_witness :
    addExpense sampleRuntime [] 1
        ⟨.str "Paycheck", .num 100, .str "Income", .str "Salary", .undefined⟩ =
      (.expense 201 (some "Expense added successfully") income100, [income100]) ∧
    ((castNumber sampleRuntime (.num 100) = .ok (some income100.amount) ∧
      JsVal.str "Income" = .str income100.type ∧
      (income100.type = "Income" ∨ income100.type = "Expense")) ∧
    (income100.type = "Income" →
      (expenseStats sampleRuntime [] 1).totalIncome =
        sumOf sampleRuntime
          ((([] : Store).filter (fun x => decide (x.user = 1 ∧ x.type = "Income"))).map
            (fun x => x.amount)) ∧
      (expenseStats sampleRuntime [income100] 1).totalIncome =
        sumOf sampleRuntime
          ((([] : Store).filter (fun x => decide (x.user = 1 ∧ x.type = "Income"))).map
            (fun x => x.amount) ++ [income100.amount]) ∧
      (expenseStats sampleRuntime [income100] 1).totalExpense =
        (expenseStats sampleRuntime [] 1).totalExpense) ∧
    (income100.type = "Expense" →
      (expenseStats sampleRuntime [] 1).totalExpense =
        sumOf sampleRuntime
          ((([] : Store).filter (fun x => decide (x.user = 1 ∧ x.type = "Expense"))).map
            (fun x => x.amount)) ∧
      (expenseStats sampleRuntime [income100] 1).totalExpense =
        sumOf sampleRuntime
          ((([] : Store).filter (fun x => decide (x.user = 1 ∧ x.type = "Expense"))).map
            (fun x => x.amount) ++ [income100.amount]) ∧
      (expenseStats sampleRuntime [income100] 1).totalIncome =
        (expenseStats sampleRuntime [] 1).totalIncome) ∧
    (expenseStats sampleRuntime [income100] 1).balance =
      toDouble ((expenseStats sampleRuntime [income100] 1).totalIncome -
        (expenseStats sampleRuntime [income100] 1).totalExpense) ∧
    (expenseStats sampleRuntime [income100] 1).count =
      (expenseStats sampleRuntime [] 1).count + 1 ∧
    (addExpense sampleRuntime [] 1
        ⟨.str "Paycheck", .num 100, .str "Income", .str "Salary", .undefined⟩ =
      (.expense 201 (some "Expense added successfully") income100, [income100]) ∧
    addExpense laterRuntime [income100] 1
        ⟨.str "Groceries", .num 40, .str "Expense", .str "Food", .undefined⟩ =
      (.expense 201 (some "Expense added successfully") expense40, [income100, expense40]) ∧
    (expenseStats sampleRuntime [income100, expense40] 1).totalIncome = 100 ∧
    (expenseStats sampleRuntime [income100, expense40] 1).totalExpense = 40 ∧
    (expenseStats sampleRuntime [income100, expense40] 1).balance = 60 ∧
    (expenseStats sampleRuntime [income100, expense40] 1).count = 2)) :=
  have h : addExpense sampleRuntime [] 1
        ⟨.str "Paycheck", .num 100, .str "Income", .str "Salary", .undefined⟩ =
      (.expense 201 (some "Expense added successfully") income100, [income100]) := by
    have hv1 : Body.valid sampleRuntime
        ⟨.str "Paycheck", .num 100, .str "Income", .str "Salary", .undefined⟩ = true := by
      simp only [Body.valid, goodAmount, Bool.and_eq_true, decide_eq_true_eq]
      exact ⟨⟨⟨⟨by decide, by norm_num⟩, by decide⟩, by decide⟩, by decide⟩
    rw [addExpense_of_valid hv1 (by decide)]
    decide
  ⟨h, stats_after_addExpense sampleRuntime sampleRuntime [] [income100] 1
    ⟨.str "Paycheck", .num 100, .str "Income", .str "Salary", .undefined⟩ 201
    (some "Expense added successfully") income100 h⟩


/-! ## C21: invariants of the stored documents -/

theorem checkAmount_bound {rt : Runtime} {c : Cast ℚ} {q : ℚ} (h : checkAmount rt c = .ok q) :
    (1 : ℚ) / 100 ≤ q := by
  cases c with
  | failed => simp [checkAmount] at h
  | ok v =>
    cases v with
    | none => simp [checkAmount] at h
    | some x =>
      simp only [checkAmount] at h
      split at h
      · cases h
      · next hx =>
        injection h with h
        rw [← h]
        exact not_lt.1 hx

theorem checkType_kind {rt : Runtime} {c : Cast String} {k : String}
    (h : checkType rt c = .ok k) : k = "Income" ∨ k = "Expense" := by
  cases c with
  | failed => simp [checkType] at h
  | ok v =>
    cases v with
    | none => simp [checkType] at h
    | some s =>
      obtain ⟨h1, h2⟩ := checkType_ok h
      rw [h1]
      exact h2

/-- Validated paths give a positive amount and a type of the enumeration. -/
theorem validate_sound {rt : Runtime} {d : Document} {f : Fields} (h : validate rt d = .ok f) :
    0 < f.amount ∧ (f.type = "Income" ∨ f.type = "Expense") := by
  obtain ⟨_, ha, ht, _, _⟩ := validate_ok h
  refine ⟨lt_of_lt_of_le (by norm_num) (checkAmount_bound ha), checkType_kind ht⟩

theorem map_id_updateOne (store : Store) (s : Expense) :
    (updateOne store s).map (fun e => e._id) = store.map (fun e => e._id) := by
  induction store with
  | nil => rfl
  | cons x rest ih =>
    by_cases hx : x._id = s._id
    · simp [updateOne, hx]
    · simp [updateOne, hx, ih]

theorem mem_updateOne {store : Store} {s x : Expense} (h : x ∈ updateOne store s) :
    x = s ∨ x ∈ store := by
  induction store with
  | nil => simp [updateOne] at h
  | cons y rest ih =>
    by_cases hy : y._id = s._id
    · simp only [updateOne, if_pos hy, List.mem_cons] at h
      rcases h with h | h
      · exact Or.inl h
      · exact Or.inr (List.mem_cons_of_mem _ h)
    · simp only [updateOne, if_neg hy, List.mem_cons] at h
      rcases h with h | h
      · exact Or.inr (by rw [h]; exact List.mem_cons_self _ _)
      · rcases ih h with h2 | h2
        · exact Or.inl h2
        · exact Or.inr (List.mem_cons_of_mem _ h2)

/-- A call of `addExpense` leaves the collection as it was or appends the
document built from the validated paths, under a new identifier. -/
theorem addExpense_cases (rt : Runtime) (store : Store) (userId : ObjectId) (body : Body) :
    (addExpense rt store userId body).2 = store ∨
    ∃ f, validate rt (newExpense rt body) = .ok f ∧
      (∀ x ∈ store, x._id ≠ rt.newObjectId) ∧
      addExpense rt store userId body =
        (.expense 201 (some "Expense added successfully") (addedExpense rt userId f),
          store ++ [addedExpense rt userId f]) := by
  unfold addExpense
  split
  · exact Or.inl rfl
  split
  · exact Or.inl rfl
  split
  · exact Or.inl rfl
  split
  · exact Or.inl rfl
  · next f hv =>
    simp only
    split
    · exact Or.inl rfl
    · next st hins =>
      obtain ⟨h1, h2⟩ := insertOne_some hins
      right
      refine ⟨f, hv, h1, ?_⟩
      rw [h2]
      rfl

/-- Every step keeps the identifiers unique and the documents sound. -/
theorem reachable_invariant {store : Store} (h : Reachable store) :
    UniqueIds store ∧ ∀ e ∈ store, e.sound := by
  induction h with
  | empty => exact ⟨List.nodup_nil, by simp⟩
  | @add rt userId body store _ ih =>
    obtain ⟨hu, hs⟩ := ih
    rcases addExpense_cases rt store userId body with h | ⟨f, hv, hfresh, h⟩
    · rw [h]
      exact ⟨hu, hs⟩
    · rw [h]
      simp only
      constructor
      · unfold UniqueIds at hu ⊢
        rw [List.map_append]
        refine List.Nodup.append hu (List.nodup_singleton _) ?_
        simp only [List.map_cons, List.map_nil, List.disjoint_singleton, List.mem_map,
          not_exists, not_and]
        exact fun x hx => hfresh x hx
      · intro x hx
        rcases List.mem_append.1 hx with hx | hx
        · exact hs x hx
        · rw [List.mem_singleton] at hx
          rw [hx]
          exact validate_sound hv
  | @update rt userId id body store _ ih =>
    obtain ⟨hu, hs⟩ := ih
    cases hid : rt.castObjectId id with
    | none =>
      simp only [updateExpense, hid]
      exact ⟨hu, hs⟩
    | some oid =>
      cases hfind : findOne store oid userId with
      | none =>
        simp only [updateExpense, hid, hfind]
        exact ⟨hu, hs⟩
      | some e =>
        rcases updateExpense_cases body hid hfind with h | ⟨f, hv, _, _, h⟩
        · rw [h.2]
          exact ⟨hu, hs⟩
        · rw [h]
          simp only
          constructor
          · unfold UniqueIds at hu ⊢
            rw [map_id_updateOne]
            exact hu
          · intro x hx
            rcases mem_updateOne hx with hx | hx
            · rw [hx]
              exact validate_sound hv
            · exact hs x hx
  | @remove rt userId id store _ ih =>
    obtain ⟨hu, hs⟩ := ih
    cases hid : rt.castObjectId id with
    | none =>
      simp only [removeExpense, hid]
      exact ⟨hu, hs⟩
    | some oid =>
      cases hfind : findOne store oid userId with
      | none =>
        simp only [removeExpense, hid, hfind]
        exact ⟨hu, hs⟩
      | some e =>
        simp only [removeExpense, hid, hfind, deleteOne]
        have hsub := List.eraseP_sublist (p := fun e : Expense =>
          decide (e._id = oid ∧ e.user = userId)) store
        constructor
        · unfold UniqueIds at hu ⊢
          exact (hsub.map _).nodup hu
        · intro x hx
          exact hs x (hsub.subset hx)


/-- C21: in every collection reached from the empty one by calls of
`addExpense`, `updateExpense` and `removeExpense`, with any users and bodies,
accepted or rejected, every document has a positive amount and a type that is
`Income` or `Expense`, and every document with its identifier has its one
owner. -/
theorem reachable_records_sound (store : Store) (h : Reachable store) (e : Expense)
    (he : e ∈ store) :
    0 < e.amount ∧ (e.type = "Income" ∨ e.type = "Expense") ∧
    ∀ x ∈ store, x._id = e._id → x.user = e.user := by
  obtain ⟨hu, hs⟩ := reachable_invariant h
  refine ⟨(hs e he).1, (hs e he).2, ?_⟩
  intro x hx hid
  rw [eq_of_id_eq hu hx he hid]

theorem reachable_records_sound_witness :
    (Reachable [income100] ∧ income100 ∈ [income100]) ∧
    (0 < income100.amount ∧ (income100.type = "Income" ∨ income100.type = "Expense") ∧
      ∀ x ∈ [income100], x._id = income100._id → x.user = income100.user) :=
  have hr : Reachable [income100] := by
    have hv1 : Body.valid sampleRuntime
        ⟨.str "Paycheck", .num 100, .str "Income", .str "Salary", .undefined⟩ = true := by
      simp only [Body.valid, goodAmount, Bool.and_eq_true, decide_eq_true_eq]
      exact ⟨⟨⟨⟨by decide, by norm_num⟩, by decide⟩, by decide⟩, by decide⟩
    have hstep := Reachable.add sampleRuntime 1
      ⟨.str "Paycheck", .num 100, .str "Income", .str "Salary", .undefined⟩ Reachable.empty
    rw [addExpense_of_valid hv1 (by decide)] at hstep
    exact hstep
  ⟨⟨hr, by decide⟩, reachable_records_sound [income100] hr income100 (by decide)⟩

/-! ## C22: small amounts -/

/-- An amount below 0.01 is rejected, whatever the other fields are. -/
theorem addExpense_below_min (rt : Runtime) (store : Store) (userId : ObjectId) (body : Body)
    (q : ℚ) (hq : body.amount = .num q) (hlt : q < 1 / 100) :
    (addExpense rt store userId body).1.failure = some .validation ∧
      (addExpense rt store userId body).2 = store := by
  unfold addExpense
  by_cases h1 : (!body.title.truthy || !body.amount.truthy || !body.type.truthy ||
      !body.category.truthy) = true
  · rw [if_pos h1]; exact ⟨rfl, rfl⟩
  rw [if_neg h1]
  by_cases h2 : body.type ≠ .str "Income" ∧ body.type ≠ .str "Expense"
  · rw [if_pos h2]; exact ⟨rfl, rfl⟩
  rw [if_neg h2]
  by_cases h3 : leZero rt body.amount = true
  · rw [if_pos h3]; exact ⟨rfl, rfl⟩
  rw [if_neg h3]
  have hm : checkAmount rt (newExpense rt body).amount =
      .error "Amount must be greater than 0" := by
    simp only [newExpense, hq, castNumber, checkAmount]
    rw [if_pos hlt]
  obtain ⟨errors, he⟩ := validate_error_of_amount rt (newExpense rt body) _ hm
  rw [he]
  exact ⟨rfl, rfl⟩

/-- C22, as stated, fails: an amount of 0.001 is greater than 0 and
`addExpense` rejects it, the schema setting `min` 0.01 on `amount`. -/
theorem addExpense_small_amount_counterexample :
    (0 : ℚ) < 1 / 1000 ∧
    addExpense sampleRuntime [] 1
        ⟨.str "Coffee", .num (1 / 1000), .str "Expense", .str "Food", .str "100"⟩ =
      (.error .validation 400 "Amount must be greater than 0", []) := by
  refine ⟨by norm_num, ?_⟩
  have hv : Body.valid sampleRuntime
      { (⟨.str "Coffee", .num (1 / 1000), .str "Expense", .str "Food", .str "100"⟩ : Body) with
        amount := .num 1 } = true := by
    simp only [Body.valid, goodAmount, Bool.and_eq_true, decide_eq_true_eq]
    exact ⟨⟨⟨⟨by decide, by norm_num⟩, by decide⟩, by decide⟩, by decide⟩
  exact addExpense_tiny sampleRuntime [] 1 _ (1 / 1000) hv rfl (by norm_num) (by norm_num)

/-- C22, amended: with a valid title, type and category, `addExpense` accepts
every amount of at least 0.01 and stores it, the generated identifier being
new, and rejects every amount below 0.01 with a validation failure, writing
nothing: amounts that are not positive by its own check, amounts between 0
and 0.01 by the `min` validator of the schema. -/
theorem addExpense_amount_threshold (rt : Runtime) (store : Store) (userId : ObjectId)
    (body : Body) (q : ℚ) (hq : body.amount = .num q)
    (hv : Body.valid rt { body with amount := .num 1 } = true)
    (hfresh : ∀ x ∈ store, x._id ≠ rt.newObjectId) :
    (1 / 100 ≤ q →
      ∃ e, addExpense rt store userId body =
          (.expense 201 (some "Expense added successfully") e, store ++ [e]) ∧
        e.amount = q) ∧
    (q < 1 / 100 →
      (addExpense rt store userId body).1.failure = some .validation ∧
        (addExpense rt store userId body).2 = store) := by
  constructor
  · intro hge
    have hv2 : body.valid rt = true := by
      simp only [Body.valid, goodAmount, hq, Bool.and_eq_true, decide_eq_true_eq] at hv ⊢
      exact ⟨⟨⟨⟨hv.1.1.1.1, hge⟩, hv.1.1.2⟩, hv.1.2⟩, hv.2⟩
    refine ⟨_, addExpense_of_valid hv2 hfresh, ?_⟩
    simp [addedExpense, Body.fields, hq]
  · intro hlt
    exact addExpense_below_min rt store userId body q hq hlt

theorem addExpense_amount_threshold_witness :
    ((JsVal.num 5 = .num 5) ∧
      Body.valid sampleRuntime
        { (⟨.str "Coffee", .num 5, .str "Expense", .str "Food", .str "100"⟩ : Body) with
          amount := .num 1 } = true ∧
      ∀ x ∈ sampleStore, x._id ≠ sampleRuntime.newObjectId) ∧
    ((1 / 100 ≤ (5 : ℚ) →
      ∃ e, addExpense sampleRuntime sampleStore 1
            ⟨.str "Coffee", .num 5, .str "Expense", .str "Food", .str "100"⟩ =
          (.expense 201 (some "Expense added successfully") e, sampleStore ++ [e]) ∧
        e.amount = 5) ∧
    ((5 : ℚ) < 1 / 100 →
      (addExpense sampleRuntime sampleStore 1
          ⟨.str "Coffee", .num 5, .str "Expense", .str "Food", .str "100"⟩).1.failure =
        some .validation ∧
      (addExpense sampleRuntime sampleStore 1
          ⟨.str "Coffee", .num 5, .str "Expense", .str "Food", .str "100"⟩).2 =
        sampleStore)) :=
  have hv : Body.valid sampleRuntime
      { (⟨.str "Coffee", .num 5, .str "Expense", .str "Food", .str "100"⟩ : Body) with
        amount := .num 1 } = true := by
    simp only [Body.valid, goodAmount, Bool.and_eq_true, decide_eq_true_eq]
    exact ⟨⟨⟨⟨by decide, by norm_num⟩, by decide⟩, by decide⟩, by decide⟩
  ⟨⟨rfl, hv, by decide⟩, addExpense_amount_threshold sampleRuntime sampleStore 1
    ⟨.str "Coffee", .num 5, .str "Expense", .str "Food", .str "100"⟩ 5 rfl hv (by decide)⟩

/-! ## C23: the message for missing fields -/

/-- C23, as stated, fails: a body without a title and a body without a
category miss different fields and receive the same message. -/
theorem addExpense_message_counterexample :
    addExpense sampleRuntime [] 1 ⟨.undefined, .num 5, .str "Expense", .str "Food", .undefined⟩ =
      (.error .validation 400 "Please provide title, amount, type, and category", []) ∧
    addExpense sampleRuntime [] 1
        ⟨.str "Coffee", .num 5, .str "Expense", .undefined, .undefined⟩ =
      (.error .validation 400 "Please provide title, amount, type, and category", []) := by
  decide

/-- C23, amended: when `addExpense` rejects a body because required fields
are missing, the message is the fixed text `Please provide title, amount,
type, and category`, which names the four required fields whichever of them
are missing, so two bodies that miss different fields receive the same
message. -/
theorem addExpense_fixed_message (rt : Runtime) (store : Store) (userId : ObjectId)
    (body1 body2 : Body)
    (h1 : body1.title.absentOrEmpty = true ∨ body1.amount.absentOrEmpty = true ∨
      body1.type.absentOrEmpty = true ∨ body1.category.absentOrEmpty = true)
    (h2 : body2.title.absentOrEmpty = true ∨ body2.amount.absentOrEmpty = true ∨
      body2.type.absentOrEmpty = true ∨ body2.category.absentOrEmpty = true) :
    (addExpense rt store userId body1).1 =
      .error .validation 400 "Please provide title, amount, type, and category" ∧
    (addExpense rt store userId body2).1 = (addExpense rt store userId body1).1 := by
  have key : ∀ b : Body, (b.title.absentOrEmpty = true ∨ b.amount.absentOrEmpty = true ∨
      b.type.absentOrEmpty = true ∨ b.category.absentOrEmpty = true) →
      (addExpense rt store userId b).1 =
        .error .validation 400 "Please provide title, amount, type, and category" := by
    intro b hb
    unfold addExpense
    rw [if_pos]
    rcases hb with h | h | h | h <;> simp [truthy_of_absentOrEmpty h]
  rw [key body1 h1, key body2 h2]
  exact ⟨rfl, rfl⟩

theorem addExpense_fixed_message_witness :
    ((JsVal.undefined.absentOrEmpty = true ∨ (JsVal.num 5).absentOrEmpty = true ∨
        (JsVal.str "Expense").absentOrEmpty = true ∨ (JsVal.str "Food").absentOrEmpty = true) ∧
      ((JsVal.str "Coffee").absentOrEmpty = true ∨ (JsVal.num 5).absentOrEmpty = true ∨
        (JsVal.str "Expense").absentOrEmpty = true ∨ JsVal.undefined.absentOrEmpty = true)) ∧
    ((addExpense sampleRuntime sampleStore 1
        ⟨.undefined, .num 5, .str "Expense", .str "Food", .undefined⟩).1 =
      .error .validation 400 "Please provide title, amount, type, and category" ∧
    (addExpense sampleRuntime sampleStore 1
        ⟨.str "Coffee", .num 5, .str "Expense", .undefined, .undefined⟩).1 =
      (addExpense sampleRuntime sampleStore 1
        ⟨.undefined, .num 5, .str "Expense", .str "Food", .undefined⟩).1) :=
  ⟨by decide, addExpense_fixed_message sampleRuntime sampleStore 1
    ⟨.undefined, .num 5, .str "Expense", .str "Food", .undefined⟩
    ⟨.str "Coffee", .num 5, .str "Expense", .undefined, .undefined⟩ (by decide) (by decide)⟩


/-! ## C24: what the chart shows -/

/-- C24: on the list of documents, the chart data is that of the documents of
type `Expense` alone, so no `Income` contributes; on the fallback it is not:
for a ledger holding one `Income`, the paycheck, `getExpenseStats` returns the
category `Salary` with total 2000, and `expenseData`, given that breakdown and
no documents, shows `Salary` with value 2000, against the comments of
`ExpenseChart`. -/
theorem expenseData_fallback_shows_income (localeCompare : String → String → Int)
    (expenses : List Expense) :
    fromExpenses localeCompare expenses =
      fromExpenses localeCompare (expenses.filter (fun exp => decide (exp.type = "Expense"))) ∧
    (paycheck.type = "Income" ∧
      (expenseStats sampleRuntime [paycheck] 1).categoryBreakdown =
        [{ _id := "Salary", total := 2000, count := 1 }] ∧
      expenseData sampleCompare [{ _id := "Salary", total := 2000, count := 1 }] [] =
        [{ name := "Salary", value := 2000 }]) := by
  constructor
  · unfold fromExpenses
    rw [List.filter_filter]
    simp
  · have h2000 : sumOf sampleRuntime [2000] = 2000 := by
      have := sumOf_sample_one 2000 (by norm_num)
      simpa using this
    have hm : matchUser [paycheck] 1 = [paycheck] := by decide
    have hg : groupByCategory sampleRuntime [paycheck] =
        [{ _id := "Salary", total := 2000, count := 1 }] := by
      simp [groupByCategory, accumulate, paycheck, h2000]
    refine ⟨by decide, ?_, by decide⟩
    show (groupByCategory sampleRuntime (matchUser [paycheck] 1)).insertionSort
      (totalDescending sampleRuntime) = _
    rw [hm, hg]
    decide

/-! ## C25: the order of the chart data -/

/-- The chart data for a dinner of 10 in `Food` and a parking fee of 10.01 in
`Parking`, when `Food` compares before `Parking`. -/
theorem expenseData_dinner_parking (localeCompare : String → String → Int)
    (categoryBreakdown : List CategoryTotal) (h : localeCompare "Food" "Parking" ≤ 0) :
    expenseData localeCompare categoryBreakdown [dinner, parking] =
      [{ name := "Food", value := 10 }, { name := "Parking", value := 1001 / 100 }] := by
  have h0 : ¬ toDouble (1 / 100) < 0 := not_lt.2 (toDouble_nonneg (by norm_num))
  simp [expenseData, fromExpenses, collect, mapAdd, orOther, arraySort, compareSlices, mathAbs,
    dinner, parking]
  norm_num [h, h0]

/-- C25: for the documents of a dinner of 10 in `Food` and a parking fee of
10.01 in `Parking`, the values differ by no more than 0.01, the comparator
falls back on the names, and `expenseData` puts `Food` with 10 before
`Parking` with 10.01: the earlier value is smaller than the later one. -/
theorem expenseData_not_descending (localeCompare : String → String → Int)
    (categoryBreakdown : List CategoryTotal) (h : localeCompare "Food" "Parking" ≤ 0) :
    expenseData localeCompare categoryBreakdown [dinner, parking] =
      [{ name := "Food", value := 10 }, { name := "Parking", value := 1001 / 100 }] ∧
    ¬ ValueDescending (expenseData localeCompare categoryBreakdown [dinner, parking]) := by
  have hd := expenseData_dinner_parking localeCompare categoryBreakdown h
  refine ⟨hd, ?_⟩
  rw [hd]
  simp only [ValueDescending, List.chain'_cons, List.chain'_singleton, and_true, not_le]
  norm_num

theorem expenseData_not_descending_witness :
    sampleCompare "Food" "Parking" ≤ 0 ∧
    (expenseData sampleCompare [] [dinner, parking] =
      [{ name := "Food", value := 10 }, { name := "Parking", value := 1001 / 100 }] ∧
    ¬ ValueDescending (expenseData sampleCompare [] [dinner, parking])) :=
  ⟨by decide, expenseData_not_descending sampleCompare [] (by decide)⟩

/-! ## C26: the order of the client ledger -/

/-- C26: `REMOVE_EXPENSE` keeps a ledger that is newest first, and the other
two actions do not: on the ledger of the paycheck of date 200 and the coffee
of date 100, `ADD_EXPENSE` with the wage of date 50 puts the wage first, and
`UPDATE_EXPENSE` with the coffee moved to date 300 leaves it after the
paycheck; neither result is newest first, and the first entry shown under
`Recent Transactions` after the addition is the oldest document. -/
theorem expenseReducer_order :
    (∀ (state : ClientState) (id : ObjectId), NewestFirst state.expenses →
      NewestFirst (expenseReducer state (.REMOVE_EXPENSE id)).expenses) ∧
    NewestFirst [paycheck, coffee] ∧
    (expenseReducer ⟨[paycheck, coffee], false, none⟩ (.ADD_EXPENSE wage)).expenses =
      [wage, paycheck, coffee] ∧
    ¬ NewestFirst [wage, paycheck, coffee] ∧
    recentTransactions (expenseReducer ⟨[paycheck, coffee], false, none⟩ (.ADD_EXPENSE wage)) =
      [wage, paycheck, coffee] ∧
    (expenseReducer ⟨[paycheck, coffee], false, none⟩ (.UPDATE_EXPENSE movedCoffee)).expenses =
      [paycheck, movedCoffee] ∧
    ¬ NewestFirst [paycheck, movedCoffee] := by
  refine ⟨?_, by decide, by decide, by decide, by decide, by decide, by decide⟩
  intro state id h
  exact List.Pairwise.filter _ h

/-! ## C27: the breakdown against the totals -/

theorem sum_accumulate (e : Expense) (gs : List CategoryGroup) :
    ((accumulate e gs).map (fun g => g.amounts.sum)).sum =
      (gs.map (fun g => g.amounts.sum)).sum + e.amount ∧
    ((accumulate e gs).map (fun g => g.amounts.length)).sum =
      (gs.map (fun g => g.amounts.length)).sum + 1 := by
  induction gs with
  | nil => simp [accumulate]
  | cons g rest ih =>
    by_cases hg : g._id = e.category
    · simp only [accumulate, if_pos hg, List.map_cons, List.sum_cons, List.sum_append,
        List.length_append, List.sum_nil, List.length_singleton]
      constructor
      · ring
      · omega
    · simp only [accumulate, if_neg hg, List.map_cons, List.sum_cons, ih.1, ih.2]
      constructor
      · ring
      · omega

theorem sum_foldl_accumulate (docs : List Expense) (gs : List CategoryGroup) :
    ((docs.foldl (fun gs e => accumulate e gs) gs).map (fun g => g.amounts.sum)).sum =
      (gs.map (fun g => g.amounts.sum)).sum + (docs.map (fun e => e.amount)).sum ∧
    ((docs.foldl (fun gs e => accumulate e gs) gs).map (fun g => g.amounts.length)).sum =
      (gs.map (fun g => g.amounts.length)).sum + docs.length := by
  induction docs generalizing gs with
  | nil => simp
  | cons e rest ih =>
    obtain ⟨h1, h2⟩ := ih (accumulate e gs)
    obtain ⟨a1, a2⟩ := sum_accumulate e gs
    simp only [List.foldl_cons, List.map_cons, List.sum_cons, List.length_cons]
    rw [h1, h2, a1, a2]
    constructor
    · ring
    · omega

theorem sum_map_ite (p : Expense → Prop) [DecidablePred p] (l : List Expense) :
    (l.map (fun e => if p e then e.amount else 0)).sum =
      ((l.filter (fun e => decide (p e))).map (fun e => e.amount)).sum := by
  induction l with
  | nil => rfl
  | cons x rest ih =>
    by_cases hx : p x
    · simp [List.filter_cons, hx, ih]
    · simp [List.filter_cons, hx, ih]

theorem sum_by_kind (docs : List Expense)
    (h : ∀ e ∈ docs, e.type = "Income" ∨ e.type = "Expense") :
    (docs.map (fun e => if e.type = "Income" then e.amount else 0)).sum +
      (docs.map (fun e => if e.type = "Expense" then e.amount else 0)).sum =
      (docs.map (fun e => e.amount)).sum := by
  induction docs with
  | nil => simp
  | cons x rest ih =>
    have hrest := ih (fun e he => h e (List.mem_cons_of_mem _ he))
    simp only [List.map_cons, List.sum_cons]
    rcases h x (List.mem_cons_self _ _) with hx | hx
    · have hne : ¬ x.type = "Expense" := by rw [hx]; decide
      rw [if_pos hx, if_neg hne, ← hrest]
      ring
    · have hne : ¬ x.type = "Income" := by rw [hx]; decide
      rw [if_neg hne, if_pos hx, ← hrest]
      ring

/-- The statistics of the sample runtime for an income of 1 in `Tips`, an
income of 1 in `Salary` and an income of `10 ^ 16` in `Salary`: the sum of the
three amounts is a double, the sum of the two amounts in `Salary` is not. -/
theorem expenseStats_tip_coin_fortune :
    expenseStats sampleRuntime [tip, coin, fortune] 1 =
      { totalIncome := 10000000000000002, totalExpense := 0, count := 3,
        balance := 10000000000000002,
        categoryBreakdown := [{ _id := "Salary", total := 10000000000000000, count := 2 },
          { _id := "Tips", total := 1, count := 1 }] } := by
  have hm : matchUser [tip, coin, fortune] 1 = [tip, coin, fortune] := by decide
  have hi : sumOf sampleRuntime [1, 1, 10000000000000000] = 10000000000000002 := by
    have : sumOf sampleRuntime [1, 1, 10000000000000000] =
        toDouble (doubleSum [1, 1, 10000000000000000]) := by
      simp [sumOf, sampleRuntime]
    rw [this, doubleSum_tip_coin_fortune, toDouble_fortune_two]
  have hz : sumOf sampleRuntime [0, 0, 0] = 0 := by simp [sumOf]
  have h1 : sumOf sampleRuntime [1] = 1 := by
    have := sumOf_sample_one 1 (by norm_num)
    simpa using this
  have hs : sumOf sampleRuntime [1, 10000000000000000] = 10000000000000000 := by
    have : sumOf sampleRuntime [1, 10000000000000000] =
        toDouble (doubleSum [1, 10000000000000000]) := by
      simp [sumOf, sampleRuntime]
    rw [this, doubleSum_coin_fortune, toDouble_fortune]
  have hg : groupByCategory sampleRuntime [tip, coin, fortune] =
      [{ _id := "Tips", total := 1, count := 1 },
        { _id := "Salary", total := 10000000000000000, count := 2 }] := by
    simp [groupByCategory, accumulate, tip, coin, fortune, h1, hs]
  have hsort : ([{ _id := "Tips", total := 1, count := 1 },
      { _id := "Salary", total := 10000000000000000, count := 2 }] :
        List CategoryTotal).insertionSort (totalDescending sampleRuntime) =
      [{ _id := "Salary", total := 10000000000000000, count := 2 },
        { _id := "Tips", total := 1, count := 1 }] := by decide
  unfold expenseStats
  rw [hm, hg, hsort]
  simp [groupAll, tip, coin, fortune, hi, hz, toDouble_fortune_two]

/-- The statistics of the sample runtime for the documents of user 1 in the
sample collection. -/
theorem expenseStats_sampleStore :
    expenseStats sampleRuntime sampleStore 1 =
      { totalIncome := 2000, totalExpense := 5, count := 2, balance := 1995,
        categoryBreakdown := [{ _id := "Salary", total := 2000, count := 1 },
          { _id := "Food", total := 5, count := 1 }] } := by
  have hm : matchUser sampleStore 1 = [coffee, paycheck] := by decide
  have h2000 : sumOf sampleRuntime [2000] = 2000 := by
    have := sumOf_sample_one 2000 (by norm_num)
    simpa using this
  have h5 : sumOf sampleRuntime [5] = 5 := by
    have := sumOf_sample_one 5 (by norm_num)
    simpa using this
  have hi : sumOf sampleRuntime [0, 2000] = 2000 := by
    have := sumOf_sample_natCast [0, 2000] (by norm_num)
    simpa using this
  have he : sumOf sampleRuntime [5, 0] = 5 := by
    have := sumOf_append_zero sampleRuntime [5]
    rw [h5] at this
    exact this
  have hb : toDouble 1995 = 1995 := by
    have := toDouble_natCast 1995 (by norm_num)
    simpa using this
  have hd : (2000 : ℚ) - 5 = 1995 := by norm_num
  have hg : groupByCategory sampleRuntime [coffee, paycheck] =
      [{ _id := "Food", total := 5, count := 1 },
        { _id := "Salary", total := 2000, count := 1 }] := by
    simp [groupByCategory, accumulate, coffee, paycheck, h5, h2000]
  have hsort : ([{ _id := "Food", total := 5, count := 1 },
      { _id := "Salary", total := 2000, count := 1 }] :
        List CategoryTotal).insertionSort (totalDescending sampleRuntime) =
      [{ _id := "Salary", total := 2000, count := 1 },
        { _id := "Food", total := 5, count := 1 }] := by decide
  unfold expenseStats
  rw [hm, hg, hsort]
  simp [groupAll, coffee, paycheck, hi, he, hd, hb]

/-- C27, as stated, fails where a sum is no double: for an income of 1 in
`Tips`, an income of 1 in `Salary` and an income of `10 ^ 16` in `Salary`, all
of user 1, `totalIncome` is `10 ^ 16 + 2` and `totalExpense` is 0, and the
entries of `categoryBreakdown` hold `10 ^ 16` and 1, which add up to
`10 ^ 16 + 1`, and to `10 ^ 16` when they are added as doubles. -/
theorem expenseStats_consistent_counterexample :
    (∀ e ∈ [tip, coin, fortune], e.user = 1 → e.type = "Income" ∨ e.type = "Expense") ∧
    getExpenseStats sampleRuntime [tip, coin, fortune] 1 =
      .stats { totalIncome := 10000000000000002, totalExpense := 0, count := 3,
               balance := 10000000000000002,
               categoryBreakdown :=
                 [{ _id := "Salary", total := 10000000000000000, count := 2 },
                  { _id := "Tips", total := 1, count := 1 }] } ∧
    ((expenseStats sampleRuntime [tip, coin, fortune] 1).categoryBreakdown.map
      (fun g => g.total)).sum = 10000000000000001 ∧
    doubleSum ((expenseStats sampleRuntime [tip, coin, fortune] 1).categoryBreakdown.map
      (fun g => g.total)) = 10000000000000000 ∧
    (expenseStats sampleRuntime [tip, coin, fortune] 1).totalIncome +
      (expenseStats sampleRuntime [tip, coin, fortune] 1).totalExpense = 10000000000000002 := by
  refine ⟨by decide, ?_, ?_, ?_, ?_⟩
  · unfold getExpenseStats
    rw [expenseStats_tip_coin_fortune]
  · rw [expenseStats_tip_coin_fortune]
    simp only [List.map_cons, List.map_nil, List.sum_cons, List.sum_nil]
    norm_num
  · rw [expenseStats_tip_coin_fortune]
    simp only [List.map_cons, List.map_nil]
    exact doubleSum_fortune_coin
  · rw [expenseStats_tip_coin_fortune]
    norm_num

/-- C27, amended: the counts of the entries of `categoryBreakdown` add up to
`count`; and when every document of the caller has type `Income` or `Expense`,
the totals of the entries add up to `totalIncome` plus `totalExpense` whenever
`totalIncome`, `totalExpense` and the total of every entry are the exact sums
of the amounts they cover, which the floating-point sums of the database need
not be. -/
theorem expenseStats_consistent (rt : Runtime) (store : Store) (userId : ObjectId)
    (h : ∀ e ∈ store, e.user = userId → e.type = "Income" ∨ e.type = "Expense") :
    ((expenseStats rt store userId).categoryBreakdown.map (fun g => g.count)).sum =
      (expenseStats rt store userId).count ∧
    ((expenseStats rt store userId).totalIncome =
        ((store.filter (fun e => decide (e.user = userId ∧ e.type = "Income"))).map
          (fun e => e.amount)).sum →
      (expenseStats rt store userId).totalExpense =
        ((store.filter (fun e => decide (e.user = userId ∧ e.type = "Expense"))).map
          (fun e => e.amount)).sum →
      (∀ g ∈ (expenseStats rt store userId).categoryBreakdown,
        g.total = ((store.filter (fun e => decide (e.user = userId ∧ e.category = g._id))).map
          (fun e => e.amount)).sum) →
      ((expenseStats rt store userId).categoryBreakdown.map (fun g => g.total)).sum =
        (expenseStats rt store userId).totalIncome +
          (expenseStats rt store userId).totalExpense) := by
  obtain ⟨_, _, t3, _⟩ := expenseStats_totals rt store userId
  have hdocs : ∀ e ∈ matchUser store userId, e.type = "Income" ∨ e.type = "Expense" := by
    intro e he
    have := List.mem_filter.1 he
    exact h e this.1 (by simpa using this.2)
  have hperm := List.perm_insertionSort (totalDescending rt)
    (groupByCategory rt (matchUser store userId))
  obtain ⟨s1, s2⟩ := sum_foldl_accumulate (matchUser store userId) []
  obtain ⟨_, _, hamounts⟩ := collected_groups (matchUser store userId)
  have hb : (expenseStats rt store userId).categoryBreakdown =
      (groupByCategory rt (matchUser store userId)).insertionSort (totalDescending rt) := rfl
  constructor
  · rw [hb, (hperm.map _).sum_eq, t3]
    simpa [groupByCategory, Function.comp_def] using s2
  · intro hI hE hC
    have hexact : ∀ g ∈ (matchUser store userId).foldl (fun gs e => accumulate e gs) [],
        sumOf rt g.amounts = g.amounts.sum := by
      intro g hg
      have hmem : ({ _id := g._id, total := sumOf rt g.amounts, count := g.amounts.length } :
          CategoryTotal) ∈ (expenseStats rt store userId).categoryBreakdown := by
        rw [hb, hperm.mem_iff]
        unfold groupByCategory
        exact List.mem_map.2 ⟨g, hg, rfl⟩
      have := hC _ hmem
      simp only at this
      rw [this, hamounts g hg, filter_matchUser]
    have htot : ((groupByCategory rt (matchUser store userId)).map (fun g => g.total)).sum =
        ((matchUser store userId).map (fun e => e.amount)).sum := by
      unfold groupByCategory
      rw [List.map_map]
      have : (fun g : CategoryTotal => g.total) ∘
          (fun g : CategoryGroup =>
            ({ _id := g._id, total := sumOf rt g.amounts, count := g.amounts.length } :
              CategoryTotal)) = fun g => sumOf rt g.amounts := rfl
      rw [this, List.map_congr_left hexact]
      simpa using s1
    rw [hb, (hperm.map _).sum_eq, htot, hI, hE, ← sum_by_kind _ hdocs,
      sum_map_ite (fun e => e.type = "Income"), sum_map_ite (fun e => e.type = "Expense"),
      filter_user_kind, filter_user_kind]

theorem expenseStats_consistent_witness :
    (∀ e ∈ sampleStore, e.user = 1 → e.type = "Income" ∨ e.type = "Expense") ∧
    ((expenseStats sampleRuntime sampleStore 1).totalIncome =
        ((sampleStore.filter (fun e => decide (e.user = 1 ∧ e.type = "Income"))).map
          (fun e => e.amount)).sum ∧
      (expenseStats sampleRuntime sampleStore 1).totalExpense =
        ((sampleStore.filter (fun e => decide (e.user = 1 ∧ e.type = "Expense"))).map
          (fun e => e.amount)).sum ∧
      (∀ g ∈ (expenseStats sampleRuntime sampleStore 1).categoryBreakdown,
        g.total = ((sampleStore.filter (fun e => decide (e.user = 1 ∧ e.category = g._id))).map
          (fun e => e.amount)).sum)) ∧
    ((expenseStats sampleRuntime sampleStore 1).categoryBreakdown.map (fun g => g.count)).sum =
      (expenseStats sampleRuntime sampleStore 1).count ∧
    ((expenseStats sampleRuntime sampleStore 1).categoryBreakdown.map (fun g => g.total)).sum =
      (expenseStats sampleRuntime sampleStore 1).totalIncome +
        (expenseStats sampleRuntime sampleStore 1).totalExpense :=
  have hI : (expenseStats sampleRuntime sampleStore 1).totalIncome =
      ((sampleStore.filter (fun e => decide (e.user = 1 ∧ e.type = "Income"))).map
        (fun e => e.amount)).sum := by
    rw [expenseStats_sampleStore]
    simp [sampleStore, coffee, paycheck, rent]
  have hE : (expenseStats sampleRuntime sampleStore 1).totalExpense =
      ((sampleStore.filter (fun e => decide (e.user = 1 ∧ e.type = "Expense"))).map
        (fun e => e.amount)).sum := by
    rw [expenseStats_sampleStore]
    simp [sampleStore, coffee, paycheck, rent]
  have hC : ∀ g ∈ (expenseStats sampleRuntime sampleStore 1).categoryBreakdown,
      g.total = ((sampleStore.filter (fun e => decide (e.user = 1 ∧ e.category = g._id))).map
        (fun e => e.amount)).sum := by
    rw [expenseStats_sampleStore]
    intro g hg
    simp only [List.mem_cons, List.mem_singleton, List.not_mem_nil, or_false] at hg
    rcases hg with rfl | rfl
    · simp [sampleStore, coffee, paycheck, rent]
    · simp [sampleStore, coffee, paycheck, rent]
  ⟨by decide, ⟨hI, hE, hC⟩,
    (expenseStats_consistent sampleRuntime sampleStore 1 (by decide)).1,
    (expenseStats_consistent sampleRuntime sampleStore 1 (by decide)).2 hI hE hC⟩

end MoneyTrack
